import Mathlib

/-!
# Peak picker kernels: a shallow embedding and its verified properties

The repository holds four C++ (Vitis HLS) variants of one sliding-window peak
detector:

* `HLS/origin/peakPicker.cpp`    : batch kernel over arrays, several channels;
* `HLS/perf_opt1/peakPicker.cpp` : streaming kernel that first copies the
  streams into arrays;
* `HLS/perf_opt2/peakPicker.cpp` : streaming kernel over a shift register of
  run-time length;
* `HLS/perf_opt3/peakPicker.cpp` : streaming kernel over a shift register of
  fixed length 11.

Each kernel is translated loop by loop.  A C `for` loop becomes a function that
is structurally recursive on a fuel argument, tests the loop condition of the
source explicitly and answers `none` (or a fault) when the fuel is used up, so
that every result stated below is a result of a run that has really finished.
C `int` values are integers, unsigned values are naturals with the wrap-around
written out, arrays are functions from the index, and streams are lists whose
head is the next value to be read.
-/

namespace PeakPicker

/-- Scalar standing for `ap_fixed<20,1>`.  The kernels only compare such values
(`<`, `>`, `>=`) and initialise them with zero, so a sample is kept as the
integer that carries its order. -/
abbrev DataType := Int

/-- Array store `a[i] = v` on an array modelled as a function of the index. -/
def store {ι α : Type} [DecidableEq ι] (a : ι → α) (i : ι) (v : α) : ι → α :=
  fun j => if j = i then v else a j

/-- Content `a[0], ..., a[n-1]` of an `int` array, as a list. -/
def cellsBelow (a : Int → Int) (n : Int) : List Int :=
  (List.range n.toNat).map (fun (j : Nat) => a (j : Int))

/-- Array seen by a kernel when the caller has filled it from a list (cells
past the end of the list hold zero). -/
def ofList (l : List DataType) : Int → DataType :=
  fun i => if 0 ≤ i then l.getD i.toNat 0 else 0

/-! ## `HLS/origin/peakPicker.cpp` -/

namespace Origin

/-- Constant `MAX_XCORR_LENGTH` of the header (`#define MAX_XCORR_LENGTH 10000`). -/
def MAX_XCORR_LENGTH : Int := 10000

/-- Constant `MAX_WINDOW_LENGTH` of the header (`#define MAX_WINDOW_LENGTH 31`). -/
def MAX_WINDOW_LENGTH : Int := 31

/-- Constant `MAX_SEQ_NUMBER` of the header (`#define MAX_SEQ_NUMBER 8`). -/
def MAX_SEQ_NUMBER : Int := 8

/-- Constant `MAX_LOCATIONS` of the header (`#define MAX_LOCATIONS 1000`). -/
def MAX_LOCATIONS : Int := 1000

/-- Variables written by the loop `THRESHOLD_CHECK`. -/
structure ThresholdVars where
  thresholdExceeded : Bool
  validSeqCount : Int
  validSeqIndices : Int → Int

/-- Loop `THRESHOLD_CHECK` (lines 46-53): `for (seq = 0; seq < seqCount; seq++)`,
recording every channel whose candidate sample reaches the threshold. -/
def THRESHOLD_CHECK (xcorr : Int → Int → DataType) (threshold : Int → DataType)
    (seqCount candidateLocation : Int) : Nat → Int → ThresholdVars → Option ThresholdVars
  | 0, _, _ => none
  | fuel + 1, seq, vars =>
    if seq < seqCount then
      if xcorr candidateLocation seq ≥ threshold candidateLocation then
        THRESHOLD_CHECK xcorr threshold seqCount candidateLocation fuel (seq + 1)
          ⟨true, vars.validSeqCount + 1, store vars.validSeqIndices vars.validSeqCount seq⟩
      else
        THRESHOLD_CHECK xcorr threshold seqCount candidateLocation fuel (seq + 1) vars
    else some vars

/-- Loop `WINDOW_CHECK` (lines 64-71): `isMax` starts `true` and the loop leaves
with `false` at the first window sample that is larger than the candidate. -/
def WINDOW_CHECK (xcorr : Int → Int → DataType) (windowLength candidateLocation index seq : Int) :
    Nat → Int → Option Bool
  | 0, _ => none
  | fuel + 1, w =>
    if w < windowLength then
      if xcorr candidateLocation seq < xcorr (index + w) seq then some false
      else WINDOW_CHECK xcorr windowLength candidateLocation index seq fuel (w + 1)
    else some true

/-- Loop `VALID_SEQ_LOOP` (lines 59-76): counts in `maxCheckCount` the recorded
channels for which the candidate is the maximum of its window. -/
def VALID_SEQ_LOOP (xcorr : Int → Int → DataType) (windowLength candidateLocation index : Int)
    (validSeqIndices : Int → Int) (validSeqCount : Int) : Nat → Int → Int → Option Int
  | 0, _, _ => none
  | fuel + 1, v, maxCheckCount =>
    if v < validSeqCount then
      match WINDOW_CHECK xcorr windowLength candidateLocation index (validSeqIndices v)
          (windowLength.toNat + 1) 0 with
      | none => none
      | some isMax =>
        VALID_SEQ_LOOP xcorr windowLength candidateLocation index validSeqIndices validSeqCount
          fuel (v + 1) (if isMax then maxCheckCount + 1 else maxCheckCount)
    else some maxCheckCount

/-- Outputs of the kernel: the array `locations` and the counter `numLocations`. -/
structure Output where
  locations : Int → Int
  numLocations : Int

/-- Loop `SLIDE_WINDOW` (lines 34-89), with the capacity `MAX_LOCATIONS` of the
source as the argument `cap`.  The `break` of line 85 ends the loop. -/
def SLIDE_WINDOW (cap : Int) (xcorr : Int → Int → DataType) (threshold : Int → DataType)
    (xcorrLength seqCount windowLength middleLocation : Int) : Nat → Int → Output → Option Output
  | 0, _, _ => none
  | fuel + 1, index, out =>
    if index ≤ xcorrLength - windowLength then
      match THRESHOLD_CHECK xcorr threshold seqCount (index + middleLocation)
          (seqCount.toNat + 1) 0 ⟨false, 0, fun _ => 0⟩ with
      | none => none
      | some vars =>
        if vars.thresholdExceeded then
          match VALID_SEQ_LOOP xcorr windowLength (index + middleLocation) index
              vars.validSeqIndices vars.validSeqCount (vars.validSeqCount.toNat + 1) 0 0 with
          | none => none
          | some maxCheckCount =>
            if maxCheckCount = vars.validSeqCount then
              if out.numLocations + 1 ≥ cap then
                some ⟨store out.locations out.numLocations (index + middleLocation + 1),
                  out.numLocations + 1⟩
              else
                SLIDE_WINDOW cap xcorr threshold xcorrLength seqCount windowLength middleLocation
                  fuel (index + 1)
                  ⟨store out.locations out.numLocations (index + middleLocation + 1),
                    out.numLocations + 1⟩
            else
              SLIDE_WINDOW cap xcorr threshold xcorrLength seqCount windowLength middleLocation
                fuel (index + 1) out
        else
          SLIDE_WINDOW cap xcorr threshold xcorrLength seqCount windowLength middleLocation
            fuel (index + 1) out
    else some out

/-- The kernel `peakPicker` of `HLS/origin/peakPicker.cpp` with the capacity as
an argument: `middleLocation = windowLength / 2` (C division), `numLocations = 0`,
then the loop `SLIDE_WINDOW` from `index = 0`.  `locations` is the content of
the output array at the call. -/
def peakPickerCap (cap : Int) (xcorr : Int → Int → DataType) (threshold : Int → DataType)
    (xcorrLength seqCount windowLength : Int) (locations : Int → Int) : Option Output :=
  SLIDE_WINDOW cap xcorr threshold xcorrLength seqCount windowLength (Int.tdiv windowLength 2)
    ((xcorrLength - windowLength + 1).toNat + 1) 0 ⟨locations, 0⟩

/-- The kernel `peakPicker` of `HLS/origin/peakPicker.cpp`. -/
def peakPicker (xcorr : Int → Int → DataType) (threshold : Int → DataType)
    (xcorrLength seqCount windowLength : Int) (locations : Int → Int) : Option Output :=
  peakPickerCap MAX_LOCATIONS xcorr threshold xcorrLength seqCount windowLength locations

/-- Peak rule of the batch kernel at window start `i`, in the words of the
specification: with `c = i + windowLength/2`, some channel `s < seqCount` has
`xcorr[c][s] >= threshold[c]`, and every such channel has
`xcorr[c][s] >= xcorr[i+w][s]` for all `w < windowLength`. -/
def Qualifying (xcorr : Int → Int → DataType) (threshold : Int → DataType)
    (seqCount windowLength i : Nat) : Prop :=
  (∃ s, s < seqCount ∧
      xcorr ((i + windowLength / 2 : Nat) : Int) (s : Int)
        ≥ threshold ((i + windowLength / 2 : Nat) : Int)) ∧
  ∀ s, s < seqCount →
      xcorr ((i + windowLength / 2 : Nat) : Int) (s : Int)
        ≥ threshold ((i + windowLength / 2 : Nat) : Int) →
      ∀ w, w < windowLength →
        xcorr ((i + windowLength / 2 : Nat) : Int) (s : Int) ≥ xcorr ((i + w : Nat) : Int) (s : Int)

instance (xcorr : Int → Int → DataType) (threshold : Int → DataType)
    (seqCount windowLength i : Nat) :
    Decidable (Qualifying xcorr threshold seqCount windowLength i) := by
  unfold Qualifying; infer_instance

/-- Locations the specification expects from the batch kernel: `c + 1` for the
qualifying window starts `0 .. xcorrLength - windowLength` in increasing order,
cut after the first `cap` entries. -/
def expectedLocations (cap : Nat) (xcorr : Int → Int → DataType) (threshold : Int → DataType)
    (xcorrLength seqCount windowLength : Nat) : List Int :=
  (((List.range (xcorrLength + 1 - windowLength)).filter
      (fun i => decide (Qualifying xcorr threshold seqCount windowLength i))).map
      (fun i => ((i + windowLength / 2 + 1 : Nat) : Int))).take cap

/-! ### Auxiliary definitions for the proofs about the batch kernel -/

/-- Channels below `k` whose candidate sample reaches the threshold, in increasing order. -/
def validSeqs (xcorr : Int → Int → DataType) (threshold : Int → DataType) (c : Int) (k : Nat) :
    List Nat :=
  (List.range k).filter (fun (s : Nat) => decide (xcorr c (s : Int) ≥ threshold c))

/-- Invariant of `THRESHOLD_CHECK` before the iteration `seq = k`. -/
def ThresholdInv (xcorr : Int → Int → DataType) (threshold : Int → DataType) (c : Int) (k : Nat)
    (vars : ThresholdVars) : Prop :=
  vars.validSeqCount = ((validSeqs xcorr threshold c k).length : Int) ∧
  cellsBelow vars.validSeqIndices vars.validSeqCount
    = (validSeqs xcorr threshold c k).map (fun (s : Nat) => (s : Int)) ∧
  (vars.thresholdExceeded = true ↔ validSeqs xcorr threshold c k ≠ [])

/-- Result of `WINDOW_CHECK` as a test on the channel. -/
def isMaxB (xcorr : Int → Int → DataType) (W : Nat) (c index seq : Int) : Bool :=
  decide (∀ w : Nat, w < W → xcorr (index + (w : Int)) seq ≤ xcorr c seq)

/-- Locations stored for the window starts below `k` when nothing is cut. -/
def accepted (xcorr : Int → Int → DataType) (threshold : Int → DataType) (S W k : Nat) :
    List Int :=
  ((List.range k).filter (fun i => decide (Qualifying xcorr threshold S W i))).map
    (fun i => ((i + W / 2 + 1 : Nat) : Int))

end Origin

/-! ## Streams and unsigned arithmetic of the streaming kernels -/

/-- Ways in which a run of a kernel model does not return. -/
inductive Fault
  | outOfFuel
  | emptyRead
  deriving DecidableEq

deriving instance DecidableEq for Except

/-- Blocking `hls::stream::read()`: the head of the stream is taken off; on an
empty stream the run does not go on. -/
def streamRead {α : Type} : List α → Except Fault (α × List α)
  | [] => .error .emptyRead
  | a :: rest => .ok (a, rest)

/-- Subtraction `a - b` of two `unsigned int` values (`a, b < 2^32`), which
wraps around when `a < b`. -/
def usub32 (a b : Nat) : Nat := if b ≤ a then a - b else a + 4294967296 - b

/-- Addition `a + b` of two `unsigned int` values (`a, b < 2^32`), which wraps
around when the sum reaches `2^32`. -/
def uadd32 (a b : Nat) : Nat := if a + b < 4294967296 then a + b else a + b - 4294967296

/-- Conversion of a non-negative value to `LocationType = ap_uint<16>`. -/
def toLocationType (v : Nat) : Nat := v % 65536

/-! ## `HLS/perf_opt2/peakPicker.cpp` -/

namespace PerfOpt2

/-- Constant `MAX_WINDOW_LENGTH` of the header (`#define MAX_WINDOW_LENGTH 11`). -/
def MAX_WINDOW_LENGTH : Nat := 11

/-- Constant `MAX_PEAKS` of the header (`#define MAX_PEAKS 100`). -/
def MAX_PEAKS : Nat := 100

/-- Constant `MAX_SIGNAL_LENGTH` of the header (`#define MAX_SIGNAL_LENGTH 8192`). -/
def MAX_SIGNAL_LENGTH : Nat := 8192

/-- The four streams of the interface; written values are appended at the end. -/
structure Streams where
  xcorrStream : List DataType
  thresholdStream : List DataType
  peakLocStream : List Nat
  peakCountStream : List Nat
  deriving DecidableEq

/-- The two shift registers `xcorrBuffer` and `thresholdBuffer`. -/
structure Buffers where
  xcorrBuffer : Nat → DataType
  thresholdBuffer : Nat → DataType

/-- Loop `init_buffers` (lines 36-41). -/
def init_buffers (windowLength : Nat) : Nat → Nat → Buffers → Except Fault Buffers
  | 0, _, _ => .error .outOfFuel
  | fuel + 1, i, b =>
    if i < windowLength then
      init_buffers windowLength fuel (uadd32 i 1)
        ⟨store b.xcorrBuffer i 0, store b.thresholdBuffer i 0⟩
    else .ok b

/-- Loop `shift_buffer` (lines 52-57): `for (i = windowLength - 1; i > 0; i--)`;
inside the loop `i > 0`, so `i - 1` does not wrap. -/
def shift_buffer : Nat → Nat → Buffers → Except Fault Buffers
  | 0, _, _ => .error .outOfFuel
  | fuel + 1, i, b =>
    if i > 0 then
      shift_buffer fuel (i - 1)
        ⟨store b.xcorrBuffer i (b.xcorrBuffer (i - 1)),
          store b.thresholdBuffer i (b.thresholdBuffer (i - 1))⟩
    else .ok b

/-- Loop `check_local_max` (lines 74-80); it has no `break`. -/
def check_local_max (windowLength middleLocation : Nat) (xcorrBuffer : Nat → DataType)
    (middleSample : DataType) : Nat → Nat → Bool → Except Fault Bool
  | 0, _, _ => .error .outOfFuel
  | fuel + 1, i, isLocalMax =>
    if i < windowLength then
      check_local_max windowLength middleLocation xcorrBuffer middleSample fuel (uadd32 i 1)
        (if i ≠ middleLocation ∧ xcorrBuffer i > middleSample then false else isLocalMax)
    else .ok isLocalMax

/-- Variables alive across the iterations of `process_signal`; `peakCount` is a
`CountType = ap_uint<8>`. -/
structure State where
  buffers : Buffers
  peakCount : Nat
  streams : Streams

/-- Body of the loop `process_signal` (lines 49-87) for one value of `index`:
the shift, the two reads into cell 0, and, once `index >= windowLength - 1`,
the test of the middle cell.  In the source `middleSample` is
`xcorrBuffer[middleLocation]`, `currentThreshold` is
`thresholdBuffer[middleLocation]` and `candidateLocation` is
`index - middleLocation`, all taken after the two reads. -/
def process_signal_body (windowLength middleLocation index : Nat) (st : State) :
    Except Fault State :=
  match shift_buffer (usub32 windowLength 1 + 1) (usub32 windowLength 1) st.buffers with
  | .error f => .error f
  | .ok shifted =>
    match streamRead st.streams.xcorrStream with
    | .error f => .error f
    | .ok (x, xcorrStream) =>
      match streamRead st.streams.thresholdStream with
      | .error f => .error f
      | .ok (t, thresholdStream) =>
        if index ≥ usub32 windowLength 1 then
          match check_local_max windowLength middleLocation (store shifted.xcorrBuffer 0 x)
              (store shifted.xcorrBuffer 0 x middleLocation) (windowLength + 1) 0 true with
          | .error f => .error f
          | .ok isLocalMax =>
            if isLocalMax = true ∧
                store shifted.xcorrBuffer 0 x middleLocation
                  > store shifted.thresholdBuffer 0 t middleLocation ∧
                st.peakCount < MAX_PEAKS then
              .ok ⟨⟨store shifted.xcorrBuffer 0 x, store shifted.thresholdBuffer 0 t⟩,
                (st.peakCount + 1) % 256,
                ⟨xcorrStream, thresholdStream,
                  st.streams.peakLocStream
                    ++ [toLocationType (uadd32 (usub32 index middleLocation) 1)],
                  st.streams.peakCountStream⟩⟩
            else
              .ok ⟨⟨store shifted.xcorrBuffer 0 x, store shifted.thresholdBuffer 0 t⟩,
                st.peakCount,
                ⟨xcorrStream, thresholdStream, st.streams.peakLocStream,
                  st.streams.peakCountStream⟩⟩
        else
          .ok ⟨⟨store shifted.xcorrBuffer 0 x, store shifted.thresholdBuffer 0 t⟩,
            st.peakCount,
            ⟨xcorrStream, thresholdStream, st.streams.peakLocStream,
              st.streams.peakCountStream⟩⟩

/-- Loop `process_signal` (lines 47-88): `for (index = 0; index < signalLength; index++)`. -/
def process_signal (signalLength windowLength middleLocation : Nat) :
    Nat → Nat → State → Except Fault State
  | 0, _, _ => .error .outOfFuel
  | fuel + 1, index, st =>
    if index < signalLength then
      match process_signal_body windowLength middleLocation index st with
      | .error f => .error f
      | .ok st' => process_signal signalLength windowLength middleLocation fuel (uadd32 index 1) st'
    else .ok st

/-- How a call of the kernel ends. -/
inductive Outcome
  | returned (streams : Streams)
  | assertFailed (streams : Streams)
  | stuck (fault : Fault)
  deriving DecidableEq

/-- The kernel `peakPicker` of `HLS/perf_opt2/peakPicker.cpp`.  A failed `assert`
ends the call with the streams as they are at that point; the local arrays
start from zero cells, and `init_buffers` then writes the first `windowLength`
of them. -/
def peakPicker (streams : Streams) (signalLength windowLength : Nat) : Outcome :=
  if ¬ windowLength ≤ MAX_WINDOW_LENGTH then .assertFailed streams
  else if ¬ signalLength ≤ MAX_SIGNAL_LENGTH then .assertFailed streams
  else if ¬ windowLength % 2 = 1 then .assertFailed streams
  else
    match init_buffers windowLength (windowLength + 1) 0 ⟨fun _ => 0, fun _ => 0⟩ with
    | .error f => .stuck f
    | .ok buffers =>
      match process_signal signalLength windowLength (windowLength / 2) (signalLength + 1) 0
          ⟨buffers, 0, streams⟩ with
      | .error f => .stuck f
      | .ok st =>
        .returned ⟨st.streams.xcorrStream, st.streams.thresholdStream, st.streams.peakLocStream,
          st.streams.peakCountStream ++ [st.peakCount]⟩

/-- Shift registers right after the iteration `index = k` of `process_signal`
(the body of the loop does not depend on `signalLength`, so this is the state a
run with any `signalLength > k` is in at that point). -/
def buffersAfter (streams : Streams) (windowLength k : Nat) : Except Fault Buffers :=
  match init_buffers windowLength (windowLength + 1) 0 ⟨fun _ => 0, fun _ => 0⟩ with
  | .error f => .error f
  | .ok buffers =>
    match process_signal (k + 1) windowLength (windowLength / 2) (k + 2) 0
        ⟨buffers, 0, streams⟩ with
    | .error f => .error f
    | .ok st => .ok st.buffers

/-- Peak rule of the streaming kernels at candidate `c`, in the words of the
specification: `x[c] > t[c]` and `x[q] <= x[c]` for every `q` in `c-m .. c+m`. -/
def IsPeak (x t : List DataType) (m c : Nat) : Prop :=
  x.getD c 0 > t.getD c 0 ∧ ∀ q, c - m ≤ q → q ≤ c + m → x.getD q 0 ≤ x.getD c 0

instance (x t : List DataType) (m c : Nat) : Decidable (IsPeak x t m c) := by
  unfold IsPeak; infer_instance

/-- Locations the specification expects on `peakLocStream`: `c + 1` for the
candidates `c` in `m .. n-1-m` that satisfy the rule, in increasing order, cut
after the first `cap` of them (`m = windowLength / 2`). -/
def expectedPeaks (cap : Nat) (x t : List DataType) (n windowLength : Nat) : List Nat :=
  (((List.range' (windowLength / 2) (n - 2 * (windowLength / 2))).filter
      (fun c => decide (IsPeak x t (windowLength / 2) c))).map (fun c => c + 1)).take cap

/-! ### Auxiliary definitions for the proofs about the shift-register kernel -/

/-- Locations of the candidates judged before the iteration `index = k` of
`process_signal` that satisfy the rule (`m = windowLength / 2`); these are the
candidates `m .. k-1-m`. -/
def candidates (x t : List DataType) (m k : Nat) : List Nat :=
  ((List.range' m (k - 2 * m)).filter (fun c => decide (IsPeak x t m c))).map (fun c => c + 1)

/-- Locations written to `peakLocStream` before the iteration `index = k` of
`process_signal`, for a capacity `cap`. -/
def emitted (cap : Nat) (x t : List DataType) (m k : Nat) : List Nat :=
  (candidates x t m k).take cap

/-- Invariant of `process_signal` before the iteration `index = k`, for input
streams `x`, `t` and output streams that held `loc0`, `cnt0` at the call. -/
def Inv (x t : List DataType) (loc0 cnt0 : List Nat) (W m k : Nat) (st : State) : Prop :=
  (∀ j, j < W → st.buffers.xcorrBuffer j = if j < k then x.getD (k - 1 - j) 0 else 0) ∧
  (∀ j, j < W → st.buffers.thresholdBuffer j = if j < k then t.getD (k - 1 - j) 0 else 0) ∧
  st.streams.xcorrStream = x.drop k ∧
  st.streams.thresholdStream = t.drop k ∧
  st.streams.peakLocStream = loc0 ++ emitted MAX_PEAKS x t m k ∧
  st.streams.peakCountStream = cnt0 ∧
  st.peakCount = (emitted MAX_PEAKS x t m k).length

end PerfOpt2

/-! ## `HLS/perf_opt1/peakPicker.cpp` -/

namespace PerfOpt1

/-- Constant `MAX_SIGNAL_LENGTH` of the header (`#define MAX_SIGNAL_LENGTH 8192`). -/
def MAX_SIGNAL_LENGTH : Nat := 8192

/-- Constant `MAX_WINDOW_LENGTH` of the header (`#define MAX_WINDOW_LENGTH 15`). -/
def MAX_WINDOW_LENGTH : Nat := 15

/-- Constant `MAX_PEAKS` of the header (`#define MAX_PEAKS 100`). -/
def MAX_PEAKS : Nat := 100

/-- The three streams of the interface; written values are appended at the end. -/
structure Streams where
  xcorrStream : List DataType
  thresholdStream : List DataType
  locationsStream : List Nat
  deriving DecidableEq

/-- The local arrays `xcorr` and `threshold` together with the input streams
they are filled from. -/
structure ReadState where
  xcorr : Nat → DataType
  threshold : Nat → DataType
  xcorrStream : List DataType
  thresholdStream : List DataType

/-- Loop `InputRead` (lines 28-32); `i` is a `uint16_t`. -/
def InputRead (signalLength : Nat) : Nat → Nat → ReadState → Except Fault ReadState
  | 0, _, _ => .error .outOfFuel
  | fuel + 1, i, st =>
    if i < signalLength then
      match streamRead st.xcorrStream with
      | .error f => .error f
      | .ok (x, xcorrStream) =>
        match streamRead st.thresholdStream with
        | .error f => .error f
        | .ok (t, thresholdStream) =>
          InputRead signalLength fuel ((i + 1) % 65536)
            ⟨store st.xcorr i x, store st.threshold i t, xcorrStream, thresholdStream⟩
    else .ok st

/-- Loop `WindowCheck` (lines 53-61); `w` is a `uint16_t`, `index + w` an `int`.
The loop has no `break`. -/
def WindowCheck (windowLength middleLocation index : Nat) (xcorr : Nat → DataType)
    (midSample : DataType) : Nat → Nat → Bool → Except Fault Bool
  | 0, _, _ => .error .outOfFuel
  | fuel + 1, w, isLocalMax =>
    if w < windowLength then
      WindowCheck windowLength middleLocation index xcorr midSample fuel ((w + 1) % 65536)
        (if w ≠ middleLocation then
          (if xcorr (index + w) > midSample then false else isLocalMax)
        else isLocalMax)
    else .ok isLocalMax

/-- Variables written by the loop `ProcessSignal`; `numPeaks` is a `uint16_t`. -/
structure PeakState where
  locationsStream : List Nat
  numPeaks : Nat

/-- Loop `ProcessSignal` (lines 41-71).  The bound `signalLength - windowLength + 1`
is computed in `int`; `index` and `candidateLocation` are `uint16_t`. -/
def ProcessSignal (signalLength windowLength middleLocation : Nat)
    (xcorr threshold : Nat → DataType) : Nat → Nat → PeakState → Except Fault PeakState
  | 0, _, _ => .error .outOfFuel
  | fuel + 1, index, st =>
    if (index : Int) < (signalLength : Int) - (windowLength : Int) + 1 then
      match WindowCheck windowLength middleLocation index xcorr
          (xcorr ((index + middleLocation) % 65536)) (windowLength + 1) 0 true with
      | .error f => .error f
      | .ok isLocalMax =>
        if isLocalMax ∧
            xcorr ((index + middleLocation) % 65536) > threshold ((index + middleLocation) % 65536) ∧
            st.numPeaks < MAX_PEAKS then
          ProcessSignal signalLength windowLength middleLocation xcorr threshold fuel
            ((index + 1) % 65536)
            ⟨st.locationsStream ++ [toLocationType ((index + middleLocation) % 65536 + 1)],
              (st.numPeaks + 1) % 65536⟩
        else
          ProcessSignal signalLength windowLength middleLocation xcorr threshold fuel
            ((index + 1) % 65536) st
    else .ok st

/-- What the caller sees after the call: the streams and `numPeaks`. -/
structure Result where
  streams : Streams
  numPeaks : Nat
  deriving DecidableEq

/-- The kernel `peakPicker` of `HLS/perf_opt1/peakPicker.cpp`; `signalLength` and
`windowLength` are `uint16_t`.  The local arrays start from zero cells. -/
def peakPicker (streams : Streams) (signalLength windowLength : Nat) : Except Fault Result :=
  match InputRead signalLength (signalLength + 1) 0
      ⟨fun _ => 0, fun _ => 0, streams.xcorrStream, streams.thresholdStream⟩ with
  | .error f => .error f
  | .ok rd =>
    match ProcessSignal signalLength windowLength (windowLength / 2) rd.xcorr rd.threshold
        (signalLength + 2) 0 ⟨streams.locationsStream, 0⟩ with
    | .error f => .error f
    | .ok st => .ok ⟨⟨rd.xcorrStream, rd.thresholdStream, st.locationsStream⟩, st.numPeaks⟩

/-! ### Auxiliary definitions for the proofs about the array kernel -/

/-- Content of a local array after `InputRead` has copied `n` samples of the
stream `x` into it (the other cells keep their initial zero). -/
def arrayOf (x : List DataType) (n : Nat) : Nat → DataType :=
  fun i => if i < n then x.getD i 0 else 0

/-- Test of lines 50-64 for the window starting at `index`: no window sample
other than the middle one is larger than the middle one, and the middle one is
larger than its threshold. -/
def WindowRule (xcorr threshold : Nat → DataType) (W index : Nat) : Prop :=
  (∀ j, j < W → j ≠ W / 2 → xcorr (index + j) ≤ xcorr (index + W / 2)) ∧
    xcorr (index + W / 2) > threshold (index + W / 2)

instance (xcorr threshold : Nat → DataType) (W index : Nat) :
    Decidable (WindowRule xcorr threshold W index) := by
  unfold WindowRule; infer_instance

/-- Locations of the window starts below `k` that pass the test, in increasing order. -/
def passed (xcorr threshold : Nat → DataType) (W k : Nat) : List Nat :=
  ((List.range k).filter (fun i => decide (WindowRule xcorr threshold W i))).map
    (fun i => i + W / 2 + 1)

/-- Locations the array kernel writes for a signal of `n` samples: the first
`MAX_PEAKS` of the locations that pass the test. -/
def expectedWritten (x t : List DataType) (n W : Nat) : List Nat :=
  (passed (arrayOf x n) (arrayOf t n) W (n + 1 - W)).take MAX_PEAKS

end PerfOpt1

/-! ## `HLS/perf_opt3/peakPicker.cpp` -/

namespace PerfOpt3

/-- Constant `WINDOW_LENGTH` of the header (`constexpr int WINDOW_LENGTH = 11`). -/
def WINDOW_LENGTH : Int := 11

/-- Constant `MIDDLE_LOCATION` of the header
(`constexpr int MIDDLE_LOCATION = WINDOW_LENGTH / 2`). -/
def MIDDLE_LOCATION : Int := Int.tdiv WINDOW_LENGTH 2

/-- Constant `MAX_PEAKS` of the header
(`constexpr int MAX_PEAKS = 100; // Maximum number of peaks to detect`).  The kernel
never refers to it. -/
def MAX_PEAKS : Int := 100

/-- Conversion of an `int` to `LocationType = ap_uint<16>`: the low 16 bits. -/
def intToLocationType (v : Int) : Nat := (v % 65536).toNat

/-- The three streams of the interface; written values are appended at the end. -/
structure Streams where
  xcorrStream : List DataType
  thresholdStream : List DataType
  locationsStream : List Nat
  deriving DecidableEq

/-- The two shift registers `xcorrBuffer` and `thresholdBuffer`. -/
structure Buffers where
  xcorrBuffer : Int → DataType
  thresholdBuffer : Int → DataType

/-- Loop `init_buffers` (lines 24-29). -/
def init_buffers : Nat → Int → Buffers → Except Fault Buffers
  | 0, _, _ => .error .outOfFuel
  | fuel + 1, i, b =>
    if i < WINDOW_LENGTH then
      init_buffers fuel (i + 1) ⟨store b.xcorrBuffer i 0, store b.thresholdBuffer i 0⟩
    else .ok b

/-- Loop `shift_buffers` (lines 37-42). -/
def shift_buffers : Nat → Int → Buffers → Except Fault Buffers
  | 0, _, _ => .error .outOfFuel
  | fuel + 1, i, b =>
    if i > 0 then
      shift_buffers fuel (i - 1)
        ⟨store b.xcorrBuffer i (b.xcorrBuffer (i - 1)),
          store b.thresholdBuffer i (b.thresholdBuffer (i - 1))⟩
    else .ok b

/-- Loop `compare_samples` (lines 56-62); it has no `break`. -/
def compare_samples (xcorrBuffer : Int → DataType) (midSample : DataType) :
    Nat → Int → Bool → Except Fault Bool
  | 0, _, _ => .error .outOfFuel
  | fuel + 1, i, isPeak =>
    if i < WINDOW_LENGTH then
      compare_samples xcorrBuffer midSample fuel (i + 1)
        (if i ≠ MIDDLE_LOCATION ∧ xcorrBuffer i > midSample then false else isPeak)
    else .ok isPeak

/-- Variables alive across the iterations of `process_signal`. -/
structure State where
  buffers : Buffers
  streams : Streams

/-- Cells 0 of the two shift registers and the input streams after lines 44-48:
the new pair is read only when neither input stream is empty. -/
def readIfAvailable (shifted : Buffers) (xcorrStream thresholdStream : List DataType) :
    Buffers × List DataType × List DataType :=
  match xcorrStream, thresholdStream with
  | x :: xcorrRest, t :: thresholdRest =>
    (⟨store shifted.xcorrBuffer 0 x, store shifted.thresholdBuffer 0 t⟩, xcorrRest, thresholdRest)
  | _, _ => (shifted, xcorrStream, thresholdStream)

/-- Lines 50-69 of the loop body: the test of the middle cell once
`index >= WINDOW_LENGTH - 1`.  The location is first converted to
`LocationType` (`peakLocation`), and the sum with `1` is converted again when
it is written to the stream. -/
def check_peak (index : Int) (buffers : Buffers) (locationsStream : List Nat) :
    Except Fault (List Nat) :=
  if index ≥ WINDOW_LENGTH - 1 then
    match compare_samples buffers.xcorrBuffer (buffers.xcorrBuffer MIDDLE_LOCATION)
        (WINDOW_LENGTH.toNat + 1) 0 true with
    | .error f => .error f
    | .ok isPeak =>
      if isPeak = true ∧
          buffers.xcorrBuffer MIDDLE_LOCATION > buffers.thresholdBuffer MIDDLE_LOCATION then
        .ok (locationsStream
          ++ [toLocationType (intToLocationType (index - MIDDLE_LOCATION) + 1)])
      else .ok locationsStream
  else .ok locationsStream

/-- Body of the loop `process_signal` (lines 34-69) for one value of `index`. -/
def process_signal_body (index : Int) (st : State) : Except Fault State :=
  match shift_buffers WINDOW_LENGTH.toNat (WINDOW_LENGTH - 1) st.buffers with
  | .error f => .error f
  | .ok shifted =>
    match check_peak index
        (readIfAvailable shifted st.streams.xcorrStream st.streams.thresholdStream).1
        st.streams.locationsStream with
    | .error f => .error f
    | .ok locationsStream =>
      .ok ⟨(readIfAvailable shifted st.streams.xcorrStream st.streams.thresholdStream).1,
        ⟨(readIfAvailable shifted st.streams.xcorrStream st.streams.thresholdStream).2.1,
          (readIfAvailable shifted st.streams.xcorrStream st.streams.thresholdStream).2.2,
          locationsStream⟩⟩

/-- Loop `process_signal` (lines 32-70): `for (int index = 0; index < signalLength; index++)`. -/
def process_signal (signalLength : Int) : Nat → Int → State → Except Fault State
  | 0, _, _ => .error .outOfFuel
  | fuel + 1, index, st =>
    if index < signalLength then
      match process_signal_body index st with
      | .error f => .error f
      | .ok st' => process_signal signalLength fuel (index + 1) st'
    else .ok st

/-- The kernel `peakPicker` of `HLS/perf_opt3/peakPicker.cpp`.  The local arrays
start from zero cells, and `init_buffers` then writes all of them. -/
def peakPicker (streams : Streams) (signalLength : Int) : Except Fault Streams :=
  match init_buffers (WINDOW_LENGTH.toNat + 1) 0 ⟨fun _ => 0, fun _ => 0⟩ with
  | .error f => .error f
  | .ok buffers =>
    match process_signal signalLength (signalLength.toNat + 1) 0 ⟨buffers, streams⟩ with
    | .error f => .error f
    | .ok st => .ok st.streams

/-! ### Auxiliary definitions for the proofs about the fixed-window kernel -/

/-- Invariant of `process_signal` before the iteration `index = k`, for input
streams `x`, `t` that hold more than `k` samples and a `locationsStream` that
held `loc0` at the call. -/
def Inv (x t : List DataType) (loc0 : List Nat) (k : Nat) (st : State) : Prop :=
  (∀ j : Nat, j < 11 →
    st.buffers.xcorrBuffer (j : Int) = if j < k then x.getD (k - 1 - j) 0 else 0) ∧
  (∀ j : Nat, j < 11 →
    st.buffers.thresholdBuffer (j : Int) = if j < k then t.getD (k - 1 - j) 0 else 0) ∧
  st.streams.xcorrStream = x.drop k ∧
  st.streams.thresholdStream = t.drop k ∧
  st.streams.locationsStream = loc0 ++ (PerfOpt2.candidates x t 5 k).map toLocationType

end PerfOpt3

/-! ## `HLS/origin/peakPicker.cpp` with its array accesses recorded -/

namespace Origin

/-- One array access of the batch kernel: the array, read or write, and the
index expressions of the source evaluated at that point. -/
inductive Access
  | xcorrRead (r s : Int)
  | thresholdRead (r : Int)
  | validSeqIndicesWrite (j : Int)
  | validSeqIndicesRead (j : Int)
  | locationsWrite (j : Int)
  deriving DecidableEq

/-- Bounds asked of an access in a call with `xcorrLength` samples and
`seqCount` channels: reads of `xcorr[r][s]` and `threshold[r]` stay inside the
signal and the channels, accesses of `validSeqIndices` stay inside its
`MAX_SEQ_NUMBER` cells and writes of `locations` inside its `MAX_LOCATIONS`
cells. -/
def Access.InBounds (xcorrLength seqCount : Int) : Access → Prop
  | .xcorrRead r s => 0 ≤ r ∧ r < xcorrLength ∧ 0 ≤ s ∧ s < seqCount
  | .thresholdRead r => 0 ≤ r ∧ r < xcorrLength
  | .validSeqIndicesWrite j => 0 ≤ j ∧ j < MAX_SEQ_NUMBER
  | .validSeqIndicesRead j => 0 ≤ j ∧ j < MAX_SEQ_NUMBER
  | .locationsWrite j => 0 ≤ j ∧ j < MAX_LOCATIONS

instance (xcorrLength seqCount : Int) (a : Access) :
    Decidable (a.InBounds xcorrLength seqCount) := by
  cases a <;> unfold Access.InBounds <;> infer_instance

namespace Traced

/-- Loop `THRESHOLD_CHECK` (lines 46-53) with the accesses of each iteration
appended to `log`: the two reads of the test of line 48 and, when the test
holds, the write of line 50. -/
def THRESHOLD_CHECK (xcorr : Int → Int → DataType) (threshold : Int → DataType)
    (seqCount candidateLocation : Int) :
    Nat → Int → ThresholdVars → List Access → Option (ThresholdVars × List Access)
  | 0, _, _, _ => none
  | fuel + 1, seq, vars, log =>
    if seq < seqCount then
      if xcorr candidateLocation seq ≥ threshold candidateLocation then
        THRESHOLD_CHECK xcorr threshold seqCount candidateLocation fuel (seq + 1)
          ⟨true, vars.validSeqCount + 1, store vars.validSeqIndices vars.validSeqCount seq⟩
          (log ++ [.xcorrRead candidateLocation seq, .thresholdRead candidateLocation,
            .validSeqIndicesWrite vars.validSeqCount])
      else
        THRESHOLD_CHECK xcorr threshold seqCount candidateLocation fuel (seq + 1) vars
          (log ++ [.xcorrRead candidateLocation seq, .thresholdRead candidateLocation])
    else some (vars, log)

/-- Loop `WINDOW_CHECK` (lines 64-71) with the two reads of line 67 appended to
`log` at each iteration. -/
def WINDOW_CHECK (xcorr : Int → Int → DataType) (windowLength candidateLocation index seq : Int) :
    Nat → Int → List Access → Option (Bool × List Access)
  | 0, _, _ => none
  | fuel + 1, w, log =>
    if w < windowLength then
      if xcorr candidateLocation seq < xcorr (index + w) seq then
        some (false, log ++ [.xcorrRead candidateLocation seq, .xcorrRead (index + w) seq])
      else
        WINDOW_CHECK xcorr windowLength candidateLocation index seq fuel (w + 1)
          (log ++ [.xcorrRead candidateLocation seq, .xcorrRead (index + w) seq])
    else some (true, log)

/-- Loop `VALID_SEQ_LOOP` (lines 59-76) with the read of line 61 and the
accesses of `WINDOW_CHECK` appended to `log`. -/
def VALID_SEQ_LOOP (xcorr : Int → Int → DataType) (windowLength candidateLocation index : Int)
    (validSeqIndices : Int → Int) (validSeqCount : Int) :
    Nat → Int → Int → List Access → Option (Int × List Access)
  | 0, _, _, _ => none
  | fuel + 1, v, maxCheckCount, log =>
    if v < validSeqCount then
      match WINDOW_CHECK xcorr windowLength candidateLocation index (validSeqIndices v)
          (windowLength.toNat + 1) 0 (log ++ [.validSeqIndicesRead v]) with
      | none => none
      | some (isMax, log1) =>
        VALID_SEQ_LOOP xcorr windowLength candidateLocation index validSeqIndices validSeqCount
          fuel (v + 1) (if isMax then maxCheckCount + 1 else maxCheckCount) log1
    else some (maxCheckCount, log)

/-- Loop `SLIDE_WINDOW` (lines 34-89) with the accesses of the inner loops and
the write of line 80 appended to `log`. -/
def SLIDE_WINDOW (cap : Int) (xcorr : Int → Int → DataType) (threshold : Int → DataType)
    (xcorrLength seqCount windowLength middleLocation : Int) :
    Nat → Int → Output → List Access → Option (Output × List Access)
  | 0, _, _, _ => none
  | fuel + 1, index, out, log =>
    if index ≤ xcorrLength - windowLength then
      match THRESHOLD_CHECK xcorr threshold seqCount (index + middleLocation)
          (seqCount.toNat + 1) 0 ⟨false, 0, fun _ => 0⟩ log with
      | none => none
      | some (vars, log1) =>
        if vars.thresholdExceeded then
          match VALID_SEQ_LOOP xcorr windowLength (index + middleLocation) index
              vars.validSeqIndices vars.validSeqCount (vars.validSeqCount.toNat + 1) 0 0 log1 with
          | none => none
          | some (maxCheckCount, log2) =>
            if maxCheckCount = vars.validSeqCount then
              if out.numLocations + 1 ≥ cap then
                some (⟨store out.locations out.numLocations (index + middleLocation + 1),
                  out.numLocations + 1⟩, log2 ++ [.locationsWrite out.numLocations])
              else
                SLIDE_WINDOW cap xcorr threshold xcorrLength seqCount windowLength middleLocation
                  fuel (index + 1)
                  ⟨store out.locations out.numLocations (index + middleLocation + 1),
                    out.numLocations + 1⟩
                  (log2 ++ [.locationsWrite out.numLocations])
            else
              SLIDE_WINDOW cap xcorr threshold xcorrLength seqCount windowLength middleLocation
                fuel (index + 1) out log2
        else
          SLIDE_WINDOW cap xcorr threshold xcorrLength seqCount windowLength middleLocation
            fuel (index + 1) out log1
    else some (out, log)

/-- The kernel `peakPicker` of `HLS/origin/peakPicker.cpp` with the list of its
array accesses, in the order in which they are made. -/
def peakPicker (xcorr : Int → Int → DataType) (threshold : Int → DataType)
    (xcorrLength seqCount windowLength : Int) (locations : Int → Int) :
    Option (Output × List Access) :=
  SLIDE_WINDOW MAX_LOCATIONS xcorr threshold xcorrLength seqCount windowLength
    (Int.tdiv windowLength 2) ((xcorrLength - windowLength + 1).toNat + 1) 0 ⟨locations, 0⟩ []

end Traced

end Origin

/-! ## The shift registers of `HLS/perf_opt2` from uninitialised arrays -/

namespace PerfOpt2

/-- Shift registers right after the iteration `index = k` of `process_signal`,
for local arrays that hold `uninit` before the loop `init_buffers` runs: the
declarations `DataType xcorrBuffer[MAX_WINDOW_LENGTH]` and
`ThresholdType thresholdBuffer[MAX_WINDOW_LENGTH]` (lines 28 and 32) do not
initialise the arrays, so `uninit` is arbitrary.  The body of the loop does not
depend on `signalLength`, so this is the state a run with any
`signalLength > k` is in at that point. -/
def buffersAfterFrom (uninit : Buffers) (streams : Streams) (windowLength k : Nat) :
    Except Fault Buffers :=
  match init_buffers windowLength (windowLength + 1) 0 uninit with
  | .error f => .error f
  | .ok buffers =>
    match process_signal (k + 1) windowLength (windowLength / 2) (k + 2) 0
        ⟨buffers, 0, streams⟩ with
    | .error f => .error f
    | .ok st => .ok st.buffers

end PerfOpt2

/-! ## The streaming kernels with their stores and judged candidates recorded -/

namespace PerfOpt1

namespace Traced

/-- Loop `InputRead` (lines 28-32) with the index `i` of the two stores
`xcorr[i] = ...` and `threshold[i] = ...` of each iteration appended to
`stores`. -/
def InputRead (signalLength : Nat) :
    Nat → Nat → ReadState → List Nat → Except Fault (ReadState × List Nat)
  | 0, _, _, _ => .error .outOfFuel
  | fuel + 1, i, st, stores =>
    if i < signalLength then
      match streamRead st.xcorrStream with
      | .error f => .error f
      | .ok (x, xcorrStream) =>
        match streamRead st.thresholdStream with
        | .error f => .error f
        | .ok (t, thresholdStream) =>
          InputRead signalLength fuel ((i + 1) % 65536)
            ⟨store st.xcorr i x, store st.threshold i t, xcorrStream, thresholdStream⟩
            (stores ++ [i])
    else .ok (st, stores)

/-- Loop `ProcessSignal` (lines 41-71) with the `candidateLocation` of each
iteration (line 45) appended to `judged`. -/
def ProcessSignal (signalLength windowLength middleLocation : Nat)
    (xcorr threshold : Nat → DataType) :
    Nat → Nat → PeakState → List Nat → Except Fault (PeakState × List Nat)
  | 0, _, _, _ => .error .outOfFuel
  | fuel + 1, index, st, judged =>
    if (index : Int) < (signalLength : Int) - (windowLength : Int) + 1 then
      match WindowCheck windowLength middleLocation index xcorr
          (xcorr ((index + middleLocation) % 65536)) (windowLength + 1) 0 true with
      | .error f => .error f
      | .ok isLocalMax =>
        if isLocalMax ∧
            xcorr ((index + middleLocation) % 65536) > threshold ((index + middleLocation) % 65536) ∧
            st.numPeaks < MAX_PEAKS then
          ProcessSignal signalLength windowLength middleLocation xcorr threshold fuel
            ((index + 1) % 65536)
            ⟨st.locationsStream ++ [toLocationType ((index + middleLocation) % 65536 + 1)],
              (st.numPeaks + 1) % 65536⟩
            (judged ++ [(index + middleLocation) % 65536])
        else
          ProcessSignal signalLength windowLength middleLocation xcorr threshold fuel
            ((index + 1) % 65536) st (judged ++ [(index + middleLocation) % 65536])
    else .ok (st, judged)

/-- The kernel `peakPicker` of `HLS/perf_opt1/peakPicker.cpp` with two records:
the indices at which `InputRead` stores into the local arrays, and the
candidate locations judged by `ProcessSignal`, each in the order of the run. -/
def peakPicker (streams : Streams) (signalLength windowLength : Nat) :
    Except Fault (Result × List Nat × List Nat) :=
  match InputRead signalLength (signalLength + 1) 0
      ⟨fun _ => 0, fun _ => 0, streams.xcorrStream, streams.thresholdStream⟩ [] with
  | .error f => .error f
  | .ok (rd, stores) =>
    match ProcessSignal signalLength windowLength (windowLength / 2) rd.xcorr rd.threshold
        (signalLength + 2) 0 ⟨streams.locationsStream, 0⟩ [] with
    | .error f => .error f
    | .ok (st, judged) =>
      .ok (⟨⟨rd.xcorrStream, rd.thresholdStream, st.locationsStream⟩, st.numPeaks⟩, stores,
        judged)

end Traced

end PerfOpt1

namespace PerfOpt2

namespace Traced

/-- Body of the loop `process_signal` (lines 49-87) with the
`candidateLocation` of line 65 appended to `judged` when the test of line 64
holds. -/
def process_signal_body (windowLength middleLocation index : Nat) (st : State)
    (judged : List Nat) : Except Fault (State × List Nat) :=
  match shift_buffer (usub32 windowLength 1 + 1) (usub32 windowLength 1) st.buffers with
  | .error f => .error f
  | .ok shifted =>
    match streamRead st.streams.xcorrStream with
    | .error f => .error f
    | .ok (x, xcorrStream) =>
      match streamRead st.streams.thresholdStream with
      | .error f => .error f
      | .ok (t, thresholdStream) =>
        if index ≥ usub32 windowLength 1 then
          match check_local_max windowLength middleLocation (store shifted.xcorrBuffer 0 x)
              (store shifted.xcorrBuffer 0 x middleLocation) (windowLength + 1) 0 true with
          | .error f => .error f
          | .ok isLocalMax =>
            if isLocalMax = true ∧
                store shifted.xcorrBuffer 0 x middleLocation
                  > store shifted.thresholdBuffer 0 t middleLocation ∧
                st.peakCount < MAX_PEAKS then
              .ok (⟨⟨store shifted.xcorrBuffer 0 x, store shifted.thresholdBuffer 0 t⟩,
                (st.peakCount + 1) % 256,
                ⟨xcorrStream, thresholdStream,
                  st.streams.peakLocStream
                    ++ [toLocationType (uadd32 (usub32 index middleLocation) 1)],
                  st.streams.peakCountStream⟩⟩,
                judged ++ [usub32 index middleLocation])
            else
              .ok (⟨⟨store shifted.xcorrBuffer 0 x, store shifted.thresholdBuffer 0 t⟩,
                st.peakCount,
                ⟨xcorrStream, thresholdStream, st.streams.peakLocStream,
                  st.streams.peakCountStream⟩⟩,
                judged ++ [usub32 index middleLocation])
        else
          .ok (⟨⟨store shifted.xcorrBuffer 0 x, store shifted.thresholdBuffer 0 t⟩,
            st.peakCount,
            ⟨xcorrStream, thresholdStream, st.streams.peakLocStream,
              st.streams.peakCountStream⟩⟩,
            judged)

/-- Loop `process_signal` (lines 47-88) with the judged candidates recorded. -/
def process_signal (signalLength windowLength middleLocation : Nat) :
    Nat → Nat → State → List Nat → Except Fault (State × List Nat)
  | 0, _, _, _ => .error .outOfFuel
  | fuel + 1, index, st, judged =>
    if index < signalLength then
      match process_signal_body windowLength middleLocation index st judged with
      | .error f => .error f
      | .ok (st', judged') =>
        process_signal signalLength windowLength middleLocation fuel (uadd32 index 1) st' judged'
    else .ok (st, judged)

/-- The kernel `peakPicker` of `HLS/perf_opt2/peakPicker.cpp` with the record of
the candidate locations it judges, in the order of the run. -/
def peakPicker (streams : Streams) (signalLength windowLength : Nat) : Outcome × List Nat :=
  if ¬ windowLength ≤ MAX_WINDOW_LENGTH then (.assertFailed streams, [])
  else if ¬ signalLength ≤ MAX_SIGNAL_LENGTH then (.assertFailed streams, [])
  else if ¬ windowLength % 2 = 1 then (.assertFailed streams, [])
  else
    match init_buffers windowLength (windowLength + 1) 0 ⟨fun _ => 0, fun _ => 0⟩ with
    | .error f => (.stuck f, [])
    | .ok buffers =>
      match process_signal signalLength windowLength (windowLength / 2) (signalLength + 1) 0
          ⟨buffers, 0, streams⟩ [] with
      | .error f => (.stuck f, [])
      | .ok (st, judged) =>
        (.returned ⟨st.streams.xcorrStream, st.streams.thresholdStream,
          st.streams.peakLocStream, st.streams.peakCountStream ++ [st.peakCount]⟩, judged)

end Traced

end PerfOpt2

namespace Origin

/-- Row of a recorded read of `threshold`.  The batch kernel reads
`threshold[candidateLocation]` once per channel when it judges a candidate
(line 48), and nowhere else. -/
def Access.thresholdRow : Access → Option Int
  | .thresholdRead r => some r
  | _ => none

end Origin

namespace PerfOpt3

end PerfOpt3


/-! ## Lemmas on arrays and lists -/

theorem cellsBelow_store (a : Int → Int) (n : Nat) (v : Int) :
    cellsBelow (store a (n : Int) v) ((n : Int) + 1) = cellsBelow a (n : Int) ++ [v] := by
  have h1 : ((n : Int) + 1).toNat = n + 1 := by omega
  unfold cellsBelow
  rw [h1, List.range_succ, List.map_append, Int.toNat_ofNat]
  congr 1
  · apply List.map_congr_left
    intro j hj
    have : j < n := List.mem_range.mp hj
    unfold store
    rw [if_neg (by omega)]
  · simp [store]

theorem cellsBelow_length (a : Int → Int) (n : Int) : (cellsBelow a n).length = n.toNat := by
  simp [cellsBelow]

/-! ## Loop lemmas for the batch kernel -/

namespace Origin

theorem tdiv_two_cast (W : Nat) : Int.tdiv (W : Int) 2 = ((W / 2 : Nat) : Int) := by
  rw [Int.tdiv_eq_ediv (by omega) (by omega)]
  omega

theorem WINDOW_CHECK_eq (xcorr : Int → Int → DataType) (W : Nat) (c index seq : Int) :
    ∀ (fuel w0 : Nat), w0 ≤ W → W - w0 < fuel →
      WINDOW_CHECK xcorr (W : Int) c index seq fuel (w0 : Int)
        = some (decide (∀ w : Nat, w0 ≤ w → w < W → xcorr (index + (w : Int)) seq ≤ xcorr c seq)) := by
  intro fuel
  induction fuel with
  | zero => intro w0 _ h; omega
  | succ fuel ih =>
    intro w0 hw hf
    unfold WINDOW_CHECK
    by_cases h : (w0 : Int) < (W : Int)
    · rw [if_pos h]
      by_cases hx : xcorr c seq < xcorr (index + (w0 : Int)) seq
      · rw [if_pos hx]
        congr 1
        symm
        apply decide_eq_false
        intro hall
        have := hall w0 (le_refl _) (by omega)
        exact not_le.mpr hx this
      · rw [if_neg hx]
        have := ih (w0 + 1) (by omega) (by omega)
        rw [Nat.cast_add, Nat.cast_one] at this
        rw [this]
        congr 1
        apply decide_eq_decide.mpr
        constructor
        · intro hall w h1 h2
          by_cases hw0 : w = w0
          · subst hw0; exact not_lt.mp hx
          · exact hall w (by omega) h2
        · intro hall w h1 h2
          exact hall w (by omega) h2
    · rw [if_neg h]
      congr 1
      symm
      apply decide_eq_true
      intro w h1 h2
      omega

theorem validSeqs_succ (xcorr : Int → Int → DataType) (threshold : Int → DataType) (c : Int)
    (k : Nat) :
    validSeqs xcorr threshold c (k + 1) =
      validSeqs xcorr threshold c k ++
        (if xcorr c (k : Int) ≥ threshold c then [k] else []) := by
  unfold validSeqs
  rw [List.range_succ, List.filter_append]
  congr 1
  by_cases h : xcorr c (k : Int) ≥ threshold c
  · simp [h]
  · simp [h]

theorem THRESHOLD_CHECK_inv (xcorr : Int → Int → DataType) (threshold : Int → DataType)
    (S : Nat) (c : Int) :
    ∀ (fuel k : Nat) (vars : ThresholdVars), k ≤ S → S - k < fuel →
      ThresholdInv xcorr threshold c k vars →
      ∃ vars', THRESHOLD_CHECK xcorr threshold (S : Int) c fuel (k : Int) vars = some vars' ∧
        ThresholdInv xcorr threshold c S vars' := by
  intro fuel
  induction fuel with
  | zero => intro k _ _ h; omega
  | succ fuel ih =>
    intro k vars hk hf hinv
    unfold THRESHOLD_CHECK
    by_cases h : (k : Int) < (S : Int)
    · rw [if_pos h]
      have hcast : ((k : Int) + 1) = ((k + 1 : Nat) : Int) := by push_cast; rfl
      by_cases hx : xcorr c (k : Int) ≥ threshold c
      · rw [if_pos hx, hcast]
        apply ih (k + 1) _ (by omega) (by omega)
        obtain ⟨h1, h2, _⟩ := hinv
        refine ⟨?_, ?_, ?_⟩
        · show vars.validSeqCount + 1 = _
          rw [validSeqs_succ, if_pos hx, h1]; simp
        · show cellsBelow (store vars.validSeqIndices vars.validSeqCount (k : Int))
            (vars.validSeqCount + 1) = _
          rw [validSeqs_succ, if_pos hx, h1, cellsBelow_store, ← h1, h2]; simp
        · rw [validSeqs_succ, if_pos hx]; simp
      · rw [if_neg hx, hcast]
        apply ih (k + 1) _ (by omega) (by omega)
        unfold ThresholdInv
        rw [validSeqs_succ, if_neg hx, List.append_nil]
        exact hinv
    · rw [if_neg h]
      have : k = S := by omega
      subst this
      exact ⟨vars, rfl, hinv⟩

theorem WINDOW_CHECK_zero (xcorr : Int → Int → DataType) (W : Nat) (c index seq : Int) :
    WINDOW_CHECK xcorr (W : Int) c index seq ((W : Int).toNat + 1) 0
      = some (isMaxB xcorr W c index seq) := by
  have := WINDOW_CHECK_eq xcorr W c index seq ((W : Int).toNat + 1) 0 (by omega)
    (by simp)
  rw [Nat.cast_zero] at this
  rw [this]
  unfold isMaxB
  congr 1
  apply decide_eq_decide.mpr
  constructor
  · intro hall w h; exact hall w (by omega) h
  · intro hall w _ h; exact hall w h

theorem VALID_SEQ_LOOP_eq (xcorr : Int → Int → DataType) (W : Nat) (c index : Int)
    (vsi : Int → Int) (V : Nat) :
    ∀ (fuel v0 : Nat) (m0 : Int), v0 ≤ V → V - v0 < fuel →
      VALID_SEQ_LOOP xcorr (W : Int) c index vsi (V : Int) fuel (v0 : Int) m0
        = some (m0 + (((List.range' v0 (V - v0)).countP
            (fun (v : Nat) => isMaxB xcorr W c index (vsi (v : Int))) : Nat) : Int)) := by
  intro fuel
  induction fuel with
  | zero => intro v0 _ _ h; omega
  | succ fuel ih =>
    intro v0 m0 hv hf
    unfold VALID_SEQ_LOOP
    by_cases h : (v0 : Int) < (V : Int)
    · rw [if_pos h, WINDOW_CHECK_zero]
      have hcast : ((v0 : Int) + 1) = ((v0 + 1 : Nat) : Int) := by push_cast; rfl
      simp only []
      rw [hcast, ih (v0 + 1) _ (by omega) (by omega)]
      have hr : V - v0 = (V - (v0 + 1)) + 1 := by omega
      rw [hr, List.range'_succ, List.countP_cons]
      congr 1
      by_cases hm : isMaxB xcorr W c index (vsi (v0 : Int)) = true
      · simp [hm]; ring
      · simp [hm]
    · rw [if_neg h]
      have : V - v0 = 0 := by omega
      rw [this]; simp

theorem Qualifying_iff (xcorr : Int → Int → DataType) (threshold : Int → DataType)
    (S W i : Nat) :
    Qualifying xcorr threshold S W i ↔
      (validSeqs xcorr threshold ((i + W / 2 : Nat) : Int) S ≠ [] ∧
        ∀ s ∈ validSeqs xcorr threshold ((i + W / 2 : Nat) : Int) S,
          isMaxB xcorr W ((i + W / 2 : Nat) : Int) (i : Int) (s : Int) = true) := by
  unfold Qualifying validSeqs isMaxB
  constructor
  · rintro ⟨⟨s, hs, hth⟩, hall⟩
    refine ⟨?_, ?_⟩
    · intro hnil
      have : s ∈ List.filter (fun (s : Nat) =>
          decide (xcorr ((i + W / 2 : Nat) : Int) (s : Int) ≥ threshold ((i + W / 2 : Nat) : Int)))
          (List.range S) := by
        rw [List.mem_filter]
        exact ⟨List.mem_range.mpr hs, decide_eq_true hth⟩
      rw [hnil] at this
      exact absurd this (List.not_mem_nil _)
    · intro s hs
      rw [List.mem_filter] at hs
      apply decide_eq_true
      intro w hw
      have := hall s (List.mem_range.mp hs.1) (of_decide_eq_true hs.2) w hw
      rw [Nat.cast_add] at this
      exact this
  · rintro ⟨hne, hall⟩
    refine ⟨?_, ?_⟩
    · obtain ⟨s, hs⟩ := List.exists_mem_of_ne_nil _ hne
      rw [List.mem_filter] at hs
      exact ⟨s, List.mem_range.mp hs.1, of_decide_eq_true hs.2⟩
    · intro s hs hth w hw
      have := of_decide_eq_true (hall s (by
        rw [List.mem_filter]
        exact ⟨List.mem_range.mpr hs, decide_eq_true hth⟩)) w hw
      rw [Nat.cast_add]
      exact this

/-- One iteration of `SLIDE_WINDOW` up to the acceptance test: both inner loops
finish, and the candidate passes exactly when the window start qualifies. -/
theorem SLIDE_WINDOW_body_spec (xcorr : Int → Int → DataType) (threshold : Int → DataType) (S W i : Nat) :
    ∃ vars, THRESHOLD_CHECK xcorr threshold (S : Int) ((i : Int) + ((W / 2 : Nat) : Int))
        ((S : Int).toNat + 1) 0 ⟨false, 0, fun _ => 0⟩ = some vars ∧
      ∃ mcc, VALID_SEQ_LOOP xcorr (W : Int) ((i : Int) + ((W / 2 : Nat) : Int)) (i : Int)
          vars.validSeqIndices vars.validSeqCount (vars.validSeqCount.toNat + 1) 0 0 = some mcc ∧
        ((vars.thresholdExceeded = true ∧ mcc = vars.validSeqCount) ↔
          Qualifying xcorr threshold S W i) := by
  have hc : ((i : Int) + ((W / 2 : Nat) : Int)) = ((i + W / 2 : Nat) : Int) := by
    rw [Nat.cast_add]
  rw [hc]
  obtain ⟨vars, hv, h1, h2, h3⟩ := THRESHOLD_CHECK_inv xcorr threshold S ((i + W / 2 : Nat) : Int)
    ((S : Int).toNat + 1) 0 ⟨false, 0, fun _ => 0⟩ (Nat.zero_le _) (by simp)
    ⟨by simp [validSeqs], by simp [validSeqs, cellsBelow], by simp [validSeqs]⟩
  rw [Nat.cast_zero] at hv
  refine ⟨vars, hv, ?_⟩
  have hloop := VALID_SEQ_LOOP_eq xcorr W ((i + W / 2 : Nat) : Int) (i : Int) vars.validSeqIndices
    (validSeqs xcorr threshold ((i + W / 2 : Nat) : Int) S).length
    (vars.validSeqCount.toNat + 1) 0 0 (Nat.zero_le _) (by rw [h1]; simp)
  rw [Nat.cast_zero, ← h1] at hloop
  refine ⟨_, hloop, ?_⟩
  rw [Qualifying_iff, h3]
  apply and_congr_right
  intro _
  rw [zero_add, h1, Nat.cast_inj, Nat.sub_zero, ← List.range_eq_range']
  have hlen : (List.range (validSeqs xcorr threshold ((i + W / 2 : Nat) : Int) S).length).length
      = (validSeqs xcorr threshold ((i + W / 2 : Nat) : Int) S).length := List.length_range _
  conv_lhs => rhs; rw [← hlen]
  rw [List.countP_eq_length]
  rw [h1] at h2
  unfold cellsBelow at h2
  rw [Int.toNat_ofNat] at h2
  constructor
  · intro hall s hs
    have : (s : Int) ∈ List.map (fun (s : Nat) => (s : Int))
        (validSeqs xcorr threshold ((i + W / 2 : Nat) : Int) S) := List.mem_map_of_mem _ hs
    rw [← h2, List.mem_map] at this
    obtain ⟨j, hj, hjs⟩ := this
    rw [← hjs]
    exact hall j hj
  · intro hall j hj
    have : vars.validSeqIndices (j : Int) ∈ List.map (fun (j : Nat) => vars.validSeqIndices (j : Int))
        (List.range (validSeqs xcorr threshold ((i + W / 2 : Nat) : Int) S).length) :=
      List.mem_map_of_mem (fun (j : Nat) => vars.validSeqIndices (j : Int)) hj
    rw [h2, List.mem_map] at this
    obtain ⟨s, hs, hsj⟩ := this
    rw [← hsj]
    exact hall s hs

theorem accepted_succ (xcorr : Int → Int → DataType) (threshold : Int → DataType) (S W k : Nat) :
    accepted xcorr threshold S W (k + 1) =
      accepted xcorr threshold S W k ++
        (if Qualifying xcorr threshold S W k then [((k + W / 2 + 1 : Nat) : Int)] else []) := by
  unfold accepted
  rw [List.range_succ, List.filter_append, List.map_append]
  congr 1
  by_cases h : Qualifying xcorr threshold S W k
  · simp [h]
  · simp [h]

theorem accepted_append (xcorr : Int → Int → DataType) (threshold : Int → DataType) (S W k : Nat) :
    ∀ d, ∃ rest, accepted xcorr threshold S W (k + d) = accepted xcorr threshold S W k ++ rest := by
  intro d
  induction d with
  | zero => exact ⟨[], by simp⟩
  | succ d ih =>
    obtain ⟨rest, hrest⟩ := ih
    refine ⟨rest ++ (if Qualifying xcorr threshold S W (k + d)
      then [((k + d + W / 2 + 1 : Nat) : Int)] else []), ?_⟩
    rw [← Nat.add_assoc, accepted_succ, hrest, List.append_assoc]

theorem expectedLocations_eq (cap : Nat) (xcorr : Int → Int → DataType)
    (threshold : Int → DataType) (n S W : Nat) :
    expectedLocations cap xcorr threshold n S W
      = (accepted xcorr threshold S W (n + 1 - W)).take cap := rfl

theorem SLIDE_WINDOW_spec (cap : Nat) (xcorr : Int → Int → DataType)
    (threshold : Int → DataType) (n S W : Nat) :
    ∀ (fuel k : Nat) (out : Output), k ≤ n + 1 - W → (n + 1 - W) - k < fuel →
      out.numLocations = ((accepted xcorr threshold S W k).length : Int) →
      cellsBelow out.locations out.numLocations = accepted xcorr threshold S W k →
      (accepted xcorr threshold S W k).length < cap →
      ∃ out', SLIDE_WINDOW (cap : Int) xcorr threshold (n : Int) (S : Int) (W : Int)
          ((W / 2 : Nat) : Int) fuel (k : Int) out = some out' ∧
        out'.numLocations = ((expectedLocations cap xcorr threshold n S W).length : Int) ∧
        cellsBelow out'.locations out'.numLocations
          = expectedLocations cap xcorr threshold n S W := by
  intro fuel
  induction fuel with
  | zero => intro k _ _ h; omega
  | succ fuel ih =>
    intro k out hk hf hnum hread hlt
    unfold SLIDE_WINDOW
    by_cases h : (k : Int) ≤ (n : Int) - (W : Int)
    · rw [if_pos h]
      have hcast : ((k : Int) + 1) = ((k + 1 : Nat) : Int) := by push_cast; rfl
      obtain ⟨vars, hv, mcc, hm, hq⟩ := SLIDE_WINDOW_body_spec xcorr threshold S W k
      rw [hv]
      simp only []
      by_cases hth : vars.thresholdExceeded = true
      · rw [if_pos hth, hm]
        simp only []
        by_cases hmc : mcc = vars.validSeqCount
        · rw [if_pos hmc]
          have hQ : Qualifying xcorr threshold S W k := hq.mp ⟨hth, hmc⟩
          have hacc := accepted_succ xcorr threshold S W k
          rw [if_pos hQ] at hacc
          have hloc : (k : Int) + ((W / 2 : Nat) : Int) + 1 = ((k + W / 2 + 1 : Nat) : Int) := by
            push_cast; rfl
          have hnum' : out.numLocations + 1
              = ((accepted xcorr threshold S W (k + 1)).length : Int) := by
            rw [hacc, hnum]; simp
          have hread' : cellsBelow (store out.locations out.numLocations
              ((k : Int) + ((W / 2 : Nat) : Int) + 1)) (out.numLocations + 1)
              = accepted xcorr threshold S W (k + 1) := by
            rw [hacc, hloc, hnum, cellsBelow_store, ← hnum, hread]
          have hlen1 : (accepted xcorr threshold S W (k + 1)).length
              = (accepted xcorr threshold S W k).length + 1 := by
            rw [hacc]; simp
          by_cases hbreak : out.numLocations + 1 ≥ (cap : Int)
          · rw [if_pos hbreak]
            have hlen : (accepted xcorr threshold S W (k + 1)).length = cap := by
              rw [hnum] at hbreak
              omega
            obtain ⟨rest, hrest⟩ := accepted_append xcorr threshold S W (k + 1) (n + 1 - W - (k + 1))
            have hN : k + 1 + (n + 1 - W - (k + 1)) = n + 1 - W := by omega
            rw [hN] at hrest
            have hexp : expectedLocations cap xcorr threshold n S W
                = accepted xcorr threshold S W (k + 1) := by
              rw [expectedLocations_eq, hrest]
              conv_lhs => lhs; rw [← hlen]
              exact List.take_left _ _
            exact ⟨_, rfl, by rw [hexp]; exact hnum', by rw [hexp]; exact hread'⟩
          · rw [if_neg hbreak, hcast]
            apply ih (k + 1) _ (by omega) (by omega) hnum' hread'
            rw [hnum] at hbreak
            omega
        · rw [if_neg hmc, hcast]
          have hQ : ¬ Qualifying xcorr threshold S W k := fun hQ => hmc (hq.mpr hQ).2
          have hacc := accepted_succ xcorr threshold S W k
          rw [if_neg hQ, List.append_nil] at hacc
          apply ih (k + 1) out (by omega) (by omega)
          · rw [hacc]; exact hnum
          · rw [hacc]; exact hread
          · rw [hacc]; exact hlt
      · rw [if_neg hth, hcast]
        have hQ : ¬ Qualifying xcorr threshold S W k := fun hQ => hth (hq.mpr hQ).1
        have hacc := accepted_succ xcorr threshold S W k
        rw [if_neg hQ, List.append_nil] at hacc
        apply ih (k + 1) out (by omega) (by omega)
        · rw [hacc]; exact hnum
        · rw [hacc]; exact hread
        · rw [hacc]; exact hlt
    · rw [if_neg h]
      have hkN : k = n + 1 - W := by omega
      have hexp : expectedLocations cap xcorr threshold n S W
          = accepted xcorr threshold S W k := by
        rw [expectedLocations_eq, ← hkN]
        exact List.take_of_length_le (by omega)
      exact ⟨out, rfl, by rw [hexp]; exact hnum, by rw [hexp]; exact hread⟩

/-- Run of the batch kernel with capacity `cap >= 1` on lengths given as naturals:
it finishes, and the stored prefix is the expected list. -/
theorem peakPickerCap_spec (cap : Nat) (hcap : 1 ≤ cap) (xcorr : Int → Int → DataType)
    (threshold : Int → DataType) (n S W : Nat) (locations : Int → Int) :
    ∃ out, peakPickerCap (cap : Int) xcorr threshold (n : Int) (S : Int) (W : Int) locations
        = some out ∧
      out.numLocations = ((expectedLocations cap xcorr threshold n S W).length : Int) ∧
      cellsBelow out.locations out.numLocations
        = expectedLocations cap xcorr threshold n S W := by
  unfold peakPickerCap
  rw [tdiv_two_cast]
  have := SLIDE_WINDOW_spec cap xcorr threshold n S W
    (((n : Int) - (W : Int) + 1).toNat + 1) 0 ⟨locations, 0⟩ (Nat.zero_le _) (by omega)
    (by simp [accepted]) (by simp [accepted, cellsBelow]) (by simp [accepted]; omega)
  rw [Nat.cast_zero] at this
  exact this

end Origin

/-! ## Loop lemmas for the shift-register kernel -/

theorem streamRead_drop (l : List DataType) (k : Nat) (h : k < l.length) :
    streamRead (l.drop k) = .ok (l.getD k 0, l.drop (k + 1)) := by
  rw [List.drop_eq_getElem_cons h]
  unfold streamRead
  rw [List.getD_eq_getElem l 0 h]

theorem store_zero_zero {ι : Type} [DecidableEq ι] (i : ι) :
    store (fun _ => (0 : DataType)) i 0 = fun _ => (0 : DataType) := by
  funext j
  unfold store
  split <;> rfl

namespace PerfOpt2

theorem opt2_init_buffers_spec (W : Nat) (hW : W < 4294967296) :
    ∀ (fuel i : Nat), i ≤ W → W - i < fuel →
      init_buffers W fuel i ⟨fun _ => 0, fun _ => 0⟩ = .ok ⟨fun _ => 0, fun _ => 0⟩ := by
  intro fuel
  induction fuel with
  | zero => intro i _ h; omega
  | succ fuel ih =>
    intro i hi hf
    unfold init_buffers
    by_cases h : i < W
    · rw [if_pos h, store_zero_zero]
      have : uadd32 i 1 = i + 1 := by unfold uadd32; rw [if_pos (by omega)]
      rw [this]
      exact ih (i + 1) (by omega) (by omega)
    · rw [if_neg h]

theorem opt2_shift_buffer_spec :
    ∀ (fuel i : Nat) (b : Buffers), i < fuel →
      ∃ b', shift_buffer fuel i b = .ok b' ∧
        (∀ j, b'.xcorrBuffer j = if 1 ≤ j ∧ j ≤ i then b.xcorrBuffer (j - 1) else b.xcorrBuffer j) ∧
        (∀ j, b'.thresholdBuffer j
          = if 1 ≤ j ∧ j ≤ i then b.thresholdBuffer (j - 1) else b.thresholdBuffer j) := by
  intro fuel
  induction fuel with
  | zero => intro i _ h; omega
  | succ fuel ih =>
    intro i b hf
    unfold shift_buffer
    by_cases h : i > 0
    · rw [if_pos h]
      obtain ⟨b', hb, hx, ht⟩ := ih (i - 1) ⟨store b.xcorrBuffer i (b.xcorrBuffer (i - 1)),
          store b.thresholdBuffer i (b.thresholdBuffer (i - 1))⟩ (by omega)
      refine ⟨b', hb, ?_, ?_⟩
      · intro j
        rw [hx j]
        simp only [store]
        split_ifs <;> first | rfl | (congr 1; omega)
      · intro j
        rw [ht j]
        simp only [store]
        split_ifs <;> first | rfl | (congr 1; omega)
    · rw [if_neg h]
      refine ⟨b, rfl, ?_, ?_⟩
      · intro j; rw [if_neg (by omega)]
      · intro j; rw [if_neg (by omega)]

theorem opt2_check_local_max_spec (W m : Nat) (hW : W < 4294967296) (xb : Nat → DataType)
    (ms : DataType) :
    ∀ (fuel i : Nat) (acc : Bool), i ≤ W → W - i < fuel →
      check_local_max W m xb ms fuel i acc
        = .ok (acc && decide (∀ j, i ≤ j → j < W → j ≠ m → xb j ≤ ms)) := by
  intro fuel
  induction fuel with
  | zero => intro i _ _ h; omega
  | succ fuel ih =>
    intro i acc hi hf
    unfold check_local_max
    by_cases h : i < W
    · rw [if_pos h]
      have : uadd32 i 1 = i + 1 := by unfold uadd32; rw [if_pos (by omega)]
      rw [this, ih (i + 1) _ (by omega) (by omega)]
      congr 1
      by_cases hc : i ≠ m ∧ xb i > ms
      · rw [if_pos hc, Bool.false_and]
        symm
        rw [Bool.and_eq_false_iff]
        right
        apply decide_eq_false
        intro hall
        exact absurd (hall i (le_refl _) h hc.1) (not_le.mpr hc.2)
      · rw [if_neg hc]
        congr 1
        apply decide_eq_decide.mpr
        constructor
        · intro hall j h1 h2 h3
          by_cases hji : j = i
          · subst hji
            exact not_lt.mp (fun hgt => hc ⟨h3, hgt⟩)
          · exact hall j (by omega) h2 h3
        · intro hall j h1 h2 h3
          exact hall j (by omega) h2 h3
    · rw [if_neg h]
      have hd : decide (∀ j, i ≤ j → j < W → j ≠ m → xb j ≤ ms) = true := by
        apply decide_eq_true
        intro j h1 h2
        omega
      rw [hd, Bool.and_true]

theorem candidates_succ (x t : List DataType) (m k : Nat) :
    candidates x t m (k + 1) =
      candidates x t m k ++ (if 2 * m ≤ k ∧ IsPeak x t m (k - m) then [k - m + 1] else []) := by
  unfold candidates
  by_cases hk : 2 * m ≤ k
  · have h1 : k + 1 - 2 * m = (k - 2 * m) + 1 := by omega
    have h2 : m + 1 * (k - 2 * m) = k - m := by omega
    rw [h1, List.range'_concat, h2, List.filter_append, List.map_append]
    congr 1
    by_cases hp : IsPeak x t m (k - m)
    · simp [hp, hk]
    · simp [hp]
  · have h1 : k + 1 - 2 * m = 0 := by omega
    have h2 : k - 2 * m = 0 := by omega
    rw [h1, h2]
    simp [hk]

theorem emitted_succ_write (cap : Nat) (x t : List DataType) (m k : Nat) (hk : 2 * m ≤ k)
    (hp : IsPeak x t m (k - m)) (hlt : (emitted cap x t m k).length < cap) :
    emitted cap x t m (k + 1) = emitted cap x t m k ++ [k - m + 1] := by
  unfold emitted at *
  rw [candidates_succ, if_pos ⟨hk, hp⟩]
  rw [List.length_take] at hlt
  have hlen : (candidates x t m k).length < cap := by omega
  rw [List.take_of_length_le (by simp; omega), List.take_of_length_le (by omega)]

theorem emitted_succ_full (cap : Nat) (x t : List DataType) (m k : Nat)
    (hlt : ¬ (emitted cap x t m k).length < cap) :
    emitted cap x t m (k + 1) = emitted cap x t m k := by
  unfold emitted at *
  rw [candidates_succ]
  rw [List.length_take] at hlt
  exact List.take_append_of_le_length (by omega)

theorem emitted_succ_skip (cap : Nat) (x t : List DataType) (m k : Nat)
    (hp : ¬ (2 * m ≤ k ∧ IsPeak x t m (k - m))) :
    emitted cap x t m (k + 1) = emitted cap x t m k := by
  unfold emitted
  rw [candidates_succ, if_neg hp, List.append_nil]

theorem opt2_process_signal_body_spec (x t : List DataType) (loc0 cnt0 : List Nat) (n W m k : Nat)
    (hW : W = 2 * m + 1) (hW11 : W ≤ MAX_WINDOW_LENGTH) (hn : n ≤ MAX_SIGNAL_LENGTH)
    (hk : k < n) (hx : n ≤ x.length) (ht : n ≤ t.length) (st : State)
    (hinv : Inv x t loc0 cnt0 W m k st) :
    ∃ st', process_signal_body W m k st = .ok st' ∧ Inv x t loc0 cnt0 W m (k + 1) st' := by
  obtain ⟨hbx, hbt, hsx, hst, hloc, hcnt, hpc⟩ := hinv
  unfold MAX_WINDOW_LENGTH at hW11
  unfold MAX_SIGNAL_LENGTH at hn
  have hu : usub32 W 1 = 2 * m := by unfold usub32; rw [if_pos (by omega)]; omega
  obtain ⟨b', hb, hx', ht'⟩ := opt2_shift_buffer_spec (usub32 W 1 + 1) (usub32 W 1) st.buffers (by omega)
  have hkx : k < x.length := by omega
  have hkt : k < t.length := by omega
  -- the registers after the shift and the two reads
  have hnx : ∀ j, j < W → store b'.xcorrBuffer 0 (x.getD k 0) j
      = if j < k + 1 then x.getD (k + 1 - 1 - j) 0 else 0 := by
    intro j hj
    unfold store
    by_cases h0 : j = 0
    · subst h0; simp
    · rw [if_neg h0, hx' j, if_pos (by omega), hbx (j - 1) (by omega)]
      by_cases hjk : j < k + 1
      · rw [if_pos (by omega), if_pos hjk]; congr 1; omega
      · rw [if_neg (by omega), if_neg hjk]
  have hnt : ∀ j, j < W → store b'.thresholdBuffer 0 (t.getD k 0) j
      = if j < k + 1 then t.getD (k + 1 - 1 - j) 0 else 0 := by
    intro j hj
    unfold store
    by_cases h0 : j = 0
    · subst h0; simp
    · rw [if_neg h0, ht' j, if_pos (by omega), hbt (j - 1) (by omega)]
      by_cases hjk : j < k + 1
      · rw [if_pos (by omega), if_pos hjk]; congr 1; omega
      · rw [if_neg (by omega), if_neg hjk]
  unfold process_signal_body
  rw [hb]
  simp only []
  rw [hsx, hst, streamRead_drop x k hkx, streamRead_drop t k hkt]
  simp only []
  rw [hu]
  by_cases hfull : k ≥ 2 * m
  · rw [if_pos hfull, opt2_check_local_max_spec W m (by omega) _ _ (W + 1) 0 true (by omega) (by omega)]
    simp only [Bool.true_and]
    have hmid : store b'.xcorrBuffer 0 (x.getD k 0) m = x.getD (k - m) 0 := by
      rw [hnx m (by omega), if_pos (by omega), Nat.add_sub_cancel]
    have hmidt : store b'.thresholdBuffer 0 (t.getD k 0) m = t.getD (k - m) 0 := by
      rw [hnt m (by omega), if_pos (by omega), Nat.add_sub_cancel]
    have hpeak : ((∀ j : Nat, 0 ≤ j → j < W → j ≠ m →
          store b'.xcorrBuffer 0 (x.getD k 0) j ≤ store b'.xcorrBuffer 0 (x.getD k 0) m) ∧
        store b'.xcorrBuffer 0 (x.getD k 0) m > store b'.thresholdBuffer 0 (t.getD k 0) m)
        ↔ IsPeak x t m (k - m) := by
      rw [hmid, hmidt]
      unfold IsPeak
      constructor
      · rintro ⟨hall, hth⟩
        refine ⟨hth, ?_⟩
        intro q hq1 hq2
        by_cases hqc : q = k - m
        · rw [hqc]
        · have := hall (k - q) (Nat.zero_le _) (by omega) (by omega)
          rw [hnx (k - q) (by omega), if_pos (by omega)] at this
          have he : k + 1 - 1 - (k - q) = q := by omega
          rw [he] at this
          exact this
      · rintro ⟨hth, hall⟩
        refine ⟨?_, hth⟩
        intro j _ hj hjm
        rw [hnx j hj, if_pos (by omega)]
        exact hall _ (by omega) (by omega)
    have hlocv : toLocationType (uadd32 (usub32 k m) 1) = k - m + 1 := by
      have h1 : usub32 k m = k - m := by unfold usub32; rw [if_pos (by omega)]
      have h2 : uadd32 (k - m) 1 = k - m + 1 := by unfold uadd32; rw [if_pos (by omega)]
      rw [h1, h2]
      unfold toLocationType
      omega
    by_cases hacc : IsPeak x t m (k - m) ∧ st.peakCount < MAX_PEAKS
    · rw [if_pos ⟨decide_eq_true (hpeak.mpr hacc.1).1, (hpeak.mpr hacc.1).2, hacc.2⟩]
      have hlt : (emitted MAX_PEAKS x t m k).length < MAX_PEAKS := by rw [← hpc]; exact hacc.2
      have hem := emitted_succ_write MAX_PEAKS x t m k hfull hacc.1 hlt
      refine ⟨_, rfl, hnx, hnt, rfl, rfl, ?_, hcnt, ?_⟩
      · show st.streams.peakLocStream ++ [toLocationType (uadd32 (usub32 k m) 1)] = _
        rw [hem, hlocv, hloc, List.append_assoc]
      · show (st.peakCount + 1) % 256 = _
        rw [hem, List.length_append, List.length_singleton, hpc]
        have hlt100 : (emitted MAX_PEAKS x t m k).length < 100 := hlt
        omega
    · rw [if_neg (fun h => hacc ⟨hpeak.mp ⟨of_decide_eq_true h.1, h.2.1⟩, h.2.2⟩)]
      have hem : emitted MAX_PEAKS x t m (k + 1) = emitted MAX_PEAKS x t m k := by
        by_cases hp : IsPeak x t m (k - m)
        · apply emitted_succ_full
          rw [← hpc]
          exact fun h => hacc ⟨hp, h⟩
        · exact emitted_succ_skip _ _ _ _ _ (fun h => hp h.2)
      refine ⟨_, rfl, hnx, hnt, rfl, rfl, ?_, hcnt, ?_⟩
      · show st.streams.peakLocStream = _
        rw [hem]; exact hloc
      · show st.peakCount = _
        rw [hem]; exact hpc
  · rw [if_neg hfull]
    refine ⟨_, rfl, hnx, hnt, rfl, rfl, ?_, hcnt, ?_⟩
    · show st.streams.peakLocStream = _
      rw [emitted_succ_skip _ _ _ _ _ (fun h => hfull h.1)]; exact hloc
    · show st.peakCount = _
      rw [emitted_succ_skip _ _ _ _ _ (fun h => hfull h.1)]; exact hpc

theorem opt2_process_signal_spec (x t : List DataType) (loc0 cnt0 : List Nat) (n W m : Nat)
    (hW : W = 2 * m + 1) (hW11 : W ≤ MAX_WINDOW_LENGTH) (hn : n ≤ MAX_SIGNAL_LENGTH)
    (hx : n ≤ x.length) (ht : n ≤ t.length) :
    ∀ (fuel k : Nat) (st : State), k ≤ n → n - k < fuel → Inv x t loc0 cnt0 W m k st →
      ∃ st', process_signal n W m fuel k st = .ok st' ∧ Inv x t loc0 cnt0 W m n st' := by
  intro fuel
  induction fuel with
  | zero => intro k _ _ h; omega
  | succ fuel ih =>
    intro k st hk hf hinv
    unfold process_signal
    by_cases h : k < n
    · rw [if_pos h]
      obtain ⟨st1, h1, hinv1⟩ := opt2_process_signal_body_spec x t loc0 cnt0 n W m k hW hW11 hn h hx ht
        st hinv
      rw [h1]
      simp only []
      have hadd : uadd32 k 1 = k + 1 := by
        unfold uadd32 MAX_SIGNAL_LENGTH at *
        rw [if_pos (by omega)]
      rw [hadd]
      exact ih (k + 1) st1 (by omega) (by omega) hinv1
    · rw [if_neg h]
      have : k = n := by omega
      subst this
      exact ⟨st, rfl, hinv⟩

/-- Run of the shift-register kernel on a valid configuration: it returns, has
taken `n` samples off each input stream, has appended the expected locations
to `peakLocStream` and their number to `peakCountStream`. -/
theorem opt2_peakPicker_spec (x t : List DataType) (loc0 cnt0 : List Nat) (n W : Nat)
    (hodd : W % 2 = 1) (hW11 : W ≤ MAX_WINDOW_LENGTH) (hn : n ≤ MAX_SIGNAL_LENGTH)
    (hx : n ≤ x.length) (ht : n ≤ t.length) :
    peakPicker ⟨x, t, loc0, cnt0⟩ n W =
      .returned ⟨x.drop n, t.drop n, loc0 ++ expectedPeaks MAX_PEAKS x t n W,
        cnt0 ++ [(expectedPeaks MAX_PEAKS x t n W).length]⟩ := by
  have hW : W = 2 * (W / 2) + 1 := by omega
  have hinit := opt2_init_buffers_spec W (by unfold MAX_WINDOW_LENGTH at hW11; omega) (W + 1) 0
    (Nat.zero_le _) (by omega)
  obtain ⟨st, hst, hbx, hbt, hsx, hstt, hloc, hcnt, hpc⟩ :=
    opt2_process_signal_spec x t loc0 cnt0 n W (W / 2) hW hW11 hn hx ht (n + 1) 0
      ⟨⟨fun _ => 0, fun _ => 0⟩, 0, ⟨x, t, loc0, cnt0⟩⟩ (Nat.zero_le _) (by omega)
      ⟨fun j _ => by simp, fun j _ => by simp, rfl, rfl, by simp [emitted, candidates], rfl,
        by simp [emitted, candidates]⟩
  unfold peakPicker
  rw [if_neg (not_not.mpr hW11), if_neg (not_not.mpr hn), if_neg (not_not.mpr hodd), hinit]
  simp only []
  rw [hst]
  simp only []
  rw [hsx, hstt, hloc, hcnt, hpc]
  rfl

end PerfOpt2

/-! ## Consequences of the exact output of the batch kernel -/

namespace Origin

theorem accepted_pairwise (xcorr : Int → Int → DataType) (threshold : Int → DataType)
    (S W k : Nat) : (accepted xcorr threshold S W k).Pairwise (fun a b => a < b) := by
  unfold accepted
  rw [List.pairwise_map]
  apply List.Pairwise.filter
  apply List.Pairwise.imp _ (List.pairwise_lt_range k)
  intro a b hab
  omega

theorem mem_accepted (xcorr : Int → Int → DataType) (threshold : Int → DataType)
    (S W k : Nat) (p : Int) :
    p ∈ accepted xcorr threshold S W k ↔
      ∃ i, i < k ∧ Qualifying xcorr threshold S W i ∧ p = ((i + W / 2 + 1 : Nat) : Int) := by
  unfold accepted
  rw [List.mem_map]
  constructor
  · rintro ⟨i, hi, hp⟩
    rw [List.mem_filter, List.mem_range] at hi
    exact ⟨i, hi.1, of_decide_eq_true hi.2, hp.symm⟩
  · rintro ⟨i, hi, hq, hp⟩
    exact ⟨i, List.mem_filter.mpr ⟨List.mem_range.mpr hi, decide_eq_true hq⟩, hp.symm⟩

theorem expectedLocations_pairwise (cap : Nat) (xcorr : Int → Int → DataType)
    (threshold : Int → DataType) (n S W : Nat) :
    (expectedLocations cap xcorr threshold n S W).Pairwise (fun a b => a < b) := by
  rw [expectedLocations_eq]
  exact (accepted_pairwise xcorr threshold S W _).sublist (List.take_sublist _ _)

theorem mem_expectedLocations (cap : Nat) (xcorr : Int → Int → DataType)
    (threshold : Int → DataType) (n S W : Nat) (p : Int)
    (hp : p ∈ expectedLocations cap xcorr threshold n S W) :
    ∃ i, i < n + 1 - W ∧ Qualifying xcorr threshold S W i ∧ p = ((i + W / 2 + 1 : Nat) : Int) := by
  rw [expectedLocations_eq] at hp
  exact (mem_accepted xcorr threshold S W _ p).mp (List.mem_of_mem_take hp)

theorem expectedLocations_length (cap : Nat) (xcorr : Int → Int → DataType)
    (threshold : Int → DataType) (n S W : Nat) :
    (expectedLocations cap xcorr threshold n S W).length
      = min cap ((List.range (n + 1 - W)).filter
          (fun i => decide (Qualifying xcorr threshold S W i))).length := by
  unfold expectedLocations
  rw [List.length_take, List.length_map]

/-- When every window start qualifies, the untruncated list of locations is the
full run `W/2 + 1, ..., W/2 + k`. -/
theorem accepted_of_all (xcorr : Int → Int → DataType) (threshold : Int → DataType)
    (S W k : Nat) (hall : ∀ i, i < k → Qualifying xcorr threshold S W i) :
    accepted xcorr threshold S W k
      = (List.range' (W / 2 + 1) k).map (fun (p : Nat) => (p : Int)) := by
  unfold accepted
  have hf : (List.range k).filter (fun i => decide (Qualifying xcorr threshold S W i))
      = List.range k := by
    rw [List.filter_eq_self]
    intro i hi
    exact decide_eq_true (hall i (List.mem_range.mp hi))
  rw [hf, List.range'_eq_map_range, List.map_map]
  apply List.map_congr_left
  intro i _
  simp only [Function.comp]
  congr 1
  omega

end Origin

/-! ## Consequences of the exact output of the shift-register kernel -/

namespace PerfOpt2

theorem mem_candidates (x t : List DataType) (m k p : Nat) :
    p ∈ candidates x t m k ↔
      ∃ c, m ≤ c ∧ c + m < k ∧ IsPeak x t m c ∧ p = c + 1 := by
  unfold candidates
  rw [List.mem_map]
  constructor
  · rintro ⟨c, hc, hp⟩
    rw [List.mem_filter, List.mem_range'_1] at hc
    exact ⟨c, hc.1.1, by omega, of_decide_eq_true hc.2, hp.symm⟩
  · rintro ⟨c, h1, h2, h3, hp⟩
    refine ⟨c, ?_, hp.symm⟩
    rw [List.mem_filter, List.mem_range'_1]
    exact ⟨⟨h1, by omega⟩, decide_eq_true h3⟩

theorem expectedPeaks_eq (cap : Nat) (x t : List DataType) (n W : Nat) :
    expectedPeaks cap x t n W = emitted cap x t (W / 2) n := rfl

theorem mem_expectedPeaks (cap : Nat) (x t : List DataType) (n W p : Nat)
    (hp : p ∈ expectedPeaks cap x t n W) :
    ∃ c, W / 2 ≤ c ∧ c + W / 2 < n ∧ IsPeak x t (W / 2) c ∧ p = c + 1 := by
  rw [expectedPeaks_eq] at hp
  unfold emitted at hp
  exact (mem_candidates x t (W / 2) n p).mp (List.mem_of_mem_take hp)

theorem candidates_pairwise (x t : List DataType) (m k : Nat) :
    (candidates x t m k).Pairwise (fun a b => a < b) := by
  unfold candidates
  rw [List.pairwise_map]
  apply List.Pairwise.filter
  apply List.Pairwise.imp _ (List.pairwise_lt_range' m (k - 2 * m))
  intro a b hab
  omega

/-- Registers after the iteration `index = k`: cell `j` holds the sample read
`j` iterations earlier, or zero when fewer than `j + 1` samples have been read. -/
theorem opt2_buffersAfter_spec (x t : List DataType) (loc0 cnt0 : List Nat) (W k : Nat)
    (hodd : W % 2 = 1) (hW11 : W ≤ MAX_WINDOW_LENGTH) (hk : k + 1 ≤ MAX_SIGNAL_LENGTH)
    (hx : k + 1 ≤ x.length) (ht : k + 1 ≤ t.length) :
    ∃ b, buffersAfter ⟨x, t, loc0, cnt0⟩ W k = .ok b ∧
      (∀ j, j < W → b.xcorrBuffer j = if j ≤ k then x.getD (k - j) 0 else 0) ∧
      (∀ j, j < W → b.thresholdBuffer j = if j ≤ k then t.getD (k - j) 0 else 0) := by
  have hW : W = 2 * (W / 2) + 1 := by omega
  have hinit := opt2_init_buffers_spec W (by unfold MAX_WINDOW_LENGTH at hW11; omega) (W + 1) 0
    (Nat.zero_le _) (by omega)
  obtain ⟨st, hst, hbx, hbt, _⟩ :=
    opt2_process_signal_spec x t loc0 cnt0 (k + 1) W (W / 2) hW hW11 hk hx ht (k + 1 + 1) 0
      ⟨⟨fun _ => 0, fun _ => 0⟩, 0, ⟨x, t, loc0, cnt0⟩⟩ (Nat.zero_le _) (by omega)
      ⟨fun j _ => by simp, fun j _ => by simp, rfl, rfl, by simp [emitted, candidates], rfl,
        by simp [emitted, candidates]⟩
  unfold buffersAfter
  rw [hinit]
  simp only []
  rw [hst]
  refine ⟨st.buffers, rfl, ?_, ?_⟩
  · intro j hj
    rw [hbx j hj]
    by_cases h : j ≤ k
    · rw [if_pos (by omega), if_pos h, Nat.add_sub_cancel]
    · rw [if_neg (by omega), if_neg h]
  · intro j hj
    rw [hbt j hj]
    by_cases h : j ≤ k
    · rw [if_pos (by omega), if_pos h, Nat.add_sub_cancel]
    · rw [if_neg (by omega), if_neg h]

end PerfOpt2

/-! ## Loop lemmas for the array kernel -/

theorem take_append_singleton_of_lt {α : Type} (cap : Nat) (l : List α) (v : α)
    (h : (l.take cap).length < cap) : (l ++ [v]).take cap = l.take cap ++ [v] := by
  rw [List.length_take] at h
  have hlen : l.length < cap := by omega
  rw [List.take_of_length_le (by simp; omega), List.take_of_length_le (by omega)]

theorem take_append_of_full {α : Type} (cap : Nat) (l l2 : List α)
    (h : ¬ (l.take cap).length < cap) : (l ++ l2).take cap = l.take cap := by
  rw [List.length_take] at h
  exact List.take_append_of_le_length (by omega)

namespace PerfOpt1

theorem opt1_InputRead_spec (x t : List DataType) (n : Nat) (hn : n < 65536)
    (hx : n ≤ x.length) (ht : n ≤ t.length) :
    ∀ (fuel i : Nat) (st : ReadState), i ≤ n → n - i < fuel →
      (∀ j, st.xcorr j = if j < i then x.getD j 0 else 0) →
      (∀ j, st.threshold j = if j < i then t.getD j 0 else 0) →
      st.xcorrStream = x.drop i → st.thresholdStream = t.drop i →
      ∃ rd, InputRead n fuel i st = .ok rd ∧ rd.xcorr = arrayOf x n ∧
        rd.threshold = arrayOf t n ∧ rd.xcorrStream = x.drop n ∧
        rd.thresholdStream = t.drop n := by
  intro fuel
  induction fuel with
  | zero => intro i _ _ h; omega
  | succ fuel ih =>
    intro i st hi hf hax hat hsx hst
    unfold InputRead
    by_cases h : i < n
    · rw [if_pos h, hsx, hst, streamRead_drop x i (by omega), streamRead_drop t i (by omega)]
      simp only []
      have hmod : (i + 1) % 65536 = i + 1 := Nat.mod_eq_of_lt (by omega)
      rw [hmod]
      apply ih (i + 1) _ (by omega) (by omega)
      · intro j
        show store st.xcorr i (x.getD i 0) j = _
        unfold store
        by_cases hj : j = i
        · rw [if_pos hj, if_pos (by omega), hj]
        · rw [if_neg hj, hax j]
          by_cases hji : j < i
          · rw [if_pos hji, if_pos (by omega)]
          · rw [if_neg hji, if_neg (by omega)]
      · intro j
        show store st.threshold i (t.getD i 0) j = _
        unfold store
        by_cases hj : j = i
        · rw [if_pos hj, if_pos (by omega), hj]
        · rw [if_neg hj, hat j]
          by_cases hji : j < i
          · rw [if_pos hji, if_pos (by omega)]
          · rw [if_neg hji, if_neg (by omega)]
      · rfl
      · rfl
    · rw [if_neg h]
      have : i = n := by omega
      subst this
      exact ⟨st, rfl, funext hax, funext hat, hsx, hst⟩

theorem opt1_WindowCheck_spec (W m index : Nat) (hW : W < 65536) (xcorr : Nat → DataType)
    (ms : DataType) :
    ∀ (fuel w : Nat) (acc : Bool), w ≤ W → W - w < fuel →
      WindowCheck W m index xcorr ms fuel w acc
        = .ok (acc && decide (∀ j, w ≤ j → j < W → j ≠ m → xcorr (index + j) ≤ ms)) := by
  intro fuel
  induction fuel with
  | zero => intro w _ _ h; omega
  | succ fuel ih =>
    intro w acc hw hf
    unfold WindowCheck
    by_cases h : w < W
    · rw [if_pos h]
      have hmod : (w + 1) % 65536 = w + 1 := Nat.mod_eq_of_lt (by omega)
      rw [hmod, ih (w + 1) _ (by omega) (by omega)]
      congr 1
      by_cases hc : w ≠ m ∧ xcorr (index + w) > ms
      · rw [if_pos hc.1, if_pos hc.2, Bool.false_and]
        symm
        rw [Bool.and_eq_false_iff]
        right
        apply decide_eq_false
        intro hall
        exact absurd (hall w (le_refl _) h hc.1) (not_le.mpr hc.2)
      · have hacc : (if w ≠ m then (if xcorr (index + w) > ms then false else acc) else acc)
            = acc := by
          by_cases h1 : w ≠ m
          · rw [if_pos h1, if_neg (fun h2 => hc ⟨h1, h2⟩)]
          · rw [if_neg h1]
        rw [hacc]
        congr 1
        apply decide_eq_decide.mpr
        constructor
        · intro hall j h1 h2 h3
          by_cases hjw : j = w
          · subst hjw
            exact not_lt.mp (fun hgt => hc ⟨h3, hgt⟩)
          · exact hall j (by omega) h2 h3
        · intro hall j h1 h2 h3
          exact hall j (by omega) h2 h3
    · rw [if_neg h]
      have hd : decide (∀ j, w ≤ j → j < W → j ≠ m → xcorr (index + j) ≤ ms) = true := by
        apply decide_eq_true
        intro j h1 h2
        omega
      rw [hd, Bool.and_true]

theorem passed_succ (xcorr threshold : Nat → DataType) (W k : Nat) :
    passed xcorr threshold W (k + 1) =
      passed xcorr threshold W k ++
        (if WindowRule xcorr threshold W k then [k + W / 2 + 1] else []) := by
  unfold passed
  rw [List.range_succ, List.filter_append, List.map_append]
  congr 1
  by_cases h : WindowRule xcorr threshold W k
  · simp [h]
  · simp [h]

theorem opt1_ProcessSignal_spec (xcorr threshold : Nat → DataType) (loc0 : List Nat)
    (n W : Nat) (hn : n ≤ MAX_SIGNAL_LENGTH) :
    ∀ (fuel k : Nat) (st : PeakState), k ≤ n + 1 - W → (n + 1 - W) - k < fuel →
      st.locationsStream = loc0 ++ (passed xcorr threshold W k).take MAX_PEAKS →
      st.numPeaks = ((passed xcorr threshold W k).take MAX_PEAKS).length →
      ProcessSignal n W (W / 2) xcorr threshold fuel k st
        = .ok ⟨loc0 ++ (passed xcorr threshold W (n + 1 - W)).take MAX_PEAKS,
            ((passed xcorr threshold W (n + 1 - W)).take MAX_PEAKS).length⟩ := by
  unfold MAX_SIGNAL_LENGTH at hn
  intro fuel
  induction fuel with
  | zero => intro k _ _ h; omega
  | succ fuel ih =>
    intro k st hk hf hloc hnum
    unfold ProcessSignal
    by_cases h : (k : Int) < (n : Int) - (W : Int) + 1
    · rw [if_pos h]
      have hkN : k < n + 1 - W := by omega
      have hW : W < 65536 := by omega
      have hc : (k + W / 2) % 65536 = k + W / 2 := Nat.mod_eq_of_lt (by omega)
      have hk1 : (k + 1) % 65536 = k + 1 := Nat.mod_eq_of_lt (by omega)
      rw [hc, hk1, opt1_WindowCheck_spec W (W / 2) k hW xcorr _ (W + 1) 0 true (Nat.zero_le _)
        (by omega)]
      simp only [Bool.true_and]
      have hrule : (decide (∀ j, 0 ≤ j → j < W → j ≠ W / 2 → xcorr (k + j) ≤ xcorr (k + W / 2))
            = true ∧ xcorr (k + W / 2) > threshold (k + W / 2))
          ↔ WindowRule xcorr threshold W k := by
        rw [decide_eq_true_iff]
        unfold WindowRule
        constructor
        · rintro ⟨h1, h2⟩; exact ⟨fun j hj hjm => h1 j (Nat.zero_le _) hj hjm, h2⟩
        · rintro ⟨h1, h2⟩; exact ⟨fun j _ hj hjm => h1 j hj hjm, h2⟩
      have hlen100 : ((passed xcorr threshold W k).take MAX_PEAKS).length ≤ 100 := by
        rw [List.length_take]; exact Nat.min_le_left _ _
      by_cases hacc : WindowRule xcorr threshold W k ∧ st.numPeaks < MAX_PEAKS
      · rw [if_pos ⟨(hrule.mpr hacc.1).1, (hrule.mpr hacc.1).2, hacc.2⟩]
        have hlt : ((passed xcorr threshold W k).take MAX_PEAKS).length < MAX_PEAKS := by
          rw [← hnum]; exact hacc.2
        have hsucc : (passed xcorr threshold W (k + 1)).take MAX_PEAKS
            = (passed xcorr threshold W k).take MAX_PEAKS ++ [k + W / 2 + 1] := by
          rw [passed_succ, if_pos hacc.1]
          exact take_append_singleton_of_lt _ _ _ hlt
        have hloc1 : toLocationType (k + W / 2 + 1) = k + W / 2 + 1 := by
          unfold toLocationType
          exact Nat.mod_eq_of_lt (by omega)
        apply ih (k + 1) _ (by omega) (by omega)
        · show st.locationsStream ++ [toLocationType (k + W / 2 + 1)] = _
          rw [hsucc, hloc1, hloc, List.append_assoc]
        · show (st.numPeaks + 1) % 65536 = _
          rw [hsucc, List.length_append, List.length_singleton, hnum]
          exact Nat.mod_eq_of_lt (by omega)
      · rw [if_neg (fun h => hacc ⟨hrule.mp ⟨h.1, h.2.1⟩, h.2.2⟩)]
        have hsucc : (passed xcorr threshold W (k + 1)).take MAX_PEAKS
            = (passed xcorr threshold W k).take MAX_PEAKS := by
          rw [passed_succ]
          by_cases hp : WindowRule xcorr threshold W k
          · rw [if_pos hp]
            apply take_append_of_full
            rw [← hnum]
            exact fun h => hacc ⟨hp, h⟩
          · rw [if_neg hp, List.append_nil]
        apply ih (k + 1) st (by omega) (by omega)
        · rw [hsucc]; exact hloc
        · rw [hsucc]; exact hnum
    · rw [if_neg h]
      have hkN : k = n + 1 - W := by omega
      rw [← hkN, ← hloc, ← hnum]

/-- Run of the array kernel for `signalLength <= 8192`, any `windowLength`
and input streams holding at least `n` samples: it returns, has
taken `n` samples off each input stream, and has appended the expected locations
to `locationsStream`; `numPeaks` is their number. -/
theorem opt1_peakPicker_spec (x t : List DataType) (loc0 : List Nat) (n W : Nat)
    (hn : n ≤ MAX_SIGNAL_LENGTH) (hx : n ≤ x.length) (ht : n ≤ t.length) :
    peakPicker ⟨x, t, loc0⟩ n W =
      .ok ⟨⟨x.drop n, t.drop n, loc0 ++ expectedWritten x t n W⟩,
        (expectedWritten x t n W).length⟩ := by
  have hn' : n < 65536 := by unfold MAX_SIGNAL_LENGTH at hn; omega
  obtain ⟨rd, hrd, hax, hat, hsx, hst⟩ := opt1_InputRead_spec x t n hn' hx ht (n + 1) 0
    ⟨fun _ => 0, fun _ => 0, x, t⟩ (Nat.zero_le _) (by omega) (fun j => by simp)
    (fun j => by simp) rfl rfl
  unfold peakPicker
  rw [hrd]
  simp only []
  rw [opt1_ProcessSignal_spec rd.xcorr rd.threshold loc0 n W hn (n + 2) 0 ⟨loc0, 0⟩
    (Nat.zero_le _) (by omega) (by simp [passed]) (by simp [passed])]
  simp only []
  rw [hax, hat, hsx, hst]
  rfl

theorem arrayOf_lt (x : List DataType) (n i : Nat) (h : i < n) : arrayOf x n i = x.getD i 0 := by
  unfold arrayOf
  rw [if_pos h]

/-- For an odd window the test of the array kernel at window start `i` is the
peak rule at the candidate `i + W/2`. -/
theorem WindowRule_iff_IsPeak (x t : List DataType) (n W i : Nat) (hodd : W % 2 = 1)
    (hi : i < n + 1 - W) :
    WindowRule (arrayOf x n) (arrayOf t n) W i ↔ PerfOpt2.IsPeak x t (W / 2) (W / 2 + i) := by
  unfold WindowRule PerfOpt2.IsPeak
  rw [arrayOf_lt x n (i + W / 2) (by omega), arrayOf_lt t n (i + W / 2) (by omega)]
  have hc : i + W / 2 = W / 2 + i := by omega
  rw [hc]
  constructor
  · rintro ⟨hall, hth⟩
    refine ⟨hth, ?_⟩
    intro q hq1 hq2
    by_cases hqc : q = W / 2 + i
    · rw [hqc]
    · have := hall (q - i) (by omega) (by omega)
      rw [arrayOf_lt x n _ (by omega)] at this
      have he : i + (q - i) = q := by omega
      rw [he] at this
      exact this
  · rintro ⟨hth, hall⟩
    refine ⟨?_, hth⟩
    intro j hj _
    rw [arrayOf_lt x n _ (by omega)]
    exact hall _ (by omega) (by omega)

theorem passed_eq_candidates (x t : List DataType) (n W : Nat) (hodd : W % 2 = 1) :
    passed (arrayOf x n) (arrayOf t n) W (n + 1 - W) = PerfOpt2.candidates x t (W / 2) n := by
  unfold passed PerfOpt2.candidates
  have hN : n - 2 * (W / 2) = n + 1 - W := by omega
  rw [hN, List.range'_eq_map_range, List.filter_map, List.map_map]
  have hf : (List.range (n + 1 - W)).filter
        (fun i => decide (WindowRule (arrayOf x n) (arrayOf t n) W i))
      = (List.range (n + 1 - W)).filter
        ((fun c => decide (PerfOpt2.IsPeak x t (W / 2) c)) ∘ fun i => W / 2 + i) := by
    apply List.filter_congr
    intro i hi
    simp only [Function.comp]
    exact decide_eq_decide.mpr (WindowRule_iff_IsPeak x t n W i hodd (List.mem_range.mp hi))
  rw [hf]
  apply List.map_congr_left
  intro i _
  simp only [Function.comp]
  omega

theorem expectedWritten_eq_expectedPeaks (x t : List DataType) (n W : Nat) (hodd : W % 2 = 1) :
    expectedWritten x t n W = PerfOpt2.expectedPeaks PerfOpt2.MAX_PEAKS x t n W := by
  unfold expectedWritten
  rw [passed_eq_candidates x t n W hodd]
  rfl

end PerfOpt1

/-! ## Loop lemmas for the fixed-window kernel -/

namespace PerfOpt3

theorem opt3_init_buffers_spec :
    ∀ (fuel i : Nat), i ≤ 11 → 11 - i < fuel →
      init_buffers fuel (i : Int) ⟨fun _ => 0, fun _ => 0⟩ = .ok ⟨fun _ => 0, fun _ => 0⟩ := by
  intro fuel
  induction fuel with
  | zero => intro i _ h; omega
  | succ fuel ih =>
    intro i hi hf
    unfold init_buffers
    by_cases h : (i : Int) < WINDOW_LENGTH
    · rw [if_pos h, store_zero_zero]
      have hcast : ((i : Int) + 1) = ((i + 1 : Nat) : Int) := by push_cast; rfl
      unfold WINDOW_LENGTH at h
      rw [hcast]
      exact ih (i + 1) (by omega) (by omega)
    · rw [if_neg h]

theorem opt3_shift_buffers_spec :
    ∀ (fuel i : Nat) (b : Buffers), i < fuel →
      ∃ b', shift_buffers fuel (i : Int) b = .ok b' ∧
        (∀ j : Int, b'.xcorrBuffer j
          = if 1 ≤ j ∧ j ≤ (i : Int) then b.xcorrBuffer (j - 1) else b.xcorrBuffer j) ∧
        (∀ j : Int, b'.thresholdBuffer j
          = if 1 ≤ j ∧ j ≤ (i : Int) then b.thresholdBuffer (j - 1) else b.thresholdBuffer j) := by
  intro fuel
  induction fuel with
  | zero => intro i _ h; omega
  | succ fuel ih =>
    intro i b hf
    unfold shift_buffers
    by_cases h : (i : Int) > 0
    · rw [if_pos h]
      have hcast : ((i : Int) - 1) = ((i - 1 : Nat) : Int) := by omega
      rw [hcast]
      obtain ⟨b', hb, hx, ht⟩ := ih (i - 1) ⟨store b.xcorrBuffer (i : Int)
          (b.xcorrBuffer ((i - 1 : Nat) : Int)),
          store b.thresholdBuffer (i : Int) (b.thresholdBuffer ((i - 1 : Nat) : Int))⟩ (by omega)
      refine ⟨b', hb, ?_, ?_⟩
      · intro j
        rw [hx j]
        simp only [store]
        split_ifs <;> first | rfl | (congr 1; omega)
      · intro j
        rw [ht j]
        simp only [store]
        split_ifs <;> first | rfl | (congr 1; omega)
    · rw [if_neg h]
      refine ⟨b, rfl, ?_, ?_⟩
      · intro j; rw [if_neg (by omega)]
      · intro j; rw [if_neg (by omega)]

theorem opt3_compare_samples_spec (xb : Int → DataType) (ms : DataType) :
    ∀ (fuel i : Nat) (acc : Bool), i ≤ 11 → 11 - i < fuel →
      compare_samples xb ms fuel (i : Int) acc
        = .ok (acc && decide (∀ j : Nat, i ≤ j → j < 11 → j ≠ 5 → xb (j : Int) ≤ ms)) := by
  intro fuel
  induction fuel with
  | zero => intro i _ _ h; omega
  | succ fuel ih =>
    intro i acc hi hf
    unfold compare_samples
    by_cases h : (i : Int) < WINDOW_LENGTH
    · rw [if_pos h]
      unfold WINDOW_LENGTH at h
      have hcast : ((i : Int) + 1) = ((i + 1 : Nat) : Int) := by push_cast; rfl
      rw [hcast, ih (i + 1) _ (by omega) (by omega)]
      congr 1
      have hML : MIDDLE_LOCATION = 5 := by decide
      rw [hML]
      by_cases hc : (i : Int) ≠ 5 ∧ xb (i : Int) > ms
      · rw [if_pos hc, Bool.false_and]
        symm
        rw [Bool.and_eq_false_iff]
        right
        apply decide_eq_false
        intro hall
        exact absurd (hall i (le_refl _) (by omega) (by omega)) (not_le.mpr hc.2)
      · rw [if_neg hc]
        congr 1
        apply decide_eq_decide.mpr
        constructor
        · intro hall j h1 h2 h3
          by_cases hji : j = i
          · subst hji
            exact not_lt.mp (fun hgt => hc ⟨by omega, hgt⟩)
          · exact hall j (by omega) h2 h3
        · intro hall j h1 h2 h3
          exact hall j (by omega) h2 h3
    · rw [if_neg h]
      unfold WINDOW_LENGTH at h
      have hd : decide (∀ j : Nat, i ≤ j → j < 11 → j ≠ 5 → xb (j : Int) ≤ ms) = true := by
        apply decide_eq_true
        intro j h1 h2
        omega
      rw [hd, Bool.and_true]

theorem readIfAvailable_drop (b : Buffers) (x t : List DataType) (k : Nat)
    (hx : k < x.length) (ht : k < t.length) :
    readIfAvailable b (x.drop k) (t.drop k)
      = (⟨store b.xcorrBuffer 0 (x.getD k 0), store b.thresholdBuffer 0 (t.getD k 0)⟩,
          x.drop (k + 1), t.drop (k + 1)) := by
  rw [List.drop_eq_getElem_cons hx, List.drop_eq_getElem_cons ht]
  unfold readIfAvailable
  rw [List.getD_eq_getElem x 0 hx, List.getD_eq_getElem t 0 ht]

theorem opt3_location (k : Nat) (hk : 10 ≤ k) :
    toLocationType (intToLocationType ((k : Int) - MIDDLE_LOCATION) + 1)
      = toLocationType (k - 5 + 1) := by
  have hML : MIDDLE_LOCATION = 5 := by decide
  rw [hML]
  unfold toLocationType intToLocationType
  omega

theorem opt3_process_signal_body_spec (x t : List DataType) (loc0 : List Nat) (k : Nat)
    (hx : k < x.length) (ht : k < t.length) (st : State) (hinv : Inv x t loc0 k st) :
    ∃ st', process_signal_body (k : Int) st = .ok st' ∧ Inv x t loc0 (k + 1) st' := by
  obtain ⟨hbx, hbt, hsx, hst, hloc⟩ := hinv
  have hWL : WINDOW_LENGTH.toNat = 11 := by decide
  have hWL1 : WINDOW_LENGTH - 1 = ((10 : Nat) : Int) := by decide
  have hML : MIDDLE_LOCATION = ((5 : Nat) : Int) := by decide
  obtain ⟨b', hb, hx', ht'⟩ := opt3_shift_buffers_spec 11 10 st.buffers (by omega)
  have hnx : ∀ j : Nat, j < 11 → store b'.xcorrBuffer 0 (x.getD k 0) (j : Int)
      = if j < k + 1 then x.getD (k + 1 - 1 - j) 0 else 0 := by
    intro j hj
    unfold store
    by_cases h0 : j = 0
    · subst h0; simp
    · rw [if_neg (by omega), hx' (j : Int), if_pos (by omega)]
      have hcast : ((j : Int) - 1) = ((j - 1 : Nat) : Int) := by omega
      rw [hcast, hbx (j - 1) (by omega)]
      by_cases hjk : j < k + 1
      · rw [if_pos (by omega), if_pos hjk]; congr 1; omega
      · rw [if_neg (by omega), if_neg hjk]
  have hnt : ∀ j : Nat, j < 11 → store b'.thresholdBuffer 0 (t.getD k 0) (j : Int)
      = if j < k + 1 then t.getD (k + 1 - 1 - j) 0 else 0 := by
    intro j hj
    unfold store
    by_cases h0 : j = 0
    · subst h0; simp
    · rw [if_neg (by omega), ht' (j : Int), if_pos (by omega)]
      have hcast : ((j : Int) - 1) = ((j - 1 : Nat) : Int) := by omega
      rw [hcast, hbt (j - 1) (by omega)]
      by_cases hjk : j < k + 1
      · rw [if_pos (by omega), if_pos hjk]; congr 1; omega
      · rw [if_neg (by omega), if_neg hjk]
  unfold process_signal_body
  rw [hWL, hWL1, hb]
  simp only []
  rw [hsx, hst, readIfAvailable_drop b' x t k hx ht]
  simp only []
  unfold check_peak
  rw [hWL, hWL1]
  simp only []
  by_cases hfull : 10 ≤ k
  · have hcs := opt3_compare_samples_spec (store b'.xcorrBuffer 0 (x.getD k 0))
      (store b'.xcorrBuffer 0 (x.getD k 0) MIDDLE_LOCATION) (11 + 1) 0 true (by omega) (by omega)
    rw [Nat.cast_zero] at hcs
    rw [if_pos (by omega), hcs]
    simp only [Bool.true_and]
    rw [hML]
    have hmid : store b'.xcorrBuffer 0 (x.getD k 0) ((5 : Nat) : Int) = x.getD (k - 5) 0 := by
      rw [hnx 5 (by omega), if_pos (by omega), Nat.add_sub_cancel]
    have hmidt : store b'.thresholdBuffer 0 (t.getD k 0) ((5 : Nat) : Int)
        = t.getD (k - 5) 0 := by
      rw [hnt 5 (by omega), if_pos (by omega), Nat.add_sub_cancel]
    have hpeak : ((∀ j : Nat, 0 ≤ j → j < 11 → j ≠ 5 →
          store b'.xcorrBuffer 0 (x.getD k 0) (j : Int)
            ≤ store b'.xcorrBuffer 0 (x.getD k 0) ((5 : Nat) : Int)) ∧
        store b'.xcorrBuffer 0 (x.getD k 0) ((5 : Nat) : Int)
          > store b'.thresholdBuffer 0 (t.getD k 0) ((5 : Nat) : Int))
        ↔ PerfOpt2.IsPeak x t 5 (k - 5) := by
      rw [hmid, hmidt]
      unfold PerfOpt2.IsPeak
      constructor
      · rintro ⟨hall, hth⟩
        refine ⟨hth, ?_⟩
        intro q hq1 hq2
        by_cases hqc : q = k - 5
        · rw [hqc]
        · have := hall (k - q) (Nat.zero_le _) (by omega) (by omega)
          rw [hnx (k - q) (by omega), if_pos (by omega)] at this
          have he : k + 1 - 1 - (k - q) = q := by omega
          rw [he] at this
          exact this
      · rintro ⟨hth, hall⟩
        refine ⟨?_, hth⟩
        intro j _ hj hjm
        rw [hnx j hj, if_pos (by omega)]
        exact hall _ (by omega) (by omega)
    have hsucc := PerfOpt2.candidates_succ x t 5 k
    by_cases hacc : PerfOpt2.IsPeak x t 5 (k - 5)
    · rw [if_pos ⟨decide_eq_true (hpeak.mpr hacc).1, (hpeak.mpr hacc).2⟩]
      simp only []
      refine ⟨_, rfl, hnx, hnt, rfl, rfl, ?_⟩
      show st.streams.locationsStream
        ++ [toLocationType (intToLocationType ((k : Int) - ((5 : Nat) : Int)) + 1)] = _
      rw [hsucc, if_pos ⟨by omega, hacc⟩, List.map_append, ← List.append_assoc, ← hloc,
        ← hML, opt3_location k hfull]
      rfl
    · rw [if_neg (fun h => hacc (hpeak.mp ⟨of_decide_eq_true h.1, h.2⟩))]
      simp only []
      refine ⟨_, rfl, hnx, hnt, rfl, rfl, ?_⟩
      show st.streams.locationsStream = _
      rw [hsucc, if_neg (fun h => hacc h.2), List.append_nil]
      exact hloc
  · rw [if_neg (by omega)]
    simp only []
    refine ⟨_, rfl, hnx, hnt, rfl, rfl, ?_⟩
    show st.streams.locationsStream = _
    rw [PerfOpt2.candidates_succ, if_neg (fun h => hfull (by omega)), List.append_nil]
    exact hloc

theorem opt3_process_signal_spec (x t : List DataType) (loc0 : List Nat) (n : Nat)
    (hx : n ≤ x.length) (ht : n ≤ t.length) :
    ∀ (fuel k : Nat) (st : State), k ≤ n → n - k < fuel → Inv x t loc0 k st →
      ∃ st', process_signal (n : Int) fuel (k : Int) st = .ok st' ∧ Inv x t loc0 n st' := by
  intro fuel
  induction fuel with
  | zero => intro k _ _ h; omega
  | succ fuel ih =>
    intro k st hk hf hinv
    unfold process_signal
    by_cases h : (k : Int) < (n : Int)
    · rw [if_pos h]
      obtain ⟨st1, h1, hinv1⟩ := opt3_process_signal_body_spec x t loc0 k (by omega) (by omega)
        st hinv
      rw [h1]
      simp only []
      have hcast : ((k : Int) + 1) = ((k + 1 : Nat) : Int) := by push_cast; rfl
      rw [hcast]
      exact ih (k + 1) st1 (by omega) (by omega) hinv1
    · rw [if_neg h]
      have : k = n := by omega
      subst this
      exact ⟨st, rfl, hinv⟩

/-- Run of the fixed-window kernel on input streams holding at least `n`
samples: it returns, has taken `n` samples off each input stream, and has
appended, for every candidate `c` in `5 .. n-6` that satisfies the rule, the
16-bit value of `c + 1` to `locationsStream`. -/
theorem opt3_peakPicker_spec (x t : List DataType) (loc0 : List Nat) (n : Nat)
    (hx : n ≤ x.length) (ht : n ≤ t.length) :
    peakPicker ⟨x, t, loc0⟩ (n : Int) =
      .ok ⟨x.drop n, t.drop n, loc0 ++ (PerfOpt2.candidates x t 5 n).map toLocationType⟩ := by
  have hWL : WINDOW_LENGTH.toNat = 11 := by decide
  have hinit := opt3_init_buffers_spec (11 + 1) 0 (by omega) (by omega)
  obtain ⟨st, hst, _, _, hsx, hstt, hloc⟩ :=
    opt3_process_signal_spec x t loc0 n hx ht (n + 1) 0
      ⟨⟨fun _ => 0, fun _ => 0⟩, ⟨x, t, loc0⟩⟩ (Nat.zero_le _) (by omega)
      ⟨fun j _ => by simp, fun j _ => by simp, rfl, rfl, by simp [PerfOpt2.candidates]⟩
  unfold peakPicker
  rw [hWL]
  rw [Nat.cast_zero] at hinit hst
  rw [hinit]
  simp only []
  rw [Int.toNat_ofNat, hst]
  simp only []
  rw [← hsx, ← hstt, ← hloc]

end PerfOpt3

/-! ## The batch kernel on one channel -/

namespace Origin

theorem Qualifying_one_iff (xcorr : Int → Int → DataType) (threshold : Int → DataType)
    (W i : Nat) :
    Qualifying xcorr threshold 1 W i ↔
      (xcorr ((i + W / 2 : Nat) : Int) 0 ≥ threshold ((i + W / 2 : Nat) : Int) ∧
        ∀ w, w < W → xcorr ((i + W / 2 : Nat) : Int) 0 ≥ xcorr ((i + w : Nat) : Int) 0) := by
  have h0 : ((0 : Nat) : Int) = 0 := rfl
  unfold Qualifying
  constructor
  · rintro ⟨⟨s, hs, hth⟩, hall⟩
    have hs0 : s = 0 := by omega
    subst hs0
    rw [h0] at hth
    refine ⟨hth, ?_⟩
    intro w hw
    have := hall 0 (by omega) (by rw [h0]; exact hth) w hw
    rw [h0] at this
    exact this
  · rintro ⟨hth, hall⟩
    refine ⟨⟨0, by omega, by rw [h0]; exact hth⟩, ?_⟩
    intro s hs _ w hw
    have hs0 : s = 0 := by omega
    subst hs0
    rw [h0]
    exact hall w hw

/-- A qualifying window start whose candidate is not the strict global maximum
`g` has a window that does not contain `g`. -/
theorem single_max_far (xcorr : Int → Int → DataType) (threshold : Int → DataType)
    (n W g i : Nat) (hodd : W % 2 = 1) (hg : g < n)
    (hmax : ∀ j : Nat, j < n → j ≠ g → xcorr (j : Int) 0 < xcorr (g : Int) 0)
    (hi : i < n + 1 - W) (hq : Qualifying xcorr threshold 1 W i) (hne : i + W / 2 ≠ g) :
    i + W / 2 + W / 2 < g ∨ g + W / 2 < i + W / 2 := by
  by_contra hcon
  have hwin := ((Qualifying_one_iff xcorr threshold W i).mp hq).2 (g - i) (by omega)
  have he : i + (g - i) = g := by omega
  rw [he] at hwin
  exact absurd hwin (not_le.mpr (hmax (i + W / 2) (by omega) hne))

/-- The window start whose candidate is a strict global maximum above its
threshold qualifies. -/
theorem single_max_qualifies (xcorr : Int → Int → DataType) (threshold : Int → DataType)
    (n W g : Nat) (hodd : W % 2 = 1)
    (hmax : ∀ j : Nat, j < n → j ≠ g → xcorr (j : Int) 0 < xcorr (g : Int) 0)
    (hth : xcorr (g : Int) 0 > threshold (g : Int)) (h1 : W / 2 ≤ g) (h2 : g + W / 2 < n) :
    Qualifying xcorr threshold 1 W (g - W / 2) := by
  rw [Qualifying_one_iff]
  have hc : g - W / 2 + W / 2 = g := by omega
  rw [hc]
  refine ⟨le_of_lt hth, ?_⟩
  intro w hw
  by_cases hwg : g - W / 2 + w = g
  · rw [hwg]
  · exact le_of_lt (hmax _ (by omega) hwg)

theorem eq_singleton_of_pairwise_lt (l : List Int) (a : Int)
    (hpw : l.Pairwise (fun x y => x < y)) (hall : ∀ p ∈ l, p = a) (ha : a ∈ l) : l = [a] := by
  match l, hpw, hall, ha with
  | [], _, _, ha => exact absurd ha (List.not_mem_nil _)
  | [b], _, hall, _ => rw [hall b (List.mem_singleton.mpr rfl)]
  | b :: c :: rest, hpw, hall, _ =>
    have hb := hall b (List.mem_cons_self _ _)
    have hc := hall c (List.mem_cons_of_mem _ (List.mem_cons_self _ _))
    have hlt : b < c := (List.pairwise_cons.mp hpw).1 c (List.mem_cons_self _ _)
    omega

end Origin

/-! ## Runs of the fixed-window kernel of different lengths -/

namespace PerfOpt3

theorem opt3_check_peak_total (index : Int) (b : Buffers) (loc : List Nat) :
    ∃ loc', check_peak index b loc = .ok loc' ∧ ∃ extra, loc' = loc ++ extra := by
  unfold check_peak
  by_cases h : index ≥ WINDOW_LENGTH - 1
  · rw [if_pos h]
    have hWL : WINDOW_LENGTH.toNat = 11 := by decide
    have hcs := opt3_compare_samples_spec b.xcorrBuffer (b.xcorrBuffer MIDDLE_LOCATION)
      (11 + 1) 0 true (by omega) (by omega)
    rw [Nat.cast_zero] at hcs
    rw [hWL, hcs]
    simp only []
    split
    · exact ⟨_, rfl, _, rfl⟩
    · exact ⟨_, rfl, [], (List.append_nil _).symm⟩
  · rw [if_neg h]
    exact ⟨_, rfl, [], (List.append_nil _).symm⟩

/-- The body of `process_signal` never faults, and it only appends to
`locationsStream`. -/
theorem opt3_body_total (index : Int) (st : State) :
    ∃ st', process_signal_body index st = .ok st' ∧
      ∃ extra, st'.streams.locationsStream = st.streams.locationsStream ++ extra := by
  have hWL : WINDOW_LENGTH.toNat = 11 := by decide
  have hWL1 : WINDOW_LENGTH - 1 = ((10 : Nat) : Int) := by decide
  obtain ⟨b', hb, _, _⟩ := opt3_shift_buffers_spec 11 10 st.buffers (by omega)
  unfold process_signal_body
  rw [hWL, hWL1, hb]
  simp only []
  obtain ⟨loc', hl, extra, he⟩ := opt3_check_peak_total index
    (readIfAvailable b' st.streams.xcorrStream st.streams.thresholdStream).1
    st.streams.locationsStream
  rw [hl]
  exact ⟨_, rfl, extra, he⟩

theorem opt3_run_appends (n : Int) :
    ∀ (fuel : Nat) (i : Int) (st : State), (n - i).toNat < fuel →
      ∃ st', process_signal n fuel i st = .ok st' ∧
        ∃ extra, st'.streams.locationsStream = st.streams.locationsStream ++ extra := by
  intro fuel
  induction fuel with
  | zero => intro i _ h; omega
  | succ fuel ih =>
    intro i st hf
    unfold process_signal
    by_cases h : i < n
    · rw [if_pos h]
      obtain ⟨st1, h1, e1, he1⟩ := opt3_body_total i st
      rw [h1]
      simp only []
      obtain ⟨st2, h2, e2, he2⟩ := ih (i + 1) st1 (by omega)
      exact ⟨st2, h2, e1 ++ e2, by rw [he2, he1, List.append_assoc]⟩
    · rw [if_neg h]
      exact ⟨st, rfl, [], (List.append_nil _).symm⟩

theorem opt3_fuel_irrelevant (n : Int) :
    ∀ (fuel fuel2 : Nat) (i : Int) (st : State), (n - i).toNat < fuel → (n - i).toNat < fuel2 →
      process_signal n fuel i st = process_signal n fuel2 i st := by
  intro fuel
  induction fuel with
  | zero => intro _ i _ h; omega
  | succ fuel ih =>
    intro fuel2 i st hf hf2
    cases fuel2 with
    | zero => omega
    | succ fuel2 =>
      unfold process_signal
      by_cases h : i < n
      · rw [if_pos h, if_pos h]
        obtain ⟨st1, h1, _⟩ := opt3_body_total i st
        rw [h1]
        simp only []
        exact ih fuel2 (i + 1) st1 (by omega) (by omega)
      · rw [if_neg h, if_neg h]

/-- A run of `process_signal` up to `n` starts like the run up to `k <= n`: the
locations of the shorter run come first. -/
theorem opt3_process_signal_initial_segment (k n : Int) (hkn : k ≤ n) :
    ∀ (fuel : Nat) (i : Int) (st : State), (n - i).toNat < fuel →
      ∃ st_k st_n extra, process_signal k fuel i st = .ok st_k ∧
        process_signal n fuel i st = .ok st_n ∧
        st_n.streams.locationsStream = st_k.streams.locationsStream ++ extra := by
  intro fuel
  induction fuel with
  | zero => intro i _ h; omega
  | succ fuel ih =>
    intro i st hf
    by_cases h : i < k
    · unfold process_signal
      rw [if_pos h, if_pos (lt_of_lt_of_le h hkn)]
      obtain ⟨st1, h1, _⟩ := opt3_body_total i st
      rw [h1]
      simp only []
      exact ih (i + 1) st1 (by omega)
    · obtain ⟨st_n, hn, extra, he⟩ := opt3_run_appends n (fuel + 1) i st hf
      refine ⟨st, st_n, extra, ?_, hn, he⟩
      unfold process_signal
      rw [if_neg h]

theorem opt3_peakPicker_initial_segment (streams : Streams) (k n : Int) (hkn : k ≤ n) :
    ∃ s_k s_n extra, peakPicker streams k = .ok s_k ∧ peakPicker streams n = .ok s_n ∧
      s_n.locationsStream = s_k.locationsStream ++ extra := by
  have hWL : WINDOW_LENGTH.toNat = 11 := by decide
  have hinit := opt3_init_buffers_spec (11 + 1) 0 (by omega) (by omega)
  rw [Nat.cast_zero] at hinit
  obtain ⟨st_k, st_n, extra, hk, hn, he⟩ := opt3_process_signal_initial_segment k n hkn (n.toNat + 1) 0
    ⟨⟨fun _ => 0, fun _ => 0⟩, streams⟩ (by omega)
  rw [opt3_fuel_irrelevant k (n.toNat + 1) (k.toNat + 1) 0 _ (by omega) (by omega)] at hk
  refine ⟨st_k.streams, st_n.streams, extra, ?_, ?_, he⟩
  · unfold peakPicker
    rw [hWL, hinit]
    simp only []
    rw [hk]
  · unfold peakPicker
    rw [hWL, hinit]
    simp only []
    rw [hn]

end PerfOpt3

/-! ## The batch kernel without channels, and against the array kernel -/

namespace Origin

theorem THRESHOLD_CHECK_no_channel (xcorr : Int → Int → DataType) (threshold : Int → DataType)
    (c : Int) (vars : ThresholdVars) :
    THRESHOLD_CHECK xcorr threshold 0 c ((0 : Int).toNat + 1) 0 vars = some vars := by
  show THRESHOLD_CHECK xcorr threshold 0 c (0 + 1) 0 vars = some vars
  unfold THRESHOLD_CHECK
  rw [if_neg (by omega)]

theorem SLIDE_WINDOW_no_channel (cap : Int) (xcorr : Int → Int → DataType)
    (threshold : Int → DataType) (L W m : Int) :
    ∀ (fuel : Nat) (index : Int) (out : Output), (L - W + 1 - index).toNat < fuel →
      SLIDE_WINDOW cap xcorr threshold L 0 W m fuel index out = some out := by
  intro fuel
  induction fuel with
  | zero => intro i _ h; omega
  | succ fuel ih =>
    intro index out hf
    unfold SLIDE_WINDOW
    by_cases h : index ≤ L - W
    · rw [if_pos h, THRESHOLD_CHECK_no_channel]
      simp only []
      rw [if_neg (by decide)]
      exact ih (index + 1) out (by omega)
    · rw [if_neg h]

theorem ofList_cast (l : List DataType) (i : Nat) : ofList l ((i : Nat) : Int) = l.getD i 0 := by
  unfold ofList
  rw [if_pos (by omega), Int.toNat_ofNat]

/-- When no sample equals its threshold, the rule of the batch kernel on one
channel is the test of the array kernel. -/
theorem Qualifying_iff_WindowRule (x t : List DataType) (n W i : Nat) (hW : 1 ≤ W)
    (hne : ∀ j, j < n → x.getD j 0 ≠ t.getD j 0) (hi : i < n + 1 - W) :
    Qualifying (fun j _ => ofList x j) (ofList t) 1 W i ↔
      PerfOpt1.WindowRule (PerfOpt1.arrayOf x n) (PerfOpt1.arrayOf t n) W i := by
  rw [Qualifying_one_iff]
  unfold PerfOpt1.WindowRule
  rw [ofList_cast, ofList_cast, PerfOpt1.arrayOf_lt x n (i + W / 2) (by omega),
    PerfOpt1.arrayOf_lt t n (i + W / 2) (by omega)]
  constructor
  · rintro ⟨hth, hall⟩
    refine ⟨?_, lt_of_le_of_ne hth (Ne.symm (hne _ (by omega)))⟩
    intro j hj _
    have := hall j hj
    rw [ofList_cast] at this
    rw [PerfOpt1.arrayOf_lt x n _ (by omega)]
    exact this
  · rintro ⟨hall, hth⟩
    refine ⟨le_of_lt hth, ?_⟩
    intro w hw
    rw [ofList_cast]
    by_cases hwm : w = W / 2
    · rw [hwm]
    · have := hall w hw hwm
      rw [PerfOpt1.arrayOf_lt x n _ (by omega)] at this
      exact this

theorem accepted_eq_passed (x t : List DataType) (n W : Nat) (hW : 1 ≤ W)
    (hne : ∀ j, j < n → x.getD j 0 ≠ t.getD j 0) :
    accepted (fun j _ => ofList x j) (ofList t) 1 W (n + 1 - W)
      = (PerfOpt1.passed (PerfOpt1.arrayOf x n) (PerfOpt1.arrayOf t n) W (n + 1 - W)).map
          (fun (p : Nat) => (p : Int)) := by
  unfold accepted PerfOpt1.passed
  rw [List.map_map]
  have hf : (List.range (n + 1 - W)).filter
        (fun i => decide (Qualifying (fun j _ => ofList x j) (ofList t) 1 W i))
      = (List.range (n + 1 - W)).filter (fun i => decide (PerfOpt1.WindowRule
          (PerfOpt1.arrayOf x n) (PerfOpt1.arrayOf t n) W i)) := by
    apply List.filter_congr
    intro i hi
    exact decide_eq_decide.mpr
      (Qualifying_iff_WindowRule x t n W i hW hne (List.mem_range.mp hi))
  rw [hf]
  rfl

end Origin

/-! ## The shift registers in the middle of a run -/

namespace PerfOpt2

/-- A run of `process_signal` over `n` steps passes through the state in which a
run over `k + 1 <= n` steps ends: the first `k + 1` iterations are the same. -/
theorem opt2_process_signal_split (n W m k : Nat) (hk : k < n) (hn : n ≤ MAX_SIGNAL_LENGTH) :
    ∀ (d index : Nat) (st st' : State), index + d = k + 1 →
      process_signal (k + 1) W m (d + 1) index st = .ok st' →
      process_signal n W m (d + 1 + (n - (k + 1))) index st
        = process_signal n W m (1 + (n - (k + 1))) (k + 1) st' := by
  intro d
  induction d with
  | zero =>
    intro index st st' hidx hrun
    have hidx' : index = k + 1 := by omega
    subst hidx'
    unfold process_signal at hrun
    rw [if_neg (by omega)] at hrun
    cases hrun
    rfl
  | succ d ih =>
    intro index st st' hidx hrun
    unfold process_signal at hrun
    rw [if_pos (by omega)] at hrun
    have hfuel : d + 1 + 1 + (n - (k + 1)) = (d + 1 + (n - (k + 1))) + 1 := by omega
    rw [hfuel]
    conv => lhs; unfold process_signal
    rw [if_pos (by omega)]
    have hu : uadd32 index 1 = index + 1 := by
      unfold uadd32
      rw [if_pos (by unfold MAX_SIGNAL_LENGTH at hn; omega)]
    rw [hu] at hrun ⊢
    cases hb : process_signal_body W m index st with
    | error f =>
      rw [hb] at hrun
      cases hrun
    | ok st1 =>
      rw [hb] at hrun
      exact ih (index + 1) st1 st' (by omega) hrun

/-- Loop `init_buffers` on arrays of any content: the cells `i .. W-1` are set
to zero and the other cells are kept. -/
theorem opt2_init_buffers_any (W : Nat) (hW : W < 4294967296) :
    ∀ (fuel i : Nat) (b : Buffers), i ≤ W → W - i < fuel →
      ∃ b', init_buffers W fuel i b = .ok b' ∧
        (∀ j, b'.xcorrBuffer j = if i ≤ j ∧ j < W then 0 else b.xcorrBuffer j) ∧
        (∀ j, b'.thresholdBuffer j = if i ≤ j ∧ j < W then 0 else b.thresholdBuffer j) := by
  intro fuel
  induction fuel with
  | zero => intro i _ _ h; omega
  | succ fuel ih =>
    intro i b hi hf
    unfold init_buffers
    by_cases h : i < W
    · rw [if_pos h]
      have hu : uadd32 i 1 = i + 1 := by unfold uadd32; rw [if_pos (by omega)]
      rw [hu]
      obtain ⟨b', hb, hx, ht⟩ := ih (i + 1)
        ⟨store b.xcorrBuffer i 0, store b.thresholdBuffer i 0⟩ (by omega) (by omega)
      refine ⟨b', hb, ?_, ?_⟩
      · intro j
        rw [hx j]
        simp only [store]
        split_ifs <;> first | rfl | omega
      · intro j
        rw [ht j]
        simp only [store]
        split_ifs <;> first | rfl | omega
    · rw [if_neg h]
      refine ⟨b, rfl, ?_, ?_⟩
      · intro j; rw [if_neg (by omega)]
      · intro j; rw [if_neg (by omega)]

/-- Registers after the iteration `index = k`, whatever the local arrays held
before `init_buffers`: cell `j` holds the sample read `j` iterations earlier,
or the zero written by `init_buffers` when fewer than `j + 1` samples have been
read. -/
theorem opt2_buffersAfterFrom_spec (uninit : Buffers) (x t : List DataType) (loc0 cnt0 : List Nat)
    (W k : Nat)
    (hodd : W % 2 = 1) (hW11 : W ≤ MAX_WINDOW_LENGTH) (hk : k + 1 ≤ MAX_SIGNAL_LENGTH)
    (hx : k + 1 ≤ x.length) (ht : k + 1 ≤ t.length) :
    ∃ b, buffersAfterFrom uninit ⟨x, t, loc0, cnt0⟩ W k = .ok b ∧
      (∀ j, j < W → b.xcorrBuffer j = if j ≤ k then x.getD (k - j) 0 else 0) ∧
      (∀ j, j < W → b.thresholdBuffer j = if j ≤ k then t.getD (k - j) 0 else 0) := by
  have hW : W = 2 * (W / 2) + 1 := by omega
  obtain ⟨b0, hinit, hx0, ht0⟩ := opt2_init_buffers_any W
    (by unfold MAX_WINDOW_LENGTH at hW11; omega) (W + 1) 0 uninit (Nat.zero_le _) (by omega)
  obtain ⟨st, hst, hbx, hbt, _⟩ :=
    opt2_process_signal_spec x t loc0 cnt0 (k + 1) W (W / 2) hW hW11 hk hx ht (k + 1 + 1) 0
      ⟨b0, 0, ⟨x, t, loc0, cnt0⟩⟩ (Nat.zero_le _) (by omega)
      ⟨fun j hj => by
          show b0.xcorrBuffer j = _
          rw [hx0 j, if_pos ⟨Nat.zero_le _, hj⟩, if_neg (Nat.not_lt_zero _)],
        fun j hj => by
          show b0.thresholdBuffer j = _
          rw [ht0 j, if_pos ⟨Nat.zero_le _, hj⟩, if_neg (Nat.not_lt_zero _)],
        rfl, rfl, by simp [emitted, candidates], rfl, by simp [emitted, candidates]⟩
  unfold buffersAfterFrom
  rw [hinit]
  simp only []
  rw [hst]
  refine ⟨st.buffers, rfl, ?_, ?_⟩
  · intro j hj
    rw [hbx j hj]
    by_cases h : j ≤ k
    · rw [if_pos (by omega), if_pos h, Nat.add_sub_cancel]
    · rw [if_neg (by omega), if_neg h]
  · intro j hj
    rw [hbt j hj]
    by_cases h : j ≤ k
    · rw [if_pos (by omega), if_pos h, Nat.add_sub_cancel]
    · rw [if_neg (by omega), if_neg h]

/-- The registers given by `buffersAfterFrom` are those of a state that the call
with any `signalLength > k` is in right after the iteration `index = k`: the
loop `process_signal` of that call goes on from this state at `index = k + 1`. -/
theorem opt2_buffersAfter_on_run (uninit : Buffers) (streams : Streams) (n W k : Nat)
    (hk : k < n) (hn : n ≤ MAX_SIGNAL_LENGTH) (b : Buffers)
    (hb : buffersAfterFrom uninit streams W k = .ok b) :
    ∃ buffers st,
      init_buffers W (W + 1) 0 uninit = .ok buffers ∧
      st.buffers = b ∧
      process_signal n W (W / 2) (n + 1) 0 ⟨buffers, 0, streams⟩
        = process_signal n W (W / 2) (n - k) (k + 1) st := by
  unfold buffersAfterFrom at hb
  cases hinit : init_buffers W (W + 1) 0 uninit with
  | error f =>
    rw [hinit] at hb
    cases hb
  | ok buffers =>
    rw [hinit] at hb
    simp only [] at hb
    cases hrun : process_signal (k + 1) W (W / 2) (k + 2) 0 ⟨buffers, 0, streams⟩ with
    | error f =>
      rw [hrun] at hb
      cases hb
    | ok st =>
      rw [hrun] at hb
      refine ⟨buffers, st, rfl, ?_, ?_⟩
      · cases hb
        rfl
      · have h := opt2_process_signal_split n W (W / 2) k hk hn (k + 1) 0
          ⟨buffers, 0, streams⟩ st (by omega) hrun
        have h1 : k + 1 + 1 + (n - (k + 1)) = n + 1 := by omega
        have h2 : 1 + (n - (k + 1)) = n - k := by omega
        rw [h1, h2] at h
        exact h

end PerfOpt2

/-! ## The recorded run of the batch kernel: same result, accesses in bounds -/

namespace Origin

/-- Dropping the log of the recorded `THRESHOLD_CHECK` gives the loop itself. -/
theorem traced_THRESHOLD_CHECK_erase (xcorr : Int → Int → DataType) (threshold : Int → DataType)
    (seqCount c : Int) :
    ∀ (fuel : Nat) (seq : Int) (vars : ThresholdVars) (log : List Access),
      THRESHOLD_CHECK xcorr threshold seqCount c fuel seq vars
        = (Traced.THRESHOLD_CHECK xcorr threshold seqCount c fuel seq vars log).map Prod.fst := by
  intro fuel
  induction fuel with
  | zero => intro seq vars log; rfl
  | succ fuel ih =>
    intro seq vars log
    unfold THRESHOLD_CHECK Traced.THRESHOLD_CHECK
    split_ifs
    · exact ih _ _ _
    · exact ih _ _ _
    · rfl

/-- Dropping the log of the recorded `WINDOW_CHECK` gives the loop itself. -/
theorem traced_WINDOW_CHECK_erase (xcorr : Int → Int → DataType)
    (windowLength c index seq : Int) :
    ∀ (fuel : Nat) (w : Int) (log : List Access),
      WINDOW_CHECK xcorr windowLength c index seq fuel w
        = (Traced.WINDOW_CHECK xcorr windowLength c index seq fuel w log).map Prod.fst := by
  intro fuel
  induction fuel with
  | zero => intro w log; rfl
  | succ fuel ih =>
    intro w log
    unfold WINDOW_CHECK Traced.WINDOW_CHECK
    split_ifs
    · rfl
    · exact ih _ _
    · rfl

/-- Dropping the log of the recorded `VALID_SEQ_LOOP` gives the loop itself. -/
theorem traced_VALID_SEQ_LOOP_erase (xcorr : Int → Int → DataType)
    (windowLength c index : Int) (validSeqIndices : Int → Int) (validSeqCount : Int) :
    ∀ (fuel : Nat) (v maxCheckCount : Int) (log : List Access),
      VALID_SEQ_LOOP xcorr windowLength c index validSeqIndices validSeqCount fuel v maxCheckCount
        = (Traced.VALID_SEQ_LOOP xcorr windowLength c index validSeqIndices validSeqCount
            fuel v maxCheckCount log).map Prod.fst := by
  intro fuel
  induction fuel with
  | zero => intro v m log; rfl
  | succ fuel ih =>
    intro v m log
    unfold VALID_SEQ_LOOP Traced.VALID_SEQ_LOOP
    by_cases hv : v < validSeqCount
    · rw [if_pos hv, if_pos hv,
        traced_WINDOW_CHECK_erase xcorr windowLength c index (validSeqIndices v) _ 0
          (log ++ [.validSeqIndicesRead v])]
      cases Traced.WINDOW_CHECK xcorr windowLength c index (validSeqIndices v)
          (windowLength.toNat + 1) 0 (log ++ [.validSeqIndicesRead v]) with
      | none => rfl
      | some r =>
        obtain ⟨isMax, log1⟩ := r
        exact ih _ _ _
    · rw [if_neg hv, if_neg hv]
      rfl

/-- Dropping the log of the recorded `SLIDE_WINDOW` gives the loop itself. -/
theorem traced_SLIDE_WINDOW_erase (cap : Int) (xcorr : Int → Int → DataType)
    (threshold : Int → DataType) (xcorrLength seqCount windowLength middleLocation : Int) :
    ∀ (fuel : Nat) (index : Int) (out : Output) (log : List Access),
      SLIDE_WINDOW cap xcorr threshold xcorrLength seqCount windowLength middleLocation
          fuel index out
        = (Traced.SLIDE_WINDOW cap xcorr threshold xcorrLength seqCount windowLength
            middleLocation fuel index out log).map Prod.fst := by
  intro fuel
  induction fuel with
  | zero => intro index out log; rfl
  | succ fuel ih =>
    intro index out log
    unfold SLIDE_WINDOW Traced.SLIDE_WINDOW
    by_cases hidx : index ≤ xcorrLength - windowLength
    · rw [if_pos hidx, if_pos hidx,
        traced_THRESHOLD_CHECK_erase xcorr threshold seqCount (index + middleLocation) _ 0
          ⟨false, 0, fun _ => 0⟩ log]
      cases Traced.THRESHOLD_CHECK xcorr threshold seqCount (index + middleLocation)
          (seqCount.toNat + 1) 0 ⟨false, 0, fun _ => 0⟩ log with
      | none => rfl
      | some r =>
        obtain ⟨vars, log1⟩ := r
        simp only [Option.map]
        by_cases hex : vars.thresholdExceeded = true
        · rw [if_pos hex, if_pos hex,
            traced_VALID_SEQ_LOOP_erase xcorr windowLength (index + middleLocation) index
              vars.validSeqIndices vars.validSeqCount _ 0 0 log1]
          cases Traced.VALID_SEQ_LOOP xcorr windowLength (index + middleLocation) index
              vars.validSeqIndices vars.validSeqCount (vars.validSeqCount.toNat + 1) 0 0 log1 with
          | none => rfl
          | some r2 =>
            obtain ⟨maxCheckCount, log2⟩ := r2
            simp only [Option.map]
            split_ifs
            · rfl
            · exact ih _ _ _
            · exact ih _ _ _
        · rw [if_neg hex, if_neg hex]
          exact ih _ _ _
    · rw [if_neg hidx, if_neg hidx]
      rfl

end Origin

namespace Origin

theorem inBounds_append (n S : Int) (log extra : List Access)
    (hlog : ∀ a ∈ log, a.InBounds n S) (hextra : ∀ a ∈ extra, a.InBounds n S) :
    ∀ a ∈ log ++ extra, a.InBounds n S := by
  intro a ha
  rcases List.mem_append.mp ha with h | h
  · exact hlog a h
  · exact hextra a h

/-- Accesses of `THRESHOLD_CHECK`: with the candidate inside the signal and at
most `MAX_SEQ_NUMBER` channels, every access is in bounds, and the channels
recorded in `validSeqIndices` are channels of the call. -/
theorem traced_THRESHOLD_CHECK_safe (xcorr : Int → Int → DataType) (threshold : Int → DataType)
    (n S c : Int) (hc0 : 0 ≤ c) (hcn : c < n) (hS : S ≤ MAX_SEQ_NUMBER) :
    ∀ (fuel : Nat) (seq : Int) (vars : ThresholdVars) (log : List Access)
      (r : ThresholdVars × List Access),
      0 ≤ seq → seq ≤ S → 0 ≤ vars.validSeqCount → vars.validSeqCount ≤ seq →
      (∀ j, 0 ≤ j → j < vars.validSeqCount →
        0 ≤ vars.validSeqIndices j ∧ vars.validSeqIndices j < S) →
      (∀ a ∈ log, a.InBounds n S) →
      Traced.THRESHOLD_CHECK xcorr threshold S c fuel seq vars log = some r →
      0 ≤ r.1.validSeqCount ∧ r.1.validSeqCount ≤ S ∧
      (∀ j, 0 ≤ j → j < r.1.validSeqCount →
        0 ≤ r.1.validSeqIndices j ∧ r.1.validSeqIndices j < S) ∧
      ∀ a ∈ r.2, a.InBounds n S := by
  intro fuel
  induction fuel with
  | zero =>
    intro seq vars log r _ _ _ _ _ _ h
    unfold Traced.THRESHOLD_CHECK at h
    cases h
  | succ fuel ih =>
    intro seq vars log r hseq0 hseqS hv0 hvseq hvsi hlog h
    unfold Traced.THRESHOLD_CHECK at h
    by_cases hlt : seq < S
    · rw [if_pos hlt] at h
      by_cases hth : xcorr c seq ≥ threshold c
      · rw [if_pos hth] at h
        refine ih (seq + 1) _ _ r (by omega) (by omega) ?_ ?_ ?_ ?_ h
        · show 0 ≤ vars.validSeqCount + 1
          omega
        · show vars.validSeqCount + 1 ≤ seq + 1
          omega
        · intro j hj0 hj
          show 0 ≤ store vars.validSeqIndices vars.validSeqCount seq j ∧
            store vars.validSeqIndices vars.validSeqCount seq j < S
          unfold store
          by_cases hjv : j = vars.validSeqCount
          · rw [if_pos hjv]
            exact ⟨hseq0, hlt⟩
          · rw [if_neg hjv]
            have hj' : j < vars.validSeqCount + 1 := hj
            exact hvsi j hj0 (by omega)
        · apply inBounds_append n S log _ hlog
          intro a ha
          simp only [List.mem_cons, List.mem_singleton, List.not_mem_nil, or_false] at ha
          rcases ha with rfl | rfl | rfl
          · exact ⟨hc0, hcn, hseq0, hlt⟩
          · exact ⟨hc0, hcn⟩
          · exact ⟨hv0, by omega⟩
      · rw [if_neg hth] at h
        refine ih (seq + 1) vars _ r (by omega) (by omega) hv0 (by omega) hvsi ?_ h
        apply inBounds_append n S log _ hlog
        intro a ha
        simp only [List.mem_cons, List.mem_singleton, List.not_mem_nil, or_false] at ha
        rcases ha with rfl | rfl
        · exact ⟨hc0, hcn, hseq0, hlt⟩
        · exact ⟨hc0, hcn⟩
    · rw [if_neg hlt] at h
      cases h
      exact ⟨hv0, le_trans hvseq hseqS, hvsi, hlog⟩

/-- Accesses of `WINDOW_CHECK`: with the window inside the signal, every read is
in bounds. -/
theorem traced_WINDOW_CHECK_safe (xcorr : Int → Int → DataType) (n S W c index seq : Int)
    (hc0 : 0 ≤ c) (hcn : c < n) (hs0 : 0 ≤ seq) (hsS : seq < S)
    (hi0 : 0 ≤ index) (hiW : index + W ≤ n) :
    ∀ (fuel : Nat) (w : Int) (log : List Access) (r : Bool × List Access),
      0 ≤ w → (∀ a ∈ log, a.InBounds n S) →
      Traced.WINDOW_CHECK xcorr W c index seq fuel w log = some r →
      ∀ a ∈ r.2, a.InBounds n S := by
  intro fuel
  induction fuel with
  | zero =>
    intro w log r _ _ h
    unfold Traced.WINDOW_CHECK at h
    cases h
  | succ fuel ih =>
    intro w log r hw0 hlog h
    unfold Traced.WINDOW_CHECK at h
    have hnew : ∀ a ∈ log ++ [Access.xcorrRead c seq, Access.xcorrRead (index + w) seq],
        w < W → a.InBounds n S := by
      intro a ha hlt
      refine inBounds_append n S log _ hlog ?_ a ha
      intro a ha
      simp only [List.mem_cons, List.mem_singleton, List.not_mem_nil, or_false] at ha
      rcases ha with rfl | rfl
      · exact ⟨hc0, hcn, hs0, hsS⟩
      · exact ⟨by omega, by omega, hs0, hsS⟩
    by_cases hlt : w < W
    · rw [if_pos hlt] at h
      by_cases hcmp : xcorr c seq < xcorr (index + w) seq
      · rw [if_pos hcmp] at h
        cases h
        exact fun a ha => hnew a ha hlt
      · rw [if_neg hcmp] at h
        exact ih (w + 1) _ r (by omega) (fun a ha => hnew a ha hlt) h
    · rw [if_neg hlt] at h
      cases h
      exact hlog

/-- Accesses of `VALID_SEQ_LOOP`: with at most `MAX_SEQ_NUMBER` recorded
channels, all of them channels of the call, every access is in bounds. -/
theorem traced_VALID_SEQ_LOOP_safe (xcorr : Int → Int → DataType) (n S W c index : Int)
    (validSeqIndices : Int → Int) (validSeqCount : Int)
    (hc0 : 0 ≤ c) (hcn : c < n) (hi0 : 0 ≤ index) (hiW : index + W ≤ n)
    (hcount : validSeqCount ≤ MAX_SEQ_NUMBER)
    (hvsi : ∀ j, 0 ≤ j → j < validSeqCount → 0 ≤ validSeqIndices j ∧ validSeqIndices j < S) :
    ∀ (fuel : Nat) (v maxCheckCount : Int) (log : List Access) (r : Int × List Access),
      0 ≤ v → (∀ a ∈ log, a.InBounds n S) →
      Traced.VALID_SEQ_LOOP xcorr W c index validSeqIndices validSeqCount fuel v maxCheckCount log
        = some r →
      ∀ a ∈ r.2, a.InBounds n S := by
  intro fuel
  induction fuel with
  | zero =>
    intro v m log r _ _ h
    unfold Traced.VALID_SEQ_LOOP at h
    cases h
  | succ fuel ih =>
    intro v m log r hv0 hlog h
    unfold Traced.VALID_SEQ_LOOP at h
    by_cases hlt : v < validSeqCount
    · rw [if_pos hlt] at h
      cases hwc : Traced.WINDOW_CHECK xcorr W c index (validSeqIndices v) (W.toNat + 1) 0
          (log ++ [.validSeqIndicesRead v]) with
      | none =>
        rw [hwc] at h
        cases h
      | some r1 =>
        rw [hwc] at h
        obtain ⟨isMax, log1⟩ := r1
        have hlog1 := traced_WINDOW_CHECK_safe xcorr n S W c index (validSeqIndices v) hc0 hcn
          (hvsi v hv0 hlt).1 (hvsi v hv0 hlt).2 hi0 hiW (W.toNat + 1) 0
          (log ++ [.validSeqIndicesRead v]) (isMax, log1) (le_refl 0)
          (by
            apply inBounds_append n S log _ hlog
            intro a ha
            simp only [List.mem_singleton] at ha
            subst ha
            exact ⟨hv0, by omega⟩)
          hwc
        exact ih (v + 1) _ log1 r (by omega) hlog1 h
    · rw [if_neg hlt] at h
      cases h
      exact hlog

/-- Accesses of `SLIDE_WINDOW`: with `0 <= middleLocation < windowLength`, at
most `MAX_SEQ_NUMBER` channels and fewer stored locations than the capacity,
every access is in bounds. -/
theorem traced_SLIDE_WINDOW_safe (cap : Int) (xcorr : Int → Int → DataType)
    (threshold : Int → DataType) (n S W m : Int) (hm0 : 0 ≤ m) (hmW : m < W)
    (hS0 : 0 ≤ S) (hS : S ≤ MAX_SEQ_NUMBER) (hcap : cap ≤ MAX_LOCATIONS) :
    ∀ (fuel : Nat) (index : Int) (out : Output) (log : List Access) (r : Output × List Access),
      0 ≤ index → 0 ≤ out.numLocations → out.numLocations < cap →
      (∀ a ∈ log, a.InBounds n S) →
      Traced.SLIDE_WINDOW cap xcorr threshold n S W m fuel index out log = some r →
      ∀ a ∈ r.2, a.InBounds n S := by
  intro fuel
  induction fuel with
  | zero =>
    intro index out log r _ _ _ _ h
    unfold Traced.SLIDE_WINDOW at h
    cases h
  | succ fuel ih =>
    intro index out log r hi0 hn0 hncap hlog h
    unfold Traced.SLIDE_WINDOW at h
    by_cases hidx : index ≤ n - W
    · rw [if_pos hidx] at h
      have hc0 : 0 ≤ index + m := by omega
      have hcn : index + m < n := by omega
      cases htc : Traced.THRESHOLD_CHECK xcorr threshold S (index + m) (S.toNat + 1) 0
          ⟨false, 0, fun _ => 0⟩ log with
      | none =>
        rw [htc] at h
        cases h
      | some r1 =>
        rw [htc] at h
        obtain ⟨vars, log1⟩ := r1
        obtain ⟨hv0, hvS, hvsi, hlog1⟩ := traced_THRESHOLD_CHECK_safe xcorr threshold n S
          (index + m) hc0 hcn hS (S.toNat + 1) 0 ⟨false, 0, fun _ => 0⟩ log (vars, log1)
          (le_refl 0) hS0 (le_refl 0) (le_refl 0)
          (fun j hj0 hj => absurd hj (not_lt.mpr hj0)) hlog htc
        simp only [] at h hv0 hvS hvsi hlog1
        by_cases hex : vars.thresholdExceeded = true
        · rw [if_pos hex] at h
          cases hvl : Traced.VALID_SEQ_LOOP xcorr W (index + m) index vars.validSeqIndices
              vars.validSeqCount (vars.validSeqCount.toNat + 1) 0 0 log1 with
          | none =>
            rw [hvl] at h
            cases h
          | some r2 =>
            rw [hvl] at h
            obtain ⟨maxCheckCount, log2⟩ := r2
            have hlog2 := traced_VALID_SEQ_LOOP_safe xcorr n S W (index + m) index
              vars.validSeqIndices vars.validSeqCount hc0 hcn hi0 (by omega) (by omega) hvsi
              (vars.validSeqCount.toNat + 1) 0 0 log1 (maxCheckCount, log2) (le_refl 0) hlog1 hvl
            simp only [] at h hlog2
            have hlog3 : ∀ a ∈ log2 ++ [Access.locationsWrite out.numLocations],
                a.InBounds n S := by
              apply inBounds_append n S log2 _ hlog2
              intro a ha
              simp only [List.mem_singleton] at ha
              subst ha
              exact ⟨hn0, by omega⟩
            by_cases hmax : maxCheckCount = vars.validSeqCount
            · rw [if_pos hmax] at h
              by_cases hfull : out.numLocations + 1 ≥ cap
              · rw [if_pos hfull] at h
                cases h
                exact hlog3
              · rw [if_neg hfull] at h
                exact ih (index + 1) _ _ r (by omega)
                  (show 0 ≤ out.numLocations + 1 by omega)
                  (show out.numLocations + 1 < cap by omega) hlog3 h
            · rw [if_neg hmax] at h
              exact ih (index + 1) out log2 r (by omega) hn0 hncap hlog2 h
        · rw [if_neg hex] at h
          exact ih (index + 1) out log1 r (by omega) hn0 hncap hlog1 h
    · rw [if_neg hidx] at h
      cases h
      exact hlog

/-- The recorded call returns the output of the kernel, and under
`1 <= windowLength`, `seqCount <= MAX_SEQ_NUMBER` every recorded access is in
bounds. -/
theorem traced_peakPicker_spec (xcorr : Int → Int → DataType) (threshold : Int → DataType)
    (n S W : Nat) (locations : Int → Int) (hW : 1 ≤ W) (hS : (S : Int) ≤ MAX_SEQ_NUMBER) :
    ∃ out log,
      Traced.peakPicker xcorr threshold (n : Int) (S : Int) (W : Int) locations
        = some (out, log) ∧
      peakPicker xcorr threshold (n : Int) (S : Int) (W : Int) locations = some out ∧
      ∀ a ∈ log, a.InBounds (n : Int) (S : Int) := by
  obtain ⟨out, hout, _⟩ := peakPickerCap_spec 1000 (by omega) xcorr threshold n S W locations
  have hrun : peakPicker xcorr threshold (n : Int) (S : Int) (W : Int) locations = some out :=
    hout
  have herase : peakPicker xcorr threshold (n : Int) (S : Int) (W : Int) locations
      = (Traced.peakPicker xcorr threshold (n : Int) (S : Int) (W : Int) locations).map
          Prod.fst :=
    traced_SLIDE_WINDOW_erase MAX_LOCATIONS xcorr threshold n S W (Int.tdiv (W : Int) 2) _ 0
      ⟨locations, 0⟩ []
  cases htr : Traced.peakPicker xcorr threshold (n : Int) (S : Int) (W : Int) locations with
  | none =>
    rw [htr, hrun] at herase
    cases herase
  | some r =>
    obtain ⟨o, log⟩ := r
    rw [htr, hrun] at herase
    have ho : out = o := Option.some.inj herase
    subst ho
    refine ⟨out, log, rfl, hrun, ?_⟩
    have hm : Int.tdiv (W : Int) 2 = ((W / 2 : Nat) : Int) := tdiv_two_cast W
    unfold Traced.peakPicker at htr
    rw [hm] at htr
    exact traced_SLIDE_WINDOW_safe MAX_LOCATIONS xcorr threshold n S W ((W / 2 : Nat) : Int)
      (by omega) (by omega) (by omega) hS (le_refl _) _ 0 ⟨locations, 0⟩ [] (out, log)
      (le_refl 0) (le_refl 0) (show (0 : Int) < MAX_LOCATIONS by decide)
      (fun a ha => absurd ha (List.not_mem_nil a)) htr

end Origin

namespace Origin

/-- Bounds of an access are kept when the signal length and the channel count
grow. -/
theorem inBounds_mono (n S n' S' : Int) (hn : n ≤ n') (hS : S ≤ S') (a : Access)
    (h : a.InBounds n S) : a.InBounds n' S' := by
  cases a with
  | xcorrRead r s =>
    obtain ⟨h1, h2, h3, h4⟩ := h
    exact ⟨h1, by omega, h3, by omega⟩
  | thresholdRead r =>
    obtain ⟨h1, h2⟩ := h
    exact ⟨h1, by omega⟩
  | validSeqIndicesWrite j => exact h
  | validSeqIndicesRead j => exact h
  | locationsWrite j => exact h

end Origin

/-! ## The recorded runs of the streaming kernels return the results of the kernels -/

namespace PerfOpt1

/-- Dropping the record of the stores of `InputRead` gives the loop itself. -/
theorem traced_InputRead_erase (n : Nat) :
    ∀ (fuel i : Nat) (st : ReadState) (stores : List Nat),
      InputRead n fuel i st = (Traced.InputRead n fuel i st stores).map Prod.fst := by
  intro fuel
  induction fuel with
  | zero => intro i st stores; rfl
  | succ fuel ih =>
    intro i st stores
    unfold InputRead Traced.InputRead
    by_cases h : i < n
    · rw [if_pos h, if_pos h]
      cases streamRead st.xcorrStream with
      | error f => rfl
      | ok r =>
        obtain ⟨x, xs⟩ := r
        cases streamRead st.thresholdStream with
        | error f => rfl
        | ok r2 =>
          obtain ⟨t, ts⟩ := r2
          exact ih _ _ _
    · rw [if_neg h, if_neg h]
      rfl

/-- Dropping the record of the judged candidates of `ProcessSignal` gives the
loop itself. -/
theorem traced_ProcessSignal_erase (n W m : Nat) (xcorr threshold : Nat → DataType) :
    ∀ (fuel index : Nat) (st : PeakState) (judged : List Nat),
      ProcessSignal n W m xcorr threshold fuel index st
        = (Traced.ProcessSignal n W m xcorr threshold fuel index st judged).map Prod.fst := by
  intro fuel
  induction fuel with
  | zero => intro index st judged; rfl
  | succ fuel ih =>
    intro index st judged
    unfold ProcessSignal Traced.ProcessSignal
    by_cases h : (index : Int) < (n : Int) - (W : Int) + 1
    · rw [if_pos h, if_pos h]
      cases WindowCheck W m index xcorr (xcorr ((index + m) % 65536)) (W + 1) 0 true with
      | error f => rfl
      | ok isLocalMax =>
        simp only []
        split_ifs
        · exact ih _ _ _
        · exact ih _ _ _
    · rw [if_neg h, if_neg h]
      rfl

/-- Dropping the two records of the recorded call gives the call of the kernel. -/
theorem traced_opt1_peakPicker_erase (streams : Streams) (n W : Nat) :
    peakPicker streams n W = (Traced.peakPicker streams n W).map Prod.fst := by
  unfold peakPicker Traced.peakPicker
  rw [traced_InputRead_erase n (n + 1) 0
    ⟨fun _ => 0, fun _ => 0, streams.xcorrStream, streams.thresholdStream⟩ []]
  cases Traced.InputRead n (n + 1) 0
      ⟨fun _ => 0, fun _ => 0, streams.xcorrStream, streams.thresholdStream⟩ [] with
  | error f => rfl
  | ok r =>
    obtain ⟨rd, stores⟩ := r
    simp only [Except.map]
    rw [traced_ProcessSignal_erase n W (W / 2) rd.xcorr rd.threshold (n + 2) 0
      ⟨streams.locationsStream, 0⟩ []]
    cases Traced.ProcessSignal n W (W / 2) rd.xcorr rd.threshold (n + 2) 0
        ⟨streams.locationsStream, 0⟩ [] with
    | error f => rfl
    | ok r2 =>
      obtain ⟨st, judged⟩ := r2
      rfl

/-- Stores of `InputRead`: one at each index `i .. n-1`, in this order. -/
theorem traced_InputRead_stores (n : Nat) (hn : n < 65536) :
    ∀ (fuel i : Nat) (st : ReadState) (stores : List Nat), i ≤ n → n - i < fuel →
      n ≤ i + st.xcorrStream.length → n ≤ i + st.thresholdStream.length →
      ∃ rd, Traced.InputRead n fuel i st stores = .ok (rd, stores ++ List.range' i (n - i)) := by
  intro fuel
  induction fuel with
  | zero => intro i _ _ _ h; omega
  | succ fuel ih =>
    intro i st stores hi hf hx ht
    unfold Traced.InputRead
    by_cases h : i < n
    · rw [if_pos h]
      obtain ⟨xc, th, xs, ts⟩ := st
      cases xs with
      | nil => simp only [List.length_nil] at hx; omega
      | cons x xs =>
        cases ts with
        | nil => simp only [List.length_nil] at ht; omega
        | cons t ts =>
          simp only [streamRead]
          rw [Nat.mod_eq_of_lt (by omega)]
          simp only [List.length_cons] at hx ht
          obtain ⟨rd, hrd⟩ := ih (i + 1) ⟨store xc i x, store th i t, xs, ts⟩ (stores ++ [i])
            (by omega) (by omega) (by simp only []; omega) (by simp only []; omega)
          refine ⟨rd, ?_⟩
          rw [hrd, List.append_assoc]
          have hr : List.range' i (n - i) = i :: List.range' (i + 1) (n - (i + 1)) := by
            have : n - i = (n - (i + 1)) + 1 := by omega
            rw [this, List.range'_succ]
          rw [hr]
          rfl
    · rw [if_neg h]
      have : n - i = 0 := by omega
      rw [this]
      exact ⟨st, by simp⟩

/-- Recorded call with `signalLength < windowLength`: `InputRead` stores at the
indices `0 .. signalLength-1` and `ProcessSignal` judges no candidate. -/
theorem traced_opt1_short (x t : List DataType) (loc0 : List Nat) (n W : Nat)
    (hn : n < 65536) (hnW : n < W) (hx : n ≤ x.length) (ht : n ≤ t.length) :
    ∃ r, Traced.peakPicker ⟨x, t, loc0⟩ n W = .ok (r, List.range n, []) := by
  obtain ⟨rd, hrd⟩ := traced_InputRead_stores n hn (n + 1) 0 ⟨fun _ => 0, fun _ => 0, x, t⟩ []
    (Nat.zero_le _) (by omega) (by simp only []; omega) (by simp only []; omega)
  unfold Traced.peakPicker
  simp only []
  rw [hrd]
  simp only []
  unfold Traced.ProcessSignal
  rw [if_neg (by push_cast; omega)]
  simp only [List.nil_append, Nat.sub_zero]
  rw [List.range_eq_range']
  exact ⟨_, rfl⟩

end PerfOpt1

namespace PerfOpt2

/-- Dropping the record of the recorded loop body gives the loop body. -/
theorem traced_process_signal_body_erase (W m index : Nat) (st : State) (judged : List Nat) :
    process_signal_body W m index st
      = (Traced.process_signal_body W m index st judged).map Prod.fst := by
  unfold process_signal_body Traced.process_signal_body
  cases shift_buffer (usub32 W 1 + 1) (usub32 W 1) st.buffers with
  | error f => rfl
  | ok shifted =>
    cases streamRead st.streams.xcorrStream with
    | error f => rfl
    | ok r =>
      obtain ⟨x, xs⟩ := r
      cases streamRead st.streams.thresholdStream with
      | error f => rfl
      | ok r2 =>
        obtain ⟨t, ts⟩ := r2
        simp only []
        by_cases hg : index ≥ usub32 W 1
        · rw [if_pos hg, if_pos hg]
          cases check_local_max W m (store shifted.xcorrBuffer 0 x)
              (store shifted.xcorrBuffer 0 x m) (W + 1) 0 true with
          | error f => rfl
          | ok isLocalMax =>
            simp only []
            split_ifs <;> rfl
        · rw [if_neg hg, if_neg hg]
          rfl

/-- Dropping the record of the recorded `process_signal` gives the loop itself. -/
theorem traced_process_signal_erase (n W m : Nat) :
    ∀ (fuel index : Nat) (st : State) (judged : List Nat),
      process_signal n W m fuel index st
        = (Traced.process_signal n W m fuel index st judged).map Prod.fst := by
  intro fuel
  induction fuel with
  | zero => intro index st judged; rfl
  | succ fuel ih =>
    intro index st judged
    unfold process_signal Traced.process_signal
    by_cases h : index < n
    · rw [if_pos h, if_pos h, traced_process_signal_body_erase W m index st judged]
      cases Traced.process_signal_body W m index st judged with
      | error f => rfl
      | ok r =>
        obtain ⟨st1, judged1⟩ := r
        exact ih _ _ _
    · rw [if_neg h, if_neg h]
      rfl

/-- Dropping the record of the recorded call gives the call of the kernel. -/
theorem traced_opt2_peakPicker_erase (streams : Streams) (n W : Nat) :
    peakPicker streams n W = (Traced.peakPicker streams n W).1 := by
  unfold peakPicker Traced.peakPicker
  by_cases h1 : ¬ W ≤ MAX_WINDOW_LENGTH
  · rw [if_pos h1, if_pos h1]
  · rw [if_neg h1, if_neg h1]
    by_cases h2 : ¬ n ≤ MAX_SIGNAL_LENGTH
    · rw [if_pos h2, if_pos h2]
    · rw [if_neg h2, if_neg h2]
      by_cases h3 : ¬ W % 2 = 1
      · rw [if_pos h3, if_pos h3]
      · rw [if_neg h3, if_neg h3]
        cases init_buffers W (W + 1) 0 ⟨fun _ => 0, fun _ => 0⟩ with
        | error f => rfl
        | ok buffers =>
          simp only []
          rw [traced_process_signal_erase n W (W / 2) (n + 1) 0 ⟨buffers, 0, streams⟩ []]
          cases Traced.process_signal n W (W / 2) (n + 1) 0 ⟨buffers, 0, streams⟩ [] with
          | error f => rfl
          | ok r =>
            obtain ⟨st, judged⟩ := r
            rfl

end PerfOpt2

/-! ## The fixed-window kernel after its input streams have become empty -/

namespace PerfOpt2

end PerfOpt2

namespace PerfOpt3

end PerfOpt3

/-! ## The claims -/

/-- C1: batch kernel (`HLS/origin`), exact output.  For
`1 <= windowLength <= xcorrLength <= MAX_XCORR_LENGTH` and
`0 <= seqCount <= MAX_SEQ_NUMBER` the call returns, and `locations[0..numLocations)`
is the list of `c + 1` over the qualifying window starts `0 .. xcorrLength - windowLength`
in increasing order (`c = i + windowLength/2`), cut after its first `MAX_LOCATIONS`
entries; `numLocations` is the length of that list. -/
theorem C1_origin_exact_output (xcorr : Int → Int → DataType) (threshold : Int → DataType)
    (xcorrLength seqCount windowLength : Nat) (locations : Int → Int)
    (_hW : 1 ≤ windowLength) (hWn : windowLength ≤ xcorrLength)
    (_hn : (xcorrLength : Int) ≤ Origin.MAX_XCORR_LENGTH)
    (_hS : (seqCount : Int) ≤ Origin.MAX_SEQ_NUMBER) :
    ∃ out, Origin.peakPicker xcorr threshold (xcorrLength : Int) (seqCount : Int)
        (windowLength : Int) locations = some out ∧
      0 ≤ out.numLocations ∧
      cellsBelow out.locations out.numLocations
        = (((List.range (xcorrLength - windowLength + 1)).filter
            (fun i => decide (Origin.Qualifying xcorr threshold seqCount windowLength i))).map
            (fun i => ((i + windowLength / 2 + 1 : Nat) : Int))).take
              Origin.MAX_LOCATIONS.toNat := by
  obtain ⟨out, hout, hnum, hread⟩ := Origin.peakPickerCap_spec 1000 (by omega) xcorr threshold
    xcorrLength seqCount windowLength locations
  refine ⟨out, hout, by rw [hnum]; omega, ?_⟩
  rw [hread]
  unfold Origin.expectedLocations
  have : xcorrLength + 1 - windowLength = xcorrLength - windowLength + 1 := by omega
  rw [this]
  rfl

/-- Witness of C1 on the signal `[1,5,2,2,5,1]` with zero threshold, one channel
and window length 3. -/
theorem C1_origin_exact_output_witness :
    ∃ out, Origin.peakPicker (fun i _ => ofList [1, 5, 2, 2, 5, 1] i) (fun _ => 0)
        ((6 : Nat) : Int) ((1 : Nat) : Int) ((3 : Nat) : Int) (fun _ => 0) = some out ∧
      0 ≤ out.numLocations ∧
      cellsBelow out.locations out.numLocations
        = (((List.range (6 - 3 + 1)).filter
            (fun i => decide (Origin.Qualifying (fun i _ => ofList [1, 5, 2, 2, 5, 1] i)
              (fun _ => 0) 1 3 i))).map
            (fun i => ((i + 3 / 2 + 1 : Nat) : Int))).take Origin.MAX_LOCATIONS.toNat :=
  C1_origin_exact_output (fun i _ => ofList [1, 5, 2, 2, 5, 1] i) (fun _ => 0) 6 1 3 (fun _ => 0)
    (by decide) (by decide) (by decide) (by decide)

/-- C4: for `1 <= windowLength <= xcorrLength <= MAX_XCORR_LENGTH` and
`seqCount <= MAX_SEQ_NUMBER` the sequence `locations[0..numLocations)` returned by
the batch kernel is strictly ascending (so it has no duplicates, also on
plateaus) and every entry is at least 1. -/
theorem C4_origin_strictly_ascending (xcorr : Int → Int → DataType) (threshold : Int → DataType)
    (xcorrLength seqCount windowLength : Nat) (locations : Int → Int)
    (_hW : 1 ≤ windowLength) (_hWn : windowLength ≤ xcorrLength)
    (_hn : (xcorrLength : Int) ≤ Origin.MAX_XCORR_LENGTH)
    (_hS : (seqCount : Int) ≤ Origin.MAX_SEQ_NUMBER) :
    ∃ out, Origin.peakPicker xcorr threshold (xcorrLength : Int) (seqCount : Int)
        (windowLength : Int) locations = some out ∧
      (cellsBelow out.locations out.numLocations).Pairwise (fun a b => a < b) ∧
      (cellsBelow out.locations out.numLocations).Nodup ∧
      ∀ p ∈ cellsBelow out.locations out.numLocations, 1 ≤ p := by
  obtain ⟨out, hout, _, hread⟩ := Origin.peakPickerCap_spec 1000 (by omega) xcorr threshold
    xcorrLength seqCount windowLength locations
  have hpw := Origin.expectedLocations_pairwise 1000 xcorr threshold xcorrLength seqCount
    windowLength
  refine ⟨out, hout, ?_, ?_, ?_⟩
  · rw [hread]; exact hpw
  · rw [hread]; exact hpw.imp (fun h => ne_of_lt h)
  · intro p hp
    rw [hread] at hp
    obtain ⟨i, _, _, hpi⟩ := Origin.mem_expectedLocations _ _ _ _ _ _ p hp
    rw [hpi]
    omega

/-- Witness of C4 on the plateau signal `[1,5,5,5,1]` with zero threshold, one
channel and window length 3. -/
theorem C4_origin_strictly_ascending_witness :
    ∃ out, Origin.peakPicker (fun i _ => ofList [1, 5, 5, 5, 1] i) (fun _ => 0)
        ((5 : Nat) : Int) ((1 : Nat) : Int) ((3 : Nat) : Int) (fun _ => 0) = some out ∧
      (cellsBelow out.locations out.numLocations).Pairwise (fun a b => a < b) ∧
      (cellsBelow out.locations out.numLocations).Nodup ∧
      ∀ p ∈ cellsBelow out.locations out.numLocations, 1 ≤ p :=
  C4_origin_strictly_ascending (fun i _ => ofList [1, 5, 5, 5, 1] i) (fun _ => 0) 5 1 3
    (fun _ => 0) (by decide) (by decide) (by decide) (by decide)

/-- C6: output cap of the batch kernel.  For
`1 <= windowLength <= xcorrLength <= MAX_XCORR_LENGTH` and `seqCount <= MAX_SEQ_NUMBER`
the call returns with `numLocations <= MAX_LOCATIONS` and
`numLocations = min(MAX_LOCATIONS, number of qualifying window starts)`, hence
`numLocations = MAX_LOCATIONS` when more than `MAX_LOCATIONS` window starts
qualify.  With the capacity as an argument, capacity 1 on the signal
`[1,5,2,2,5,1]`, zero threshold, window length 3 and one channel returns exactly `[2]`. -/
theorem C6_origin_output_cap (xcorr : Int → Int → DataType) (threshold : Int → DataType)
    (xcorrLength seqCount windowLength : Nat) (locations : Int → Int)
    (_hW : 1 ≤ windowLength) (hWn : windowLength ≤ xcorrLength)
    (_hn : (xcorrLength : Int) ≤ Origin.MAX_XCORR_LENGTH)
    (_hS : (seqCount : Int) ≤ Origin.MAX_SEQ_NUMBER) :
    (∃ out, Origin.peakPicker xcorr threshold (xcorrLength : Int) (seqCount : Int)
        (windowLength : Int) locations = some out ∧
      out.numLocations ≤ Origin.MAX_LOCATIONS ∧
      out.numLocations = ((min Origin.MAX_LOCATIONS.toNat
        ((List.range (xcorrLength - windowLength + 1)).filter
          (fun i => decide (Origin.Qualifying xcorr threshold seqCount windowLength i))).length
        : Nat) : Int) ∧
      (Origin.MAX_LOCATIONS.toNat < ((List.range (xcorrLength - windowLength + 1)).filter
          (fun i => decide (Origin.Qualifying xcorr threshold seqCount windowLength i))).length →
        out.numLocations = Origin.MAX_LOCATIONS)) ∧
    (∃ out, Origin.peakPickerCap 1 (fun i _ => ofList [1, 5, 2, 2, 5, 1] i) (fun _ => 0) 6 1 3
        locations = some out ∧
      out.numLocations = 1 ∧ cellsBelow out.locations out.numLocations = [2]) := by
  constructor
  · obtain ⟨out, hout, hnum, _⟩ := Origin.peakPickerCap_spec 1000 (by omega) xcorr threshold
      xcorrLength seqCount windowLength locations
    rw [Origin.expectedLocations_length] at hnum
    have hN : xcorrLength + 1 - windowLength = xcorrLength - windowLength + 1 := by omega
    rw [hN] at hnum
    have hM : Origin.MAX_LOCATIONS.toNat = 1000 := rfl
    have hMi : Origin.MAX_LOCATIONS = 1000 := rfl
    refine ⟨out, hout, ?_, ?_, ?_⟩
    · rw [hnum, hMi]; omega
    · rw [hnum, hM]
    · intro hgt
      rw [hnum, hMi]
      rw [hM] at hgt
      omega
  · obtain ⟨out, hout, hnum, hread⟩ := Origin.peakPickerCap_spec 1 (by omega)
      (fun i _ => ofList [1, 5, 2, 2, 5, 1] i) (fun _ => 0) 6 1 3 locations
    have hexp : Origin.expectedLocations 1 (fun i _ => ofList [1, 5, 2, 2, 5, 1] i) (fun _ => 0)
        6 1 3 = [2] := by decide
    rw [hexp] at hnum hread
    exact ⟨out, hout, hnum, hread⟩

/-- Witness of C6 on the signal `[1,5,2,2,5,1]` with zero threshold, one channel
and window length 3. -/
theorem C6_origin_output_cap_witness :
    (∃ out, Origin.peakPicker (fun i _ => ofList [1, 5, 2, 2, 5, 1] i) (fun _ => 0)
        ((6 : Nat) : Int) ((1 : Nat) : Int) ((3 : Nat) : Int) (fun _ => 0) = some out ∧
      out.numLocations ≤ Origin.MAX_LOCATIONS ∧
      out.numLocations = ((min Origin.MAX_LOCATIONS.toNat
        ((List.range (6 - 3 + 1)).filter
          (fun i => decide (Origin.Qualifying (fun i _ => ofList [1, 5, 2, 2, 5, 1] i)
            (fun _ => 0) 1 3 i))).length : Nat) : Int) ∧
      (Origin.MAX_LOCATIONS.toNat < ((List.range (6 - 3 + 1)).filter
          (fun i => decide (Origin.Qualifying (fun i _ => ofList [1, 5, 2, 2, 5, 1] i)
            (fun _ => 0) 1 3 i))).length →
        out.numLocations = Origin.MAX_LOCATIONS)) ∧
    (∃ out, Origin.peakPickerCap 1 (fun i _ => ofList [1, 5, 2, 2, 5, 1] i) (fun _ => 0) 6 1 3
        (fun _ => 0) = some out ∧
      out.numLocations = 1 ∧ cellsBelow out.locations out.numLocations = [2]) :=
  C6_origin_output_cap (fun i _ => ofList [1, 5, 2, 2, 5, 1] i) (fun _ => 0) 6 1 3 (fun _ => 0)
    (by decide) (by decide) (by decide) (by decide)

/-- C9: plateau tie rule in the batch kernel.  For one channel, odd `W` with
`1 <= W <= n <= MAX_XCORR_LENGTH` and `n - W + 1 <= MAX_LOCATIONS`, a constant
signal `xcorr[i][0] = c` and thresholds `threshold[i] <= c`, the call returns
`locations = [W/2 + 1, ..., n - W/2]` and `numLocations = n - W + 1`. -/
theorem C9_origin_plateau (xcorr : Int → Int → DataType) (threshold : Int → DataType)
    (n W : Nat) (c : DataType) (locations : Int → Int)
    (_hodd : W % 2 = 1) (_hW : 1 ≤ W) (hWn : W ≤ n) (_hn : (n : Int) ≤ Origin.MAX_XCORR_LENGTH)
    (hcap : ((n - W + 1 : Nat) : Int) ≤ Origin.MAX_LOCATIONS)
    (hconst : ∀ i : Nat, i < n → xcorr (i : Int) 0 = c)
    (hthr : ∀ i : Nat, i < n → threshold (i : Int) ≤ c) :
    ∃ out, Origin.peakPicker xcorr threshold (n : Int) 1 (W : Int) locations = some out ∧
      out.numLocations = ((n - W + 1 : Nat) : Int) ∧
      cellsBelow out.locations out.numLocations
        = (List.range' (W / 2 + 1) (n - W + 1)).map (fun (p : Nat) => (p : Int)) := by
  obtain ⟨out, hout, hnum, hread⟩ := Origin.peakPickerCap_spec 1000 (by omega) xcorr threshold
    n 1 W locations
  have hall : ∀ i, i < n + 1 - W → Origin.Qualifying xcorr threshold 1 W i := by
    intro i hi
    have hc : xcorr ((i + W / 2 : Nat) : Int) ((0 : Nat) : Int) = c :=
      hconst (i + W / 2) (by omega)
    refine ⟨⟨0, by omega, ?_⟩, ?_⟩
    · rw [hc]; exact hthr (i + W / 2) (by omega)
    · intro s hs _ w hw
      have hs0 : s = 0 := by omega
      subst hs0
      rw [hc]
      exact le_of_eq (hconst (i + w) (by omega))
  have hMi : Origin.MAX_LOCATIONS = 1000 := rfl
  rw [hMi] at hcap
  have hexp : Origin.expectedLocations 1000 xcorr threshold n 1 W
      = (List.range' (W / 2 + 1) (n - W + 1)).map (fun (p : Nat) => (p : Int)) := by
    rw [Origin.expectedLocations_eq, Origin.accepted_of_all xcorr threshold 1 W _ hall]
    have hN : n + 1 - W = n - W + 1 := by omega
    rw [hN]
    apply List.take_of_length_le
    rw [List.length_map, List.length_range']
    omega
  rw [hexp] at hnum hread
  refine ⟨out, hout, ?_, hread⟩
  rw [hnum, List.length_map, List.length_range']

/-- Witness of C9 on the constant signal `[4,4,4,4,4]` with threshold equal to
the signal and window length 3. -/
theorem C9_origin_plateau_witness :
    ∃ out, Origin.peakPicker (fun _ _ => 4) (fun _ => 4) ((5 : Nat) : Int) 1 ((3 : Nat) : Int)
        (fun _ => 0) = some out ∧
      out.numLocations = ((5 - 3 + 1 : Nat) : Int) ∧
      cellsBelow out.locations out.numLocations
        = (List.range' (3 / 2 + 1) (5 - 3 + 1)).map (fun (p : Nat) => (p : Int)) :=
  C9_origin_plateau (fun _ _ => 4) (fun _ => 4) 5 3 4 (fun _ => 0) (by decide) (by decide)
    (by decide) (by decide) (by decide) (fun _ _ => rfl) (fun _ _ => le_refl _)

/-- C2: shift-register kernel (`HLS/perf_opt2`), exact output.  For odd
`windowLength <= 11`, `n <= 8192` and input streams `x`, `t` holding at least `n`
samples, with `m = windowLength/2`: the call returns, and the values appended
to `peakLocStream` are `c + 1` for the candidates `c` in `m .. n-1-m`, in
increasing order, with `x[c] > t[c]` and `x[q] <= x[c]` for all `q` in
`c-m .. c+m`, cut after the first `MAX_PEAKS`; and right after the iteration
`index = c + m` the shift register read backwards is `x[c-m], ..., x[c+m]`, with
`x[c]` in its middle cell. -/
theorem C2_opt2_exact_output (x t : List DataType) (loc0 cnt0 : List Nat) (n W : Nat)
    (hodd : W % 2 = 1) (hW : W ≤ PerfOpt2.MAX_WINDOW_LENGTH)
    (hn : n ≤ PerfOpt2.MAX_SIGNAL_LENGTH) (hx : n ≤ x.length) (ht : n ≤ t.length) :
    (∃ s, PerfOpt2.peakPicker ⟨x, t, loc0, cnt0⟩ n W = .returned s ∧
      s.peakLocStream = loc0 ++
        (((List.range' (W / 2) (n - 2 * (W / 2))).filter
          (fun c => decide (x.getD c 0 > t.getD c 0 ∧
            ∀ q, c - W / 2 ≤ q → q ≤ c + W / 2 → x.getD q 0 ≤ x.getD c 0))).map
          (fun c => c + 1)).take PerfOpt2.MAX_PEAKS) ∧
    (∀ c, W / 2 ≤ c → c + W / 2 < n →
      ∃ b, PerfOpt2.buffersAfter ⟨x, t, loc0, cnt0⟩ W (c + W / 2) = .ok b ∧
        (List.range W).map (fun i => b.xcorrBuffer (W - 1 - i))
          = (List.range W).map (fun i => x.getD (c - W / 2 + i) 0) ∧
        b.xcorrBuffer (W / 2) = x.getD c 0) := by
  constructor
  · exact ⟨_, PerfOpt2.opt2_peakPicker_spec x t loc0 cnt0 n W hodd hW hn hx ht, rfl⟩
  · intro c hc1 hc2
    obtain ⟨b, hb, hbx, _⟩ := PerfOpt2.opt2_buffersAfter_spec x t loc0 cnt0 W (c + W / 2) hodd hW
      (by omega) (by omega) (by omega)
    refine ⟨b, hb, ?_, ?_⟩
    · apply List.map_congr_left
      intro i hi
      have hiW : i < W := List.mem_range.mp hi
      rw [hbx (W - 1 - i) (by omega), if_pos (by omega)]
      congr 1
      omega
    · rw [hbx (W / 2) (by omega), if_pos (by omega), Nat.add_sub_cancel]

/-- Witness of C2 on the signal `[1,5,2,2,5,1]` with zero threshold and window
length 3. -/
theorem C2_opt2_exact_output_witness :
    (∃ s, PerfOpt2.peakPicker ⟨[1, 5, 2, 2, 5, 1], [0, 0, 0, 0, 0, 0], [], []⟩ 6 3
        = .returned s ∧
      s.peakLocStream = [] ++
        (((List.range' (3 / 2) (6 - 2 * (3 / 2))).filter
          (fun c => decide (([1, 5, 2, 2, 5, 1] : List DataType).getD c 0
              > ([0, 0, 0, 0, 0, 0] : List DataType).getD c 0 ∧
            ∀ q, c - 3 / 2 ≤ q → q ≤ c + 3 / 2 →
              ([1, 5, 2, 2, 5, 1] : List DataType).getD q 0
                ≤ ([1, 5, 2, 2, 5, 1] : List DataType).getD c 0))).map
          (fun c => c + 1)).take PerfOpt2.MAX_PEAKS) ∧
    (∀ c, 3 / 2 ≤ c → c + 3 / 2 < 6 →
      ∃ b, PerfOpt2.buffersAfter ⟨[1, 5, 2, 2, 5, 1], [0, 0, 0, 0, 0, 0], [], []⟩ 3 (c + 3 / 2)
          = .ok b ∧
        (List.range 3).map (fun i => b.xcorrBuffer (3 - 1 - i))
          = (List.range 3).map (fun i => ([1, 5, 2, 2, 5, 1] : List DataType).getD
              (c - 3 / 2 + i) 0) ∧
        b.xcorrBuffer (3 / 2) = ([1, 5, 2, 2, 5, 1] : List DataType).getD c 0) :=
  C2_opt2_exact_output [1, 5, 2, 2, 5, 1] [0, 0, 0, 0, 0, 0] [] [] 6 3 (by decide) (by decide)
    (by decide) (by decide) (by decide)

/-- C5: edge exclusion.  For odd `W >= 1`: every location `p` returned by the
batch kernel (`seqCount <= MAX_SEQ_NUMBER`, `n <= MAX_XCORR_LENGTH`) and every
location `p` emitted by the shift-register kernel (`W <= 11`, `n <= 8192`,
streams holding at least `n` samples) satisfies `W/2 < p <= n - W/2`; and the
shift-register kernel emits nothing when fewer than `W` samples are taken in. -/
theorem C5_edge_exclusion (W n : Nat) (hodd : W % 2 = 1) (_hW1 : 1 ≤ W) :
    (∀ (xcorr : Int → Int → DataType) (threshold : Int → DataType) (seqCount : Nat)
        (locations : Int → Int),
      (seqCount : Int) ≤ Origin.MAX_SEQ_NUMBER → (n : Int) ≤ Origin.MAX_XCORR_LENGTH →
      ∃ out, Origin.peakPicker xcorr threshold (n : Int) (seqCount : Int) (W : Int) locations
          = some out ∧
        ∀ p ∈ cellsBelow out.locations out.numLocations,
          ((W / 2 : Nat) : Int) < p ∧ p ≤ (n : Int) - ((W / 2 : Nat) : Int)) ∧
    (∀ (x t : List DataType), W ≤ PerfOpt2.MAX_WINDOW_LENGTH → n ≤ PerfOpt2.MAX_SIGNAL_LENGTH →
      n ≤ x.length → n ≤ t.length →
      ∃ s, PerfOpt2.peakPicker ⟨x, t, [], []⟩ n W = .returned s ∧
        (∀ p ∈ s.peakLocStream, W / 2 < p ∧ p + W / 2 ≤ n) ∧
        (n < W → s.peakLocStream = [])) := by
  constructor
  · intro xcorr threshold seqCount locations _ _
    obtain ⟨out, hout, _, hread⟩ := Origin.peakPickerCap_spec 1000 (by omega) xcorr threshold
      n seqCount W locations
    refine ⟨out, hout, ?_⟩
    intro p hp
    rw [hread] at hp
    obtain ⟨i, hi, _, hpi⟩ := Origin.mem_expectedLocations _ _ _ _ _ _ p hp
    rw [hpi]
    omega
  · intro x t hW hn hx ht
    refine ⟨_, PerfOpt2.opt2_peakPicker_spec x t [] [] n W hodd hW hn hx ht, ?_, ?_⟩
    · intro p hp
      rw [List.nil_append] at hp
      obtain ⟨c, h1, h2, _, hpc⟩ := PerfOpt2.mem_expectedPeaks _ _ _ _ _ p hp
      omega
    · intro hnW
      show [] ++ PerfOpt2.expectedPeaks PerfOpt2.MAX_PEAKS x t n W = []
      unfold PerfOpt2.expectedPeaks
      have : n - 2 * (W / 2) = 0 := by omega
      rw [this]
      rfl

/-- Witness of C5 for window length 3 on the signal `[1,5,2,2,5,1]` with zero
threshold. -/
theorem C5_edge_exclusion_witness :
    (∃ out, Origin.peakPicker (fun i _ => ofList [1, 5, 2, 2, 5, 1] i) (fun _ => 0)
          ((6 : Nat) : Int) ((1 : Nat) : Int) ((3 : Nat) : Int) (fun _ => 0) = some out ∧
        ∀ p ∈ cellsBelow out.locations out.numLocations,
          ((3 / 2 : Nat) : Int) < p ∧ p ≤ ((6 : Nat) : Int) - ((3 / 2 : Nat) : Int)) ∧
    (∃ s, PerfOpt2.peakPicker ⟨[1, 5, 2, 2, 5, 1], [0, 0, 0, 0, 0, 0], [], []⟩ 6 3
          = .returned s ∧
        (∀ p ∈ s.peakLocStream, 3 / 2 < p ∧ p + 3 / 2 ≤ 6) ∧
        (6 < 3 → s.peakLocStream = [])) :=
  ⟨(C5_edge_exclusion 3 6 (by decide) (by decide)).1 (fun i _ => ofList [1, 5, 2, 2, 5, 1] i)
      (fun _ => 0) 1 (fun _ => 0) (by decide) (by decide),
    (C5_edge_exclusion 3 6 (by decide) (by decide)).2 [1, 5, 2, 2, 5, 1] [0, 0, 0, 0, 0, 0]
      (by decide) (by decide) (by decide) (by decide)⟩

/-- C10, as stated, fails: on the constant signal `[4,4,4,4,4]` with the
threshold equal to the signal and window length 3 the shift-register kernel
emits no location, while the claim expects `2, 3, 4`. -/
theorem C10_opt2_equal_threshold_counterexample :
    ¬ (∀ (x t : List DataType) (n W : Nat) (c : DataType),
        W % 2 = 1 → W ≤ PerfOpt2.MAX_WINDOW_LENGTH → n ≤ PerfOpt2.MAX_SIGNAL_LENGTH →
        n - W + 1 ≤ PerfOpt2.MAX_PEAKS → n ≤ x.length → n ≤ t.length →
        (∀ i, i < n → x.getD i 0 = c) → (∀ i, i < n → t.getD i 0 ≤ c) →
        ∃ s, PerfOpt2.peakPicker ⟨x, t, [], []⟩ n W = .returned s ∧
          s.peakLocStream = List.range' (W / 2 + 1) (n - W + 1)) := by
  intro h
  obtain ⟨s, hs, hloc⟩ := h [4, 4, 4, 4, 4] [4, 4, 4, 4, 4] 5 3 4 (by decide) (by decide)
    (by decide) (by decide) (by decide) (by decide) (by decide) (by decide)
  have hrun : PerfOpt2.peakPicker ⟨[4, 4, 4, 4, 4], [4, 4, 4, 4, 4], [], []⟩ 5 3
      = .returned ⟨[], [], [], [0]⟩ := by decide
  rw [hrun] at hs
  injection hs with hs
  rw [← hs] at hloc
  exact absurd hloc (by decide)

/-- C10 (amended): the threshold check of the shift-register kernel is strict.
For odd `W <= 11`, `n <= 8192` with `n - W + 1 <= MAX_PEAKS`, a constant signal
`x[i] = c` and thresholds `t[i] <= c`, the emitted locations are exactly `i + 1`
for the non-edge indices `i` (`W/2 <= i <= n-1-W/2`) with `t[i] < c`, in
increasing order; so all of `W/2 + 1, ..., n - W/2` are emitted when `t[i] < c`
for all `i`, and an index whose sample equals its threshold is not emitted. -/
theorem C10_opt2_strict_threshold (x t : List DataType) (n W : Nat) (c : DataType)
    (hodd : W % 2 = 1) (hW : W ≤ PerfOpt2.MAX_WINDOW_LENGTH)
    (hn : n ≤ PerfOpt2.MAX_SIGNAL_LENGTH) (hcap : n - W + 1 ≤ PerfOpt2.MAX_PEAKS)
    (hx : n ≤ x.length) (ht : n ≤ t.length)
    (hconst : ∀ i, i < n → x.getD i 0 = c) (_hthr : ∀ i, i < n → t.getD i 0 ≤ c) :
    ∃ s, PerfOpt2.peakPicker ⟨x, t, [], []⟩ n W = .returned s ∧
      s.peakLocStream = ((List.range' (W / 2) (n - 2 * (W / 2))).filter
        (fun i => decide (t.getD i 0 < c))).map (fun i => i + 1) ∧
      ((∀ i, i < n → t.getD i 0 < c) →
        s.peakLocStream = List.range' (W / 2 + 1) (n - 2 * (W / 2))) := by
  refine ⟨_, PerfOpt2.opt2_peakPicker_spec x t [] [] n W hodd hW hn hx ht, ?_, ?_⟩
  all_goals
    have hfilter : (List.range' (W / 2) (n - 2 * (W / 2))).filter
          (fun c' => decide (PerfOpt2.IsPeak x t (W / 2) c'))
        = (List.range' (W / 2) (n - 2 * (W / 2))).filter (fun i => decide (t.getD i 0 < c)) := by
      apply List.filter_congr
      intro i hi
      rw [List.mem_range'_1] at hi
      apply decide_eq_decide.mpr
      unfold PerfOpt2.IsPeak
      rw [hconst i (by omega)]
      constructor
      · intro h; exact h.1
      · intro h
        refine ⟨h, ?_⟩
        intro q _ hq2
        exact le_of_eq (hconst q (by omega))
    have hout : [] ++ PerfOpt2.expectedPeaks PerfOpt2.MAX_PEAKS x t n W
        = ((List.range' (W / 2) (n - 2 * (W / 2))).filter
          (fun i => decide (t.getD i 0 < c))).map (fun i => i + 1) := by
      unfold PerfOpt2.expectedPeaks
      rw [List.nil_append, hfilter]
      apply List.take_of_length_le
      rw [List.length_map]
      refine le_trans (List.length_filter_le _ _) ?_
      rw [List.length_range']
      omega
  · exact hout
  · intro hlt
    show [] ++ PerfOpt2.expectedPeaks PerfOpt2.MAX_PEAKS x t n W = _
    rw [hout]
    have hall : (List.range' (W / 2) (n - 2 * (W / 2))).filter
        (fun i => decide (t.getD i 0 < c)) = List.range' (W / 2) (n - 2 * (W / 2)) := by
      rw [List.filter_eq_self]
      intro i hi
      rw [List.mem_range'_1] at hi
      exact decide_eq_true (hlt i (by omega))
    rw [hall]
    rw [List.range'_eq_map_range (W / 2), List.range'_eq_map_range (W / 2 + 1), List.map_map]
    apply List.map_congr_left
    intro i _
    simp only [Function.comp]
    omega

/-- Witness of C10 (amended) on the constant signal `[4,4,4,4,4]` with threshold
`[4,3,4,3,4]` and window length 3: only location 4 is emitted. -/
theorem C10_opt2_strict_threshold_witness :
    ∃ s, PerfOpt2.peakPicker ⟨[4, 4, 4, 4, 4], [4, 3, 4, 3, 4], [], []⟩ 5 3 = .returned s ∧
      s.peakLocStream = ((List.range' (3 / 2) (5 - 2 * (3 / 2))).filter
        (fun i => decide (([4, 3, 4, 3, 4] : List DataType).getD i 0 < 4))).map
          (fun i => i + 1) ∧
      ((∀ i, i < 5 → ([4, 3, 4, 3, 4] : List DataType).getD i 0 < 4) →
        s.peakLocStream = List.range' (3 / 2 + 1) (5 - 2 * (3 / 2))) :=
  C10_opt2_strict_threshold [4, 4, 4, 4, 4] [4, 3, 4, 3, 4] 5 3 4 (by decide) (by decide)
    (by decide) (by decide) (by decide) (by decide) (by decide) (by decide)

/-- C3: for odd `windowLength <= 11`, `signalLength <= 8192` and identical input
streams holding at least `signalLength` samples, the array kernel
(`HLS/perf_opt1`) and the shift-register kernel (`HLS/perf_opt2`) both return,
leave the same input streams, emit the same sequence of peak locations and
report the same count (`numPeaks`, and the value written to `peakCountStream`). -/
theorem C3_opt1_opt2_equivalent (x t : List DataType) (n W : Nat)
    (hodd : W % 2 = 1) (hW : W ≤ PerfOpt2.MAX_WINDOW_LENGTH)
    (hn : n ≤ PerfOpt2.MAX_SIGNAL_LENGTH) (hx : n ≤ x.length) (ht : n ≤ t.length) :
    ∃ (rest1 rest2 : List DataType) (locs : List Nat) (count : Nat),
      PerfOpt1.peakPicker ⟨x, t, []⟩ n W = .ok ⟨⟨rest1, rest2, locs⟩, count⟩ ∧
      PerfOpt2.peakPicker ⟨x, t, [], []⟩ n W = .returned ⟨rest1, rest2, locs, [count]⟩ := by
  refine ⟨x.drop n, t.drop n, PerfOpt2.expectedPeaks PerfOpt2.MAX_PEAKS x t n W,
    (PerfOpt2.expectedPeaks PerfOpt2.MAX_PEAKS x t n W).length, ?_, ?_⟩
  · rw [PerfOpt1.opt1_peakPicker_spec x t [] n W hn hx ht,
      PerfOpt1.expectedWritten_eq_expectedPeaks x t n W hodd]
    rfl
  · rw [PerfOpt2.opt2_peakPicker_spec x t [] [] n W hodd hW hn hx ht]
    rfl

/-- Witness of C3 on the signal `[1,5,2,2,5,1]` with zero threshold and window
length 3. -/
theorem C3_opt1_opt2_equivalent_witness :
    ∃ (rest1 rest2 : List DataType) (locs : List Nat) (count : Nat),
      PerfOpt1.peakPicker ⟨[1, 5, 2, 2, 5, 1], [0, 0, 0, 0, 0, 0], []⟩ 6 3
        = .ok ⟨⟨rest1, rest2, locs⟩, count⟩ ∧
      PerfOpt2.peakPicker ⟨[1, 5, 2, 2, 5, 1], [0, 0, 0, 0, 0, 0], [], []⟩ 6 3
        = .returned ⟨rest1, rest2, locs, [count]⟩ :=
  C3_opt1_opt2_equivalent [1, 5, 2, 2, 5, 1] [0, 0, 0, 0, 0, 0] 6 3 (by decide) (by decide)
    (by decide) (by decide) (by decide)

set_option maxRecDepth 100000 in
/-- C7 (failing input): on a constant signal of 111 samples equal to 1 with zero
threshold, the fixed-window kernel (`HLS/perf_opt3`) writes 101 locations,
`6, ..., 106`, which is more than `MAX_PEAKS = 100`: the kernel never compares
the number of written locations with `MAX_PEAKS`. -/
theorem C7_opt3_cap_exceeded :
    PerfOpt3.peakPicker ⟨List.replicate 111 1, List.replicate 111 0, []⟩ 111
        = .ok ⟨[], [], List.range' 6 101⟩ ∧
      PerfOpt3.MAX_PEAKS < ((List.range' 6 101).length : Int) := by
  decide

/-- C8, as stated, fails: on a constant signal of 65541 samples equal to 1 with
zero threshold the fixed-window kernel (`HLS/perf_opt3`) writes, for the
candidate 65535, the 16-bit value of 65536, which is 0; so a value below 1 is
written, after the larger value 6 of the first candidate. -/
theorem C8_opt3_wraparound_counterexample :
    ∃ s, PerfOpt3.peakPicker ⟨List.replicate 65541 1, List.replicate 65541 0, []⟩
        ((65541 : Nat) : Int) = .ok s ∧
      6 ∈ s.locationsStream ∧ 0 ∈ s.locationsStream ∧
      ¬ (∀ p ∈ s.locationsStream, 1 ≤ p) := by
  have hpk : ∀ c, 5 ≤ c → c + 5 < 65541 →
      PerfOpt2.IsPeak (List.replicate 65541 1) (List.replicate 65541 0) 5 c := by
    intro c h1 h2
    have hget : ∀ (a : DataType) (i : Nat), i < 65541 → (List.replicate 65541 a).getD i 0 = a := by
      intro a i hi
      rw [List.getD_eq_getElem _ 0 (by rw [List.length_replicate]; exact hi),
        List.getElem_replicate]
    unfold PerfOpt2.IsPeak
    rw [hget 1 c (by omega), hget 0 c (by omega)]
    refine ⟨by decide, ?_⟩
    intro q _ hq
    rw [hget 1 q (by omega)]
  have hmem : ∀ c, 5 ≤ c → c + 5 < 65541 →
      toLocationType (c + 1) ∈ (PerfOpt2.candidates (List.replicate 65541 1)
        (List.replicate 65541 0) 5 65541).map toLocationType := by
    intro c h1 h2
    apply List.mem_map_of_mem
    exact (PerfOpt2.mem_candidates _ _ 5 65541 (c + 1)).mpr ⟨c, h1, h2, hpk c h1 h2, rfl⟩
  have h0 := hmem 65535 (by omega) (by omega)
  have h6 := hmem 5 (by omega) (by omega)
  have e0 : toLocationType (65535 + 1) = 0 := by decide
  have e6 : toLocationType (5 + 1) = 6 := by decide
  rw [e0] at h0
  rw [e6] at h6
  refine ⟨_, PerfOpt3.opt3_peakPicker_spec _ _ [] 65541 (by rw [List.length_replicate])
    (by rw [List.length_replicate]), ?_, ?_, ?_⟩
  · rw [List.nil_append]; exact h6
  · rw [List.nil_append]; exact h0
  · intro hall
    have := hall 0 (by rw [List.nil_append]; exact h0)
    omega

/-- C8 (amended): for `0 <= signalLength <= 65540` and input streams holding at
least `signalLength` samples, the sequence of 16-bit values written to
`locationsStream` by the fixed-window kernel is strictly ascending and every
value is at least 1 (up to that length no location reaches `2^16`). -/
theorem C8_opt3_ascending_bounded (x t : List DataType) (n : Nat) (hn : n ≤ 65540)
    (hx : n ≤ x.length) (ht : n ≤ t.length) :
    ∃ s, PerfOpt3.peakPicker ⟨x, t, []⟩ (n : Int) = .ok s ∧
      s.locationsStream.Pairwise (fun a b => a < b) ∧
      ∀ p ∈ s.locationsStream, 1 ≤ p := by
  have hid : (PerfOpt2.candidates x t 5 n).map toLocationType = PerfOpt2.candidates x t 5 n := by
    conv_rhs => rw [← List.map_id (PerfOpt2.candidates x t 5 n)]
    apply List.map_congr_left
    intro p hp
    obtain ⟨c, _, h2, _, hpc⟩ := (PerfOpt2.mem_candidates x t 5 n p).mp hp
    unfold toLocationType
    rw [id]
    omega
  refine ⟨_, PerfOpt3.opt3_peakPicker_spec x t [] n hx ht, ?_, ?_⟩
  · show ([] ++ (PerfOpt2.candidates x t 5 n).map toLocationType).Pairwise _
    rw [List.nil_append, hid]
    exact PerfOpt2.candidates_pairwise x t 5 n
  · intro p hp
    have hp' : p ∈ PerfOpt2.candidates x t 5 n := by
      rw [← hid]
      simpa using hp
    obtain ⟨c, _, _, _, hpc⟩ := (PerfOpt2.mem_candidates x t 5 n p).mp hp'
    omega

set_option maxRecDepth 100000 in
/-- Witness of C8 (amended) on a signal of 12 samples with a peak in the middle
of each of its two windows. -/
theorem C8_opt3_ascending_bounded_witness :
    ∃ s, PerfOpt3.peakPicker ⟨[1, 1, 1, 1, 1, 7, 7, 1, 1, 1, 1, 1],
        [0, 0, 0, 0, 0, 0, 0, 0, 0, 0, 0, 0], []⟩ ((12 : Nat) : Int) = .ok s ∧
      s.locationsStream.Pairwise (fun a b => a < b) ∧
      ∀ p ∈ s.locationsStream, 1 ≤ p :=
  C8_opt3_ascending_bounded [1, 1, 1, 1, 1, 7, 7, 1, 1, 1, 1, 1]
    [0, 0, 0, 0, 0, 0, 0, 0, 0, 0, 0, 0] 12 (by decide) (by decide) (by decide)

/-- C11, as stated, fails: on the signal `[1,5,1,3,1]` with zero threshold, one
channel and window length 3, the sample 5 at index 1 is the single strict global
maximum and lies above its threshold, but the batch kernel returns two peaks,
`[2, 4]`: index 3 is the maximum of its own window, which does not contain
index 1. -/
theorem C11_origin_single_maximum_counterexample :
    (∀ i : Nat, i < 5 → i ≠ 1 →
        ofList [1, 5, 1, 3, 1] (i : Int) < ofList [1, 5, 1, 3, 1] ((1 : Nat) : Int)) ∧
      ofList [1, 5, 1, 3, 1] ((1 : Nat) : Int) > (0 : DataType) ∧
      ∃ out, Origin.peakPicker (fun i _ => ofList [1, 5, 1, 3, 1] i) (fun _ => 0)
          ((5 : Nat) : Int) 1 ((3 : Nat) : Int) (fun _ => 0) = some out ∧
        out.numLocations = 2 ∧ cellsBelow out.locations out.numLocations = [2, 4] := by
  refine ⟨by decide, by decide, ?_⟩
  obtain ⟨out, hout, hnum, hread⟩ := Origin.peakPickerCap_spec 1000 (by omega)
    (fun i _ => ofList [1, 5, 1, 3, 1] i) (fun _ => 0) 5 1 3 (fun _ => 0)
  have hexp : Origin.expectedLocations 1000 (fun i _ => ofList [1, 5, 1, 3, 1] i) (fun _ => 0)
      5 1 3 = [2, 4] := by decide
  rw [hexp] at hnum hread
  exact ⟨out, hout, hnum, hread⟩

/-- C11 (amended): single strict global maximum in the batch kernel, one channel,
odd `W` with `1 <= W <= n <= MAX_XCORR_LENGTH`, `xcorr[g][0] > xcorr[i][0]` for all
`i != g` and `xcorr[g][0] > threshold[g]`.  Every returned location other than
`g + 1` is more than `W/2` away from `g + 1`; when `g` is not in the edge zone
(`W/2 <= g <= n-1-W/2`) and the run returns fewer than `MAX_LOCATIONS` peaks,
`g + 1` is returned; and when moreover every window contains `g`
(`n - W <= g <= W - 1`), exactly one peak is returned, `numLocations = 1` and
`locations[0] = g + 1`. -/
theorem C11_origin_single_maximum (xcorr : Int → Int → DataType) (threshold : Int → DataType)
    (n W g : Nat) (locations : Int → Int)
    (hodd : W % 2 = 1) (_hW : 1 ≤ W) (_hWn : W ≤ n) (_hn : (n : Int) ≤ Origin.MAX_XCORR_LENGTH)
    (hg : g < n)
    (hmax : ∀ j : Nat, j < n → j ≠ g → xcorr (j : Int) 0 < xcorr (g : Int) 0)
    (hth : xcorr (g : Int) 0 > threshold (g : Int)) :
    ∃ out, Origin.peakPicker xcorr threshold (n : Int) 1 (W : Int) locations = some out ∧
      (∀ p ∈ cellsBelow out.locations out.numLocations, p ≠ ((g + 1 : Nat) : Int) →
        p + ((W / 2 : Nat) : Int) < ((g + 1 : Nat) : Int) ∨
          ((g + 1 : Nat) : Int) + ((W / 2 : Nat) : Int) < p) ∧
      (W / 2 ≤ g → g + W / 2 < n → out.numLocations < Origin.MAX_LOCATIONS →
        ((g + 1 : Nat) : Int) ∈ cellsBelow out.locations out.numLocations) ∧
      (W / 2 ≤ g → g + W / 2 < n → n ≤ g + W → g < W →
        out.numLocations = 1 ∧
          cellsBelow out.locations out.numLocations = [((g + 1 : Nat) : Int)]) := by
  obtain ⟨out, hout, hnum, hread⟩ := Origin.peakPickerCap_spec 1000 (by omega) xcorr threshold
    n 1 W locations
  have hfar : ∀ p ∈ Origin.accepted xcorr threshold 1 W (n + 1 - W), p ≠ ((g + 1 : Nat) : Int) →
      p + ((W / 2 : Nat) : Int) < ((g + 1 : Nat) : Int) ∨
        ((g + 1 : Nat) : Int) + ((W / 2 : Nat) : Int) < p := by
    intro p hp hne
    obtain ⟨i, hi, hq, hpi⟩ := (Origin.mem_accepted xcorr threshold 1 W _ p).mp hp
    have hig : i + W / 2 ≠ g := by
      intro h
      apply hne
      rw [hpi, h]
    have := Origin.single_max_far xcorr threshold n W g i hodd hg hmax hi hq hig
    rw [hpi]
    omega
  have hmem : W / 2 ≤ g → g + W / 2 < n →
      ((g + 1 : Nat) : Int) ∈ Origin.accepted xcorr threshold 1 W (n + 1 - W) := by
    intro h1 h2
    refine (Origin.mem_accepted xcorr threshold 1 W _ _).mpr ⟨g - W / 2, by omega,
      Origin.single_max_qualifies xcorr threshold n W g hodd hmax hth h1 h2, ?_⟩
    congr 1
    omega
  refine ⟨out, hout, ?_, ?_, ?_⟩
  · intro p hp
    rw [hread, Origin.expectedLocations_eq] at hp
    exact hfar p (List.mem_of_mem_take hp)
  · intro h1 h2 hlt
    rw [hread, Origin.expectedLocations_eq]
    rw [hnum, Origin.expectedLocations_eq, List.length_take] at hlt
    have hM : Origin.MAX_LOCATIONS = 1000 := rfl
    rw [hM] at hlt
    rw [List.take_of_length_le (by omega)]
    exact hmem h1 h2
  · intro h1 h2 h3 h4
    have hsingle : Origin.accepted xcorr threshold 1 W (n + 1 - W) = [((g + 1 : Nat) : Int)] := by
      apply Origin.eq_singleton_of_pairwise_lt _ _ (Origin.accepted_pairwise _ _ _ _ _) _
        (hmem h1 h2)
      intro p hp
      by_contra hne
      have hf := hfar p hp hne
      obtain ⟨i, hi, _, hpi⟩ := (Origin.mem_accepted xcorr threshold 1 W _ p).mp hp
      rw [hpi] at hf
      omega
    have hexp : Origin.expectedLocations 1000 xcorr threshold n 1 W = [((g + 1 : Nat) : Int)] := by
      rw [Origin.expectedLocations_eq, hsingle]
      rfl
    rw [hexp] at hnum hread
    exact ⟨hnum, hread⟩

/-- Witness of C11 (amended) on the signal `[1,5,1]` with zero threshold and
window length 3, whose strict global maximum is at index 1: exactly one peak,
at location 2. -/
theorem C11_origin_single_maximum_witness :
    ∃ out, Origin.peakPicker (fun i _ => ofList [1, 5, 1] i) (fun _ => 0)
        ((3 : Nat) : Int) 1 ((3 : Nat) : Int) (fun _ => 0) = some out ∧
      out.numLocations = 1 ∧
      cellsBelow out.locations out.numLocations = [((1 + 1 : Nat) : Int)] :=
  (C11_origin_single_maximum (fun i _ => ofList [1, 5, 1] i) (fun _ => 0) 3 3 1
    (fun _ => 0) (by decide) (by decide) (by decide) (by decide) (by decide) (by decide)
    (by decide)).imp
    (fun _ h => ⟨h.1, h.2.2.2 (by decide) (by decide) (by decide) (by decide)⟩)

/-- C12: end-to-end example.  With window length 3, signal `[1,5,2,2,5,1]` and
zero threshold, the batch kernel (one channel), the array kernel and the
shift-register kernel each judge the candidates 1, 2, 3, 4 and no other (the
run of each kernel with its judged candidates recorded: for the batch kernel
the rows at which `threshold` is read, for the streaming kernels the values of
`candidateLocation`), accept 1 and 4 among them, and return the locations
`[2, 5]` with a count of 2. -/
theorem C12_end_to_end_example :
    (∃ out log, Origin.Traced.peakPicker (fun i _ => ofList [1, 5, 2, 2, 5, 1] i) (fun _ => 0)
          6 1 3 (fun _ => 0) = some (out, log) ∧
      Origin.peakPicker (fun i _ => ofList [1, 5, 2, 2, 5, 1] i) (fun _ => 0) 6 1 3
        (fun _ => 0) = some out ∧
      log.filterMap Origin.Access.thresholdRow = [1, 2, 3, 4] ∧
      out.numLocations = 2 ∧ cellsBelow out.locations out.numLocations = [2, 5] ∧
      cellsBelow out.locations out.numLocations
        = (([0, 1, 2, 3].filter (fun i => decide (Origin.Qualifying
            (fun i _ => ofList [1, 5, 2, 2, 5, 1] i) (fun _ => 0) 1 3 i))).map
            (fun i => ((i + 1 + 1 : Nat) : Int)))) ∧
    PerfOpt1.peakPicker ⟨[1, 5, 2, 2, 5, 1], [0, 0, 0, 0, 0, 0], []⟩ 6 3
      = .ok ⟨⟨[], [], [2, 5]⟩, 2⟩ ∧
    PerfOpt1.Traced.peakPicker ⟨[1, 5, 2, 2, 5, 1], [0, 0, 0, 0, 0, 0], []⟩ 6 3
      = .ok (⟨⟨[], [], [2, 5]⟩, 2⟩, [0, 1, 2, 3, 4, 5], [1, 2, 3, 4]) ∧
    PerfOpt2.peakPicker ⟨[1, 5, 2, 2, 5, 1], [0, 0, 0, 0, 0, 0], [], []⟩ 6 3
      = .returned ⟨[], [], [2, 5], [2]⟩ ∧
    PerfOpt2.Traced.peakPicker ⟨[1, 5, 2, 2, 5, 1], [0, 0, 0, 0, 0, 0], [], []⟩ 6 3
      = (.returned ⟨[], [], [2, 5], [2]⟩, [1, 2, 3, 4]) ∧
    ([2, 5] : List Nat)
      = ([1, 2, 3, 4].filter (fun c => decide (PerfOpt2.IsPeak [1, 5, 2, 2, 5, 1]
          [0, 0, 0, 0, 0, 0] 1 c))).map (fun c => c + 1) ∧
    ([2, 5] : List Nat)
      = ([0, 1, 2, 3].filter (fun i => decide (PerfOpt1.WindowRule
          (PerfOpt1.arrayOf [1, 5, 2, 2, 5, 1] 6) (PerfOpt1.arrayOf [0, 0, 0, 0, 0, 0] 6) 3 i))).map
          (fun i => i + 1 + 1) := by
  have h1 : PerfOpt1.Traced.peakPicker ⟨[1, 5, 2, 2, 5, 1], [0, 0, 0, 0, 0, 0], []⟩ 6 3
      = .ok (⟨⟨[], [], [2, 5]⟩, 2⟩, [0, 1, 2, 3, 4, 5], [1, 2, 3, 4]) := by decide
  have h2 : PerfOpt2.Traced.peakPicker ⟨[1, 5, 2, 2, 5, 1], [0, 0, 0, 0, 0, 0], [], []⟩ 6 3
      = (.returned ⟨[], [], [2, 5], [2]⟩, [1, 2, 3, 4]) := by decide
  refine ⟨?_, ?_, h1, ?_, h2, by decide, by decide⟩
  rotate_left
  · rw [PerfOpt1.traced_opt1_peakPicker_erase, h1]
    rfl
  · rw [PerfOpt2.traced_opt2_peakPicker_erase, h2]
  obtain ⟨out, log, htr, hrun, _⟩ := Origin.traced_peakPicker_spec
    (fun i _ => ofList [1, 5, 2, 2, 5, 1] i) (fun _ => 0) 6 1 3 (fun _ => 0) (by decide)
    (by decide)
  obtain ⟨o, ho, hnum, hread⟩ := Origin.peakPickerCap_spec 1000 (by omega)
    (fun i _ => ofList [1, 5, 2, 2, 5, 1] i) (fun _ => 0) 6 1 3 (fun _ => 0)
  have hexp : Origin.expectedLocations 1000 (fun i _ => ofList [1, 5, 2, 2, 5, 1] i) (fun _ => 0)
      6 1 3 = [2, 5] := by decide
  have ho' : Origin.peakPicker (fun i _ => ofList [1, 5, 2, 2, 5, 1] i) (fun _ => 0)
      ((6 : Nat) : Int) ((1 : Nat) : Int) ((3 : Nat) : Int) (fun _ => 0) = some o := ho
  have heq : o = out := Option.some.inj (ho'.symm.trans hrun)
  rw [hexp, heq] at hnum hread
  have hlog : (Origin.Traced.peakPicker (fun i _ => ofList [1, 5, 2, 2, 5, 1] i) (fun _ => 0)
      ((6 : Nat) : Int) ((1 : Nat) : Int) ((3 : Nat) : Int) (fun _ => 0)).map
      (fun r => r.2.filterMap Origin.Access.thresholdRow) = some [1, 2, 3, 4] := by
    decide
  rw [htr] at hlog
  refine ⟨out, log, htr, hrun, Option.some.inj hlog, hnum, hread, ?_⟩
  rw [hread]
  decide

/-- C13: configuration validation in the shift-register kernel, a failed `assert`
being an outcome of its own.  The call ends at an `assert` exactly when
`windowLength` is even (0 included), or `windowLength > 11`, or
`signalLength > 8192`; when it does, the four streams are as they were at the
call: nothing has been read and nothing has been written. -/
theorem C13_opt2_validation (streams : PerfOpt2.Streams) (signalLength windowLength : Nat) :
    ((∃ s, PerfOpt2.peakPicker streams signalLength windowLength = .assertFailed s) ↔
      (windowLength % 2 = 0 ∨ windowLength > PerfOpt2.MAX_WINDOW_LENGTH ∨
        signalLength > PerfOpt2.MAX_SIGNAL_LENGTH)) ∧
    (∀ s, PerfOpt2.peakPicker streams signalLength windowLength = .assertFailed s →
      s = streams) := by
  have hcases : (windowLength % 2 = 0 ∨ windowLength > PerfOpt2.MAX_WINDOW_LENGTH ∨
        signalLength > PerfOpt2.MAX_SIGNAL_LENGTH) →
      PerfOpt2.peakPicker streams signalLength windowLength = .assertFailed streams := by
    intro h
    unfold PerfOpt2.peakPicker
    by_cases h1 : windowLength ≤ PerfOpt2.MAX_WINDOW_LENGTH
    · rw [if_neg (not_not.mpr h1)]
      by_cases h2 : signalLength ≤ PerfOpt2.MAX_SIGNAL_LENGTH
      · rw [if_neg (not_not.mpr h2)]
        have h3 : ¬ windowLength % 2 = 1 := by omega
        rw [if_pos h3]
      · rw [if_pos h2]
    · rw [if_pos h1]
  have hconv : ∀ s, PerfOpt2.peakPicker streams signalLength windowLength = .assertFailed s →
      (windowLength % 2 = 0 ∨ windowLength > PerfOpt2.MAX_WINDOW_LENGTH ∨
        signalLength > PerfOpt2.MAX_SIGNAL_LENGTH) := by
    intro s hs
    by_contra hno
    have h1 : windowLength ≤ PerfOpt2.MAX_WINDOW_LENGTH := by omega
    have h2 : signalLength ≤ PerfOpt2.MAX_SIGNAL_LENGTH := by omega
    have h3 : windowLength % 2 = 1 := by omega
    unfold PerfOpt2.peakPicker at hs
    rw [if_neg (not_not.mpr h1), if_neg (not_not.mpr h2), if_neg (not_not.mpr h3)] at hs
    split at hs
    · exact PerfOpt2.Outcome.noConfusion hs
    · split at hs
      · exact PerfOpt2.Outcome.noConfusion hs
      · exact PerfOpt2.Outcome.noConfusion hs
  refine ⟨⟨fun ⟨s, hs⟩ => hconv s hs, fun h => ⟨streams, hcases h⟩⟩, ?_⟩
  intro s hs
  have := hcases (hconv s hs)
  rw [this] at hs
  injection hs with hs
  exact hs.symm

/-- C14, as stated, fails: the batch kernel called with the even window length 4
on the signal `[1,1,5,1,1]` with zero threshold and one channel returns
normally with one peak, location 3. -/
theorem C14_origin_even_window_counterexample :
    ∃ out, Origin.peakPicker (fun i _ => ofList [1, 1, 5, 1, 1] i) (fun _ => 0)
        ((5 : Nat) : Int) ((1 : Nat) : Int) ((4 : Nat) : Int) (fun _ => 0) = some out ∧
      out.numLocations = 1 ∧ cellsBelow out.locations out.numLocations = [3] := by
  obtain ⟨out, hout, hnum, hread⟩ := Origin.peakPickerCap_spec 1000 (by omega)
    (fun i _ => ofList [1, 1, 5, 1, 1] i) (fun _ => 0) 5 1 4 (fun _ => 0)
  have hexp : Origin.expectedLocations 1000 (fun i _ => ofList [1, 1, 5, 1, 1] i) (fun _ => 0)
      5 1 4 = [3] := by decide
  rw [hexp] at hnum hread
  exact ⟨out, hout, hnum, hread⟩

/-- C14 (amended): the batch kernel does not validate `windowLength`.  For an even
`windowLength` with `2 <= windowLength <= xcorrLength <= MAX_XCORR_LENGTH` and
`seqCount <= MAX_SEQ_NUMBER` the call returns normally; it runs the scan with
`middleLocation = windowLength/2`, so that the window `i .. i+windowLength-1` of
the candidate `c = i + windowLength/2` has `windowLength/2` samples before `c`
and `windowLength/2 - 1` after it, and `locations[0..numLocations)` is the list
of `c + 1` over the qualifying window starts, cut after `MAX_LOCATIONS` entries. -/
theorem C14_origin_even_window_scanned (xcorr : Int → Int → DataType)
    (threshold : Int → DataType) (xcorrLength seqCount windowLength : Nat)
    (locations : Int → Int)
    (_heven : windowLength % 2 = 0) (_hW : 2 ≤ windowLength) (hWn : windowLength ≤ xcorrLength)
    (_hn : (xcorrLength : Int) ≤ Origin.MAX_XCORR_LENGTH)
    (_hS : (seqCount : Int) ≤ Origin.MAX_SEQ_NUMBER) :
    ∃ out, Origin.peakPicker xcorr threshold (xcorrLength : Int) (seqCount : Int)
        (windowLength : Int) locations = some out ∧
      cellsBelow out.locations out.numLocations
        = (((List.range (xcorrLength - windowLength + 1)).filter
            (fun i => decide (Origin.Qualifying xcorr threshold seqCount windowLength i))).map
            (fun i => ((i + windowLength / 2 + 1 : Nat) : Int))).take
              Origin.MAX_LOCATIONS.toNat := by
  obtain ⟨out, hout, _, hread⟩ := Origin.peakPickerCap_spec 1000 (by omega) xcorr threshold
    xcorrLength seqCount windowLength locations
  refine ⟨out, hout, ?_⟩
  rw [hread]
  unfold Origin.expectedLocations
  have : xcorrLength + 1 - windowLength = xcorrLength - windowLength + 1 := by omega
  rw [this]
  rfl

/-- Witness of C14 (amended) on the signal `[1,1,5,1,1]` with zero threshold, one
channel and window length 4. -/
theorem C14_origin_even_window_scanned_witness :
    ∃ out, Origin.peakPicker (fun i _ => ofList [1, 1, 5, 1, 1] i) (fun _ => 0)
        ((5 : Nat) : Int) ((1 : Nat) : Int) ((4 : Nat) : Int) (fun _ => 0) = some out ∧
      cellsBelow out.locations out.numLocations
        = (((List.range (5 - 4 + 1)).filter
            (fun i => decide (Origin.Qualifying (fun i _ => ofList [1, 1, 5, 1, 1] i)
              (fun _ => 0) 1 4 i))).map
            (fun i => ((i + 4 / 2 + 1 : Nat) : Int))).take Origin.MAX_LOCATIONS.toNat :=
  C14_origin_even_window_scanned (fun i _ => ofList [1, 1, 5, 1, 1] i) (fun _ => 0) 5 1 4
    (fun _ => 0) (by decide) (by decide) (by decide) (by decide) (by decide)

/-- C17: uniform consumption.  For a valid run of the shift-register kernel (odd
`windowLength <= 11`, `n <= 8192`, streams holding at least `n` samples) exactly
the first `n` samples are taken off `xcorrStream` and off `thresholdStream`,
whatever was emitted, also when `MAX_PEAKS` locations were emitted before the
end of the signal; the samples after the first `n` stay in the streams. -/
theorem C17_opt2_uniform_consumption (x t : List DataType) (loc0 cnt0 : List Nat) (n W : Nat)
    (hodd : W % 2 = 1) (hW : W ≤ PerfOpt2.MAX_WINDOW_LENGTH)
    (hn : n ≤ PerfOpt2.MAX_SIGNAL_LENGTH) (hx : n ≤ x.length) (ht : n ≤ t.length) :
    ∃ s, PerfOpt2.peakPicker ⟨x, t, loc0, cnt0⟩ n W = .returned s ∧
      s.xcorrStream = x.drop n ∧ s.thresholdStream = t.drop n ∧
      x = x.take n ++ s.xcorrStream ∧ t = t.take n ++ s.thresholdStream :=
  ⟨_, PerfOpt2.opt2_peakPicker_spec x t loc0 cnt0 n W hodd hW hn hx ht, rfl, rfl,
    (List.take_append_drop n x).symm, (List.take_append_drop n t).symm⟩

set_option maxRecDepth 100000 in
/-- Witness of C17 on a constant signal of 120 samples with zero threshold and
window length 1, which reaches `MAX_PEAKS` after 100 samples, with 3 further
samples left in each stream. -/
theorem C17_opt2_uniform_consumption_witness :
    ∃ s, PerfOpt2.peakPicker ⟨List.replicate 123 1, List.replicate 123 0, [], []⟩ 120 1
        = .returned s ∧
      s.xcorrStream = (List.replicate 123 (1 : DataType)).drop 120 ∧
      s.thresholdStream = (List.replicate 123 (0 : DataType)).drop 120 ∧
      List.replicate 123 (1 : DataType)
        = (List.replicate 123 (1 : DataType)).take 120 ++ s.xcorrStream ∧
      List.replicate 123 (0 : DataType)
        = (List.replicate 123 (0 : DataType)).take 120 ++ s.thresholdStream :=
  C17_opt2_uniform_consumption (List.replicate 123 1) (List.replicate 123 0) [] [] 120 1
    (by decide) (by decide) (by decide) (by decide) (by decide)

/-- C18: the batch kernel called with `seqCount = 0`, for every signal, threshold
curve, `xcorrLength <= MAX_XCORR_LENGTH` and `windowLength >= 1`, returns
normally with `numLocations = 0` and the array `locations` as it was at the
call. -/
theorem C18_origin_no_channel (xcorr : Int → Int → DataType) (threshold : Int → DataType)
    (xcorrLength windowLength : Int) (locations : Int → Int)
    (_hn : xcorrLength ≤ Origin.MAX_XCORR_LENGTH) (_hW : 1 ≤ windowLength) :
    Origin.peakPicker xcorr threshold xcorrLength 0 windowLength locations
      = some ⟨locations, 0⟩ := by
  unfold Origin.peakPicker Origin.peakPickerCap
  exact Origin.SLIDE_WINDOW_no_channel _ xcorr threshold xcorrLength windowLength _ _ 0 _
    (by omega)

/-- Witness of C18 on the signal `[1,5,2,2,5,1]` with zero threshold and window
length 3. -/
theorem C18_origin_no_channel_witness :
    Origin.peakPicker (fun i _ => ofList [1, 5, 2, 2, 5, 1] i) (fun _ => 0) 6 0 3 (fun _ => 7)
      = some ⟨fun _ => 7, 0⟩ :=
  C18_origin_no_channel (fun i _ => ofList [1, 5, 2, 2, 5, 1] i) (fun _ => 0) 6 3 (fun _ => 7)
    (by decide) (by decide)

/-- C19: the fixed-window kernel (`HLS/perf_opt3`, window 11) against the
shift-register kernel (`HLS/perf_opt2`) run with `windowLength = 11`.  For
`0 <= signalLength <= 8192` and identical input streams holding at least
`signalLength` samples, whenever at most `MAX_PEAKS` candidates satisfy the rule,
both kernels return, leave the same input streams and write the same sequence
of locations. -/
theorem C19_opt3_opt2_same_rule (x t : List DataType) (n : Nat)
    (hn : n ≤ PerfOpt2.MAX_SIGNAL_LENGTH) (hx : n ≤ x.length) (ht : n ≤ t.length)
    (hcount : ((List.range' 5 (n - 2 * 5)).filter
      (fun c => decide (PerfOpt2.IsPeak x t 5 c))).length ≤ PerfOpt2.MAX_PEAKS) :
    ∃ (rest1 rest2 : List DataType) (locs counts : List Nat),
      PerfOpt3.peakPicker ⟨x, t, []⟩ (n : Int) = .ok ⟨rest1, rest2, locs⟩ ∧
      PerfOpt2.peakPicker ⟨x, t, [], []⟩ n 11 = .returned ⟨rest1, rest2, locs, counts⟩ := by
  have hid : (PerfOpt2.candidates x t 5 n).map toLocationType = PerfOpt2.candidates x t 5 n := by
    conv_rhs => rw [← List.map_id (PerfOpt2.candidates x t 5 n)]
    apply List.map_congr_left
    intro p hp
    obtain ⟨c, _, h2, _, hpc⟩ := (PerfOpt2.mem_candidates x t 5 n p).mp hp
    unfold toLocationType
    unfold PerfOpt2.MAX_SIGNAL_LENGTH at hn
    rw [id]
    omega
  have htake : PerfOpt2.expectedPeaks PerfOpt2.MAX_PEAKS x t n 11
      = PerfOpt2.candidates x t 5 n := by
    show (PerfOpt2.candidates x t 5 n).take PerfOpt2.MAX_PEAKS = _
    apply List.take_of_length_le
    unfold PerfOpt2.candidates
    rw [List.length_map]
    exact hcount
  refine ⟨x.drop n, t.drop n, PerfOpt2.candidates x t 5 n,
    [(PerfOpt2.candidates x t 5 n).length], ?_, ?_⟩
  · rw [PerfOpt3.opt3_peakPicker_spec x t [] n hx ht, hid]
    rfl
  · rw [PerfOpt2.opt2_peakPicker_spec x t [] [] n 11 (by decide) (by decide) hn hx ht, htake]
    rfl

set_option maxRecDepth 100000 in
/-- Witness of C19 on a signal of 12 samples with a plateau of two equal maxima
in the middle. -/
theorem C19_opt3_opt2_same_rule_witness :
    ∃ (rest1 rest2 : List DataType) (locs counts : List Nat),
      PerfOpt3.peakPicker ⟨[1, 1, 1, 1, 1, 7, 7, 1, 1, 1, 1, 1],
          [0, 0, 0, 0, 0, 0, 0, 0, 0, 0, 0, 0], []⟩ ((12 : Nat) : Int)
        = .ok ⟨rest1, rest2, locs⟩ ∧
      PerfOpt2.peakPicker ⟨[1, 1, 1, 1, 1, 7, 7, 1, 1, 1, 1, 1],
          [0, 0, 0, 0, 0, 0, 0, 0, 0, 0, 0, 0], [], []⟩ 12 11
        = .returned ⟨rest1, rest2, locs, counts⟩ :=
  C19_opt3_opt2_same_rule [1, 1, 1, 1, 1, 7, 7, 1, 1, 1, 1, 1]
    [0, 0, 0, 0, 0, 0, 0, 0, 0, 0, 0, 0] 12 (by decide) (by decide) (by decide) (by decide)

/-- C20: threshold strictness is the only difference between the batch kernel on
one channel and the array kernel.  For `windowLength >= 1`, a signal of length
`n <= 8192` and a threshold curve such that no sample equals its threshold and
at most `MAX_PEAKS` window starts qualify, `HLS/origin` (which tests `>=` and scans
the whole window) and `HLS/perf_opt1` (which tests `>` and skips the middle
position) both return, with the same sequence of locations and the same count. -/
theorem C20_origin_opt1_agree (x t : List DataType) (n W : Nat) (locations : Int → Int)
    (hW : 1 ≤ W) (hn : n ≤ PerfOpt1.MAX_SIGNAL_LENGTH) (hx : n ≤ x.length) (ht : n ≤ t.length)
    (hne : ∀ i, i < n → x.getD i 0 ≠ t.getD i 0)
    (hcount : ((List.range (n + 1 - W)).filter
      (fun i => decide (Origin.Qualifying (fun j _ => ofList x j) (ofList t) 1 W i))).length
        ≤ PerfOpt1.MAX_PEAKS) :
    ∃ out r, Origin.peakPicker (fun j _ => ofList x j) (ofList t) (n : Int) 1 (W : Int) locations
        = some out ∧
      PerfOpt1.peakPicker ⟨x, t, []⟩ n W = .ok r ∧
      cellsBelow out.locations out.numLocations
        = r.streams.locationsStream.map (fun (p : Nat) => (p : Int)) ∧
      out.numLocations = (r.numPeaks : Int) := by
  obtain ⟨out, hout, hnum, hread⟩ := Origin.peakPickerCap_spec 1000 (by omega)
    (fun j _ => ofList x j) (ofList t) n 1 W locations
  have hacc := Origin.accepted_eq_passed x t n W hW hne
  have hlen : (Origin.accepted (fun j _ => ofList x j) (ofList t) 1 W (n + 1 - W)).length
      ≤ 100 := by
    unfold Origin.accepted
    rw [List.length_map]
    exact hcount
  have hexp : Origin.expectedLocations 1000 (fun j _ => ofList x j) (ofList t) n 1 W
      = (PerfOpt1.expectedWritten x t n W).map (fun (p : Nat) => (p : Int)) := by
    rw [Origin.expectedLocations_eq, List.take_of_length_le (by omega)]
    unfold PerfOpt1.expectedWritten
    rw [List.take_of_length_le, hacc]
    rw [hacc, List.length_map] at hlen
    exact hlen
  refine ⟨out, _, hout, PerfOpt1.opt1_peakPicker_spec x t [] n W hn hx ht, ?_, ?_⟩
  · rw [hread, hexp]
    rfl
  · rw [hnum, hexp, List.length_map]

/-- Witness of C20 on the signal `[1,5,2,2,5,1]` with zero threshold and window
length 3. -/
theorem C20_origin_opt1_agree_witness :
    ∃ out r, Origin.peakPicker (fun j _ => ofList [1, 5, 2, 2, 5, 1] j)
        (ofList [0, 0, 0, 0, 0, 0]) ((6 : Nat) : Int) 1 ((3 : Nat) : Int) (fun _ => 0)
        = some out ∧
      PerfOpt1.peakPicker ⟨[1, 5, 2, 2, 5, 1], [0, 0, 0, 0, 0, 0], []⟩ 6 3 = .ok r ∧
      cellsBelow out.locations out.numLocations
        = r.streams.locationsStream.map (fun (p : Nat) => (p : Int)) ∧
      out.numLocations = (r.numPeaks : Int) :=
  C20_origin_opt1_agree [1, 5, 2, 2, 5, 1] [0, 0, 0, 0, 0, 0] 6 3 (fun _ => 0) (by decide)
    (by decide) (by decide) (by decide) (by decide) (by decide)


/-- C21, as stated, fails for the array kernel (`HLS/perf_opt1`): with
`signalLength = 8193 < windowLength = 8194` (both 16-bit values) and input
streams holding 8193 samples, the loop `InputRead` stores at index 8192 of the
local arrays `xcorr` and `threshold`, which have `MAX_SIGNAL_LENGTH = 8192`
cells (indices `0 .. 8191`): the call writes past the end of its arrays. -/
theorem C21_opt1_array_overrun_counterexample :
    (8193 : Nat) < 8194 ∧ (8194 : Nat) < 65536 ∧
    ∃ r stores judged,
      PerfOpt1.Traced.peakPicker ⟨List.replicate 8193 0, List.replicate 8193 0, []⟩ 8193 8194
        = .ok (r, stores, judged) ∧
      8192 ∈ stores ∧ ¬ 8192 < PerfOpt1.MAX_SIGNAL_LENGTH := by
  obtain ⟨r, hr⟩ := PerfOpt1.traced_opt1_short (List.replicate 8193 0) (List.replicate 8193 0)
    [] 8193 8194 (by omega) (by omega) (by rw [List.length_replicate])
    (by rw [List.length_replicate])
  exact ⟨by omega, by omega, r, _, _, hr, List.mem_range.mpr (by omega), by decide⟩

/-- C21 (amended): a signal shorter than the window yields no candidate, within
the capacity of the kernels.  For `xcorrLength < windowLength` the batch kernel
returns with `numLocations = 0` and the array `locations` as it was at the call
(any channel count).  For `signalLength < windowLength`, streams that hold
`signalLength` samples and nothing written before the call: the array kernel
(`HLS/perf_opt1`), when `signalLength <= MAX_SIGNAL_LENGTH`, stores the samples
at the indices `0 .. signalLength-1` of its local arrays, all inside the
arrays, judges no candidate, and returns with nothing written to
`locationsStream` and `numPeaks = 0`; the shift-register kernel
(`HLS/perf_opt2`, odd `windowLength <= 11`) returns with nothing written to
`peakLocStream` and the single count 0 written to `peakCountStream`. -/
theorem C21_short_signal_no_candidate (xcorr : Int → Int → DataType) (threshold : Int → DataType)
    (xcorrLength seqCount windowLength : Int) (locations : Int → Int)
    (x t : List DataType) (signalLength W : Nat)
    (hshort : xcorrLength < windowLength) (hshortN : signalLength < W)
    (hx : signalLength ≤ x.length) (ht : signalLength ≤ t.length) :
    Origin.peakPicker xcorr threshold xcorrLength seqCount windowLength locations
        = some ⟨locations, 0⟩ ∧
      (signalLength ≤ PerfOpt1.MAX_SIGNAL_LENGTH →
        PerfOpt1.peakPicker ⟨x, t, []⟩ signalLength W
          = .ok ⟨⟨x.drop signalLength, t.drop signalLength, []⟩, 0⟩ ∧
        PerfOpt1.Traced.peakPicker ⟨x, t, []⟩ signalLength W
          = .ok (⟨⟨x.drop signalLength, t.drop signalLength, []⟩, 0⟩,
              List.range signalLength, []) ∧
        ∀ i ∈ List.range signalLength, i < PerfOpt1.MAX_SIGNAL_LENGTH) ∧
      (W % 2 = 1 → W ≤ PerfOpt2.MAX_WINDOW_LENGTH →
        PerfOpt2.peakPicker ⟨x, t, [], []⟩ signalLength W
          = .returned ⟨x.drop signalLength, t.drop signalLength, [], [0]⟩) := by
  refine ⟨?_, ?_, ?_⟩
  · unfold Origin.peakPicker Origin.peakPickerCap Origin.SLIDE_WINDOW
    rw [if_neg (by omega)]
  · intro hn
    have hexp : PerfOpt1.expectedWritten x t signalLength W = [] := by
      unfold PerfOpt1.expectedWritten PerfOpt1.passed
      rw [Nat.sub_eq_zero_of_le (by omega)]
      rfl
    have hrun : PerfOpt1.peakPicker ⟨x, t, []⟩ signalLength W
        = .ok ⟨⟨x.drop signalLength, t.drop signalLength, []⟩, 0⟩ := by
      rw [PerfOpt1.opt1_peakPicker_spec x t [] signalLength W hn hx ht, hexp]
      rfl
    have hn16 : signalLength < 65536 := by
      unfold PerfOpt1.MAX_SIGNAL_LENGTH at hn
      omega
    obtain ⟨r, hr⟩ := PerfOpt1.traced_opt1_short x t [] signalLength W hn16 hshortN hx ht
    have her := PerfOpt1.traced_opt1_peakPicker_erase ⟨x, t, []⟩ signalLength W
    rw [hr, hrun] at her
    have hreq : r = ⟨⟨x.drop signalLength, t.drop signalLength, []⟩, 0⟩ :=
      (Except.ok.inj her).symm
    rw [hreq] at hr
    refine ⟨hrun, hr, ?_⟩
    intro i hi
    exact lt_of_lt_of_le (List.mem_range.mp hi) hn
  · intro hodd hW11
    have hexp : PerfOpt2.expectedPeaks PerfOpt2.MAX_PEAKS x t signalLength W = [] := by
      unfold PerfOpt2.expectedPeaks
      rw [Nat.sub_eq_zero_of_le (by omega)]
      rfl
    have hn : signalLength ≤ PerfOpt2.MAX_SIGNAL_LENGTH := by
      unfold PerfOpt2.MAX_WINDOW_LENGTH at hW11
      unfold PerfOpt2.MAX_SIGNAL_LENGTH
      omega
    rw [PerfOpt2.opt2_peakPicker_spec x t [] [] signalLength W hodd hW11 hn hx ht, hexp]
    rfl

/-- Witness of C21 (amended) on the two samples `[4,9]` with window length 3. -/
theorem C21_short_signal_no_candidate_witness :
    ((2 : Int) < 3 ∧ (2 : Nat) < 3 ∧ 2 ≤ [4, 9].length ∧ 2 ≤ [1, 1].length ∧
        2 ≤ PerfOpt1.MAX_SIGNAL_LENGTH ∧ 3 % 2 = 1 ∧ 3 ≤ PerfOpt2.MAX_WINDOW_LENGTH) ∧
      Origin.peakPicker (fun i _ => ofList [4, 9] i) (fun _ => 1) 2 1 3 (fun _ => 7)
        = some ⟨fun _ => 7, 0⟩ ∧
      (PerfOpt1.peakPicker ⟨[4, 9], [1, 1], []⟩ 2 3 = .ok ⟨⟨[], [], []⟩, 0⟩ ∧
        PerfOpt1.Traced.peakPicker ⟨[4, 9], [1, 1], []⟩ 2 3
          = .ok (⟨⟨[], [], []⟩, 0⟩, List.range 2, []) ∧
        ∀ i ∈ List.range 2, i < PerfOpt1.MAX_SIGNAL_LENGTH) ∧
      PerfOpt2.peakPicker ⟨[4, 9], [1, 1], [], []⟩ 2 3 = .returned ⟨[], [], [], [0]⟩ :=
  ⟨⟨by decide, by decide, by decide, by decide, by decide, by decide, by decide⟩,
    (C21_short_signal_no_candidate (fun i _ => ofList [4, 9] i) (fun _ => 1) 2 1 3 (fun _ => 7)
      [4, 9] [1, 1] 2 3 (by decide) (by decide) (by decide) (by decide)).1,
    (C21_short_signal_no_candidate (fun i _ => ofList [4, 9] i) (fun _ => 1) 2 1 3 (fun _ => 7)
      [4, 9] [1, 1] 2 3 (by decide) (by decide) (by decide) (by decide)).2.1 (by decide),
    (C21_short_signal_no_candidate (fun i _ => ofList [4, 9] i) (fun _ => 1) 2 1 3 (fun _ => 7)
      [4, 9] [1, 1] 2 3 (by decide) (by decide) (by decide) (by decide)).2.2 (by decide)
      (by decide)⟩

/-- C22: shift-register invariant of the shift-register kernel (`HLS/perf_opt2`).
For odd `W <= 11`, `signalLength <= 8192`, input streams `x`, `t` holding
`signalLength` samples, any content `uninit` of the two local arrays before the
loop `init_buffers`, and a step `k < signalLength`: right after the shift and
the two reads of step `k`, cell `i < W` of `xcorrBuffer` holds `x[k - i]` and
cell `i` of `thresholdBuffer` holds `t[k - i]` when `i <= k`, and both hold 0
when `i > k`.  Hence, for `k >= 1`, step `k` has put the newest pair in cell 0
and has moved every cell `i` with `i + 1 < W` of the registers of step `k - 1`
to cell `i + 1`; only the last cell `W - 1` of step `k - 1`, the oldest pair,
is no longer held.  The registers `b` are those of a state `st` from which the
loop `process_signal` of the call with this `signalLength` goes on at
`index = k + 1`. -/
theorem C22_opt2_shift_register (uninit : PerfOpt2.Buffers) (x t : List DataType)
    (loc0 cnt0 : List Nat) (signalLength W k : Nat) (hodd : W % 2 = 1)
    (hW11 : W ≤ PerfOpt2.MAX_WINDOW_LENGTH)
    (hn : signalLength ≤ PerfOpt2.MAX_SIGNAL_LENGTH) (hk : k < signalLength)
    (hx : signalLength ≤ x.length) (ht : signalLength ≤ t.length) :
    ∃ b, PerfOpt2.buffersAfterFrom uninit ⟨x, t, loc0, cnt0⟩ W k = .ok b ∧
      (∀ i, i < W → i ≤ k →
        b.xcorrBuffer i = x.getD (k - i) 0 ∧ b.thresholdBuffer i = t.getD (k - i) 0) ∧
      (∀ i, i < W → k < i → b.xcorrBuffer i = 0 ∧ b.thresholdBuffer i = 0) ∧
      (1 ≤ k → ∃ b', PerfOpt2.buffersAfterFrom uninit ⟨x, t, loc0, cnt0⟩ W (k - 1) = .ok b' ∧
        b.xcorrBuffer 0 = x.getD k 0 ∧ b.thresholdBuffer 0 = t.getD k 0 ∧
        ∀ i, i + 1 < W →
          b.xcorrBuffer (i + 1) = b'.xcorrBuffer i ∧
          b.thresholdBuffer (i + 1) = b'.thresholdBuffer i) ∧
      (∃ buffers st,
        PerfOpt2.init_buffers W (W + 1) 0 uninit = .ok buffers ∧
        st.buffers = b ∧
        PerfOpt2.process_signal signalLength W (W / 2) (signalLength + 1) 0
            ⟨buffers, 0, ⟨x, t, loc0, cnt0⟩⟩
          = PerfOpt2.process_signal signalLength W (W / 2) (signalLength - k) (k + 1) st) := by
  obtain ⟨b, hb, hbx, hbt⟩ := PerfOpt2.opt2_buffersAfterFrom_spec uninit x t loc0 cnt0 W k hodd hW11
    (by omega) (by omega) (by omega)
  refine ⟨b, hb, ?_, ?_, ?_,
    PerfOpt2.opt2_buffersAfter_on_run uninit ⟨x, t, loc0, cnt0⟩ signalLength W k hk hn b hb⟩
  · intro i hi hik
    rw [hbx i hi, hbt i hi, if_pos hik, if_pos hik]
    exact ⟨rfl, rfl⟩
  · intro i hi hik
    rw [hbx i hi, hbt i hi, if_neg (by omega), if_neg (by omega)]
    exact ⟨rfl, rfl⟩
  · intro hk1
    obtain ⟨b', hb', hbx', hbt'⟩ := PerfOpt2.opt2_buffersAfterFrom_spec uninit x t loc0 cnt0 W (k - 1) hodd
      hW11 (by omega) (by omega) (by omega)
    refine ⟨b', hb', ?_, ?_, ?_⟩
    · rw [hbx 0 (by omega), if_pos (Nat.zero_le _), Nat.sub_zero]
    · rw [hbt 0 (by omega), if_pos (Nat.zero_le _), Nat.sub_zero]
    · intro i hi
      rw [hbx (i + 1) hi, hbt (i + 1) hi, hbx' i (by omega), hbt' i (by omega)]
      by_cases h : i + 1 ≤ k
      · rw [if_pos h, if_pos h, if_pos (by omega), if_pos (by omega)]
        have he : k - (i + 1) = k - 1 - i := by omega
        rw [he]
        exact ⟨rfl, rfl⟩
      · rw [if_neg h, if_neg h, if_neg (by omega), if_neg (by omega)]
        exact ⟨rfl, rfl⟩

theorem C22_opt2_shift_register_witness :
    (3 % 2 = 1 ∧ 3 ≤ PerfOpt2.MAX_WINDOW_LENGTH ∧ 4 ≤ PerfOpt2.MAX_SIGNAL_LENGTH ∧ 1 < 4 ∧
        4 ≤ [5, 6, 7, 8].length ∧ 4 ≤ [1, 2, 3, 4].length) ∧
      ∃ b, PerfOpt2.buffersAfterFrom ⟨fun _ => 9, fun _ => 8⟩ ⟨[5, 6, 7, 8], [1, 2, 3, 4], [], []⟩ 3 1 = .ok b ∧
        (∀ i, i < 3 → i ≤ 1 →
          b.xcorrBuffer i = [5, 6, 7, 8].getD (1 - i) 0 ∧
          b.thresholdBuffer i = [1, 2, 3, 4].getD (1 - i) 0) ∧
        (∀ i, i < 3 → 1 < i → b.xcorrBuffer i = 0 ∧ b.thresholdBuffer i = 0) ∧
        (1 ≤ 1 → ∃ b', PerfOpt2.buffersAfterFrom ⟨fun _ => 9, fun _ => 8⟩ ⟨[5, 6, 7, 8], [1, 2, 3, 4], [], []⟩ 3 (1 - 1)
            = .ok b' ∧
          b.xcorrBuffer 0 = [5, 6, 7, 8].getD 1 0 ∧ b.thresholdBuffer 0 = [1, 2, 3, 4].getD 1 0 ∧
          ∀ i, i + 1 < 3 →
            b.xcorrBuffer (i + 1) = b'.xcorrBuffer i ∧
            b.thresholdBuffer (i + 1) = b'.thresholdBuffer i) ∧
        (∃ buffers st,
          PerfOpt2.init_buffers 3 (3 + 1) 0 ⟨fun _ => 9, fun _ => 8⟩ = .ok buffers ∧
          st.buffers = b ∧
          PerfOpt2.process_signal 4 3 (3 / 2) (4 + 1) 0
              ⟨buffers, 0, ⟨[5, 6, 7, 8], [1, 2, 3, 4], [], []⟩⟩
            = PerfOpt2.process_signal 4 3 (3 / 2) (4 - 1) (1 + 1) st) :=
  ⟨⟨by decide, by decide, by decide, by decide, by decide, by decide⟩,
    C22_opt2_shift_register ⟨fun _ => 9, fun _ => 8⟩ [5, 6, 7, 8] [1, 2, 3, 4] [] [] 4 3 1 (by decide) (by decide)
      (by decide) (by decide) (by decide) (by decide)⟩

/-- C23: index safety of the batch kernel.  For
`1 <= windowLength <= xcorrLength <= MAX_XCORR_LENGTH` and
`0 <= seqCount <= MAX_SEQ_NUMBER` the call, run with its array accesses
recorded, returns the output of the kernel, and every recorded access is in
bounds: each read `xcorr[r][s]` and `threshold[r]` has `0 <= r < xcorrLength`
and `0 <= s < seqCount`, each access `validSeqIndices[j]` has
`0 <= j < MAX_SEQ_NUMBER`, and each write `locations[j]` has
`0 <= j < MAX_LOCATIONS`.  In particular every access lies inside the declared
arrays (`r < MAX_XCORR_LENGTH`, `s < MAX_SEQ_NUMBER`). -/
theorem C23_origin_index_safety (xcorr : Int → Int → DataType) (threshold : Int → DataType)
    (xcorrLength seqCount windowLength : Nat) (locations : Int → Int)
    (hW : 1 ≤ windowLength) (_hWn : windowLength ≤ xcorrLength)
    (hn : (xcorrLength : Int) ≤ Origin.MAX_XCORR_LENGTH)
    (hS : (seqCount : Int) ≤ Origin.MAX_SEQ_NUMBER) :
    ∃ out log,
      Origin.Traced.peakPicker xcorr threshold (xcorrLength : Int) (seqCount : Int)
        (windowLength : Int) locations = some (out, log) ∧
      Origin.peakPicker xcorr threshold (xcorrLength : Int) (seqCount : Int)
        (windowLength : Int) locations = some out ∧
      (∀ a ∈ log, a.InBounds (xcorrLength : Int) (seqCount : Int)) ∧
      (∀ a ∈ log, a.InBounds Origin.MAX_XCORR_LENGTH Origin.MAX_SEQ_NUMBER) := by
  obtain ⟨out, log, htr, hrun, hsafe⟩ := Origin.traced_peakPicker_spec xcorr threshold
    xcorrLength seqCount windowLength locations hW hS
  exact ⟨out, log, htr, hrun, hsafe,
    fun a ha => Origin.inBounds_mono _ _ _ _ hn hS a (hsafe a ha)⟩

/-- Witness of C23 on the signal `[1,5,1]` with zero threshold, one channel and
window length 3: the call makes the eleven accesses listed, all in bounds, the
last one being the store of the location at `locations[0]`. -/
theorem C23_origin_index_safety_witness :
    (1 ≤ 3 ∧ 3 ≤ 3 ∧ ((3 : Nat) : Int) ≤ Origin.MAX_XCORR_LENGTH ∧
        ((1 : Nat) : Int) ≤ Origin.MAX_SEQ_NUMBER) ∧
      ∃ out log,
        Origin.Traced.peakPicker (fun i _ => ofList [1, 5, 1] i) (fun _ => 0) ((3 : Nat) : Int)
          ((1 : Nat) : Int) ((3 : Nat) : Int) (fun _ => 0) = some (out, log) ∧
        Origin.peakPicker (fun i _ => ofList [1, 5, 1] i) (fun _ => 0) ((3 : Nat) : Int)
          ((1 : Nat) : Int) ((3 : Nat) : Int) (fun _ => 0) = some out ∧
        (∀ a ∈ log, a.InBounds ((3 : Nat) : Int) ((1 : Nat) : Int)) ∧
        (∀ a ∈ log, a.InBounds Origin.MAX_XCORR_LENGTH Origin.MAX_SEQ_NUMBER) ∧
        log = [.xcorrRead 1 0, .thresholdRead 1, .validSeqIndicesWrite 0,
          .validSeqIndicesRead 0, .xcorrRead 1 0, .xcorrRead 0 0, .xcorrRead 1 0,
          .xcorrRead 1 0, .xcorrRead 1 0, .xcorrRead 2 0, .locationsWrite 0] := by
  refine ⟨⟨by decide, by decide, by decide, by decide⟩, ?_⟩
  obtain ⟨out, log, htr, hrun, hsafe, harr⟩ := C23_origin_index_safety
    (fun i _ => ofList [1, 5, 1] i) (fun _ => 0) 3 1 3 (fun _ => 0)
    (by decide) (by decide) (by decide) (by decide)
  have hlog : (Origin.Traced.peakPicker (fun i _ => ofList [1, 5, 1] i) (fun _ => 0)
      ((3 : Nat) : Int) ((1 : Nat) : Int) ((3 : Nat) : Int) (fun _ => 0)).map Prod.snd
      = some [.xcorrRead 1 0, .thresholdRead 1, .validSeqIndicesWrite 0,
          .validSeqIndicesRead 0, .xcorrRead 1 0, .xcorrRead 0 0, .xcorrRead 1 0,
          .xcorrRead 1 0, .xcorrRead 1 0, .xcorrRead 2 0, .locationsWrite 0] := by
    decide
  rw [htr] at hlog
  exact ⟨out, log, htr, hrun, hsafe, harr, Option.some.inj hlog⟩

/-- C24: nearby peaks are ties.  For the batch kernel with one channel and odd
`W` (`1 <= W <= xcorrLength <= MAX_XCORR_LENGTH`): if two returned locations
`p < q` have `q - p <= W/2`, then `xcorr[p-1][0] = xcorr[q-1][0]`; hence two
returned locations whose samples differ are more than `W/2` apart. -/
theorem C24_origin_nearby_peaks_tie (xcorr : Int → Int → DataType) (threshold : Int → DataType)
    (xcorrLength windowLength : Nat) (locations : Int → Int)
    (hodd : windowLength % 2 = 1) (_hW : 1 ≤ windowLength) (_hWn : windowLength ≤ xcorrLength)
    (_hn : (xcorrLength : Int) ≤ Origin.MAX_XCORR_LENGTH) :
    ∃ out, Origin.peakPicker xcorr threshold (xcorrLength : Int) 1 (windowLength : Int) locations
        = some out ∧
      ∀ p q : Int, p ∈ cellsBelow out.locations out.numLocations →
        q ∈ cellsBelow out.locations out.numLocations → p < q →
        (q - p ≤ ((windowLength / 2 : Nat) : Int) → xcorr (p - 1) 0 = xcorr (q - 1) 0) ∧
        (xcorr (p - 1) 0 ≠ xcorr (q - 1) 0 → ((windowLength / 2 : Nat) : Int) < q - p) := by
  obtain ⟨out, hout, _, hread⟩ := Origin.peakPickerCap_spec 1000 (by omega) xcorr threshold
    xcorrLength 1 windowLength locations
  refine ⟨out, hout, ?_⟩
  intro p q hp hq hpq
  rw [hread] at hp hq
  obtain ⟨i, _, hqi, hpi⟩ := Origin.mem_expectedLocations 1000 xcorr threshold xcorrLength 1
    windowLength p hp
  obtain ⟨j, _, hqj, hpj⟩ := Origin.mem_expectedLocations 1000 xcorr threshold xcorrLength 1
    windowLength q hq
  have hp1 : p - 1 = ((i + windowLength / 2 : Nat) : Int) := by rw [hpi]; push_cast; ring
  have hq1 : q - 1 = ((j + windowLength / 2 : Nat) : Int) := by rw [hpj]; push_cast; ring
  have hij : i < j := by rw [hpi, hpj] at hpq; omega
  have hnear : q - p ≤ ((windowLength / 2 : Nat) : Int) →
      xcorr (p - 1) 0 = xcorr (q - 1) 0 := by
    intro hd
    have hd' : j - i ≤ windowLength / 2 := by rw [hpi, hpj] at hd; omega
    have hwi := ((Origin.Qualifying_one_iff xcorr threshold windowLength i).mp hqi).2
      (windowLength / 2 + (j - i)) (by omega)
    have hwj := ((Origin.Qualifying_one_iff xcorr threshold windowLength j).mp hqj).2
      (windowLength / 2 - (j - i)) (by omega)
    have hei : i + (windowLength / 2 + (j - i)) = j + windowLength / 2 := by omega
    have hej : j + (windowLength / 2 - (j - i)) = i + windowLength / 2 := by omega
    rw [hei] at hwi
    rw [hej] at hwj
    rw [hp1, hq1]
    exact le_antisymm hwj hwi
  refine ⟨hnear, ?_⟩
  intro hne
  by_contra hcon
  exact hne (hnear (not_lt.mp hcon))

/-- Witness of C24 on the signal `[1,5,5,5,1]` with zero threshold and window
length 3: the locations 2 and 3 are both returned, they are `1 <= 3/2` apart,
and their samples are equal. -/
theorem C24_origin_nearby_peaks_tie_witness :
    (3 % 2 = 1 ∧ 1 ≤ 3 ∧ 3 ≤ 5 ∧ ((5 : Nat) : Int) ≤ Origin.MAX_XCORR_LENGTH) ∧
      ∃ out, Origin.peakPicker (fun i _ => ofList [1, 5, 5, 5, 1] i) (fun _ => 0)
          ((5 : Nat) : Int) 1 ((3 : Nat) : Int) (fun _ => 0) = some out ∧
        (2 : Int) ∈ cellsBelow out.locations out.numLocations ∧
        (3 : Int) ∈ cellsBelow out.locations out.numLocations ∧
        (3 : Int) - 2 ≤ ((3 / 2 : Nat) : Int) ∧
        (fun i _ => ofList [1, 5, 5, 5, 1] i) ((2 : Int) - 1) (0 : Int)
          = (fun i _ => ofList [1, 5, 5, 5, 1] i) ((3 : Int) - 1) (0 : Int) := by
  refine ⟨⟨by decide, by decide, by decide, by decide⟩, ?_⟩
  obtain ⟨out, hout, htie⟩ := C24_origin_nearby_peaks_tie
    (fun i _ => ofList [1, 5, 5, 5, 1] i) (fun _ => 0) 5 3 (fun _ => 0)
    (by decide) (by decide) (by decide) (by decide)
  obtain ⟨o, ho, _, hread⟩ := Origin.peakPickerCap_spec 1000 (by omega)
    (fun i _ => ofList [1, 5, 5, 5, 1] i) (fun _ => 0) 5 1 3 (fun _ => 0)
  have hexp : Origin.expectedLocations 1000 (fun i _ => ofList [1, 5, 5, 5, 1] i) (fun _ => 0)
      5 1 3 = [2, 3, 4] := by decide
  have ho' : Origin.peakPicker (fun i _ => ofList [1, 5, 5, 5, 1] i) (fun _ => 0)
      ((5 : Nat) : Int) 1 ((3 : Nat) : Int) (fun _ => 0) = some o := ho
  have heq : o = out := Option.some.inj (ho'.symm.trans hout)
  rw [heq, hexp] at hread
  have h2 : (2 : Int) ∈ cellsBelow out.locations out.numLocations := by rw [hread]; decide
  have h3 : (3 : Int) ∈ cellsBelow out.locations out.numLocations := by rw [hread]; decide
  exact ⟨out, hout, h2, h3, by decide, (htie 2 3 h2 h3 (by decide)).1 (by decide)⟩

/-- C25: single-channel threshold monotonicity of the batch kernel.  For one
channel, `1 <= windowLength <= xcorrLength <= MAX_XCORR_LENGTH` and two threshold
curves with `t[i] <= t'[i]` at every index of the signal: both calls return, and
if the call under `t` returns fewer than `MAX_LOCATIONS` locations then every
location returned under `t'` is returned under `t`. -/
theorem C25_origin_threshold_monotone (xcorr : Int → Int → DataType) (t t' : Int → DataType)
    (xcorrLength windowLength : Nat) (locations locations' : Int → Int)
    (hW : 1 ≤ windowLength) (_hWn : windowLength ≤ xcorrLength)
    (_hn : (xcorrLength : Int) ≤ Origin.MAX_XCORR_LENGTH)
    (hle : ∀ i : Int, 0 ≤ i → i < (xcorrLength : Int) → t i ≤ t' i) :
    ∃ out out',
      Origin.peakPicker xcorr t (xcorrLength : Int) 1 (windowLength : Int) locations = some out ∧
      Origin.peakPicker xcorr t' (xcorrLength : Int) 1 (windowLength : Int) locations'
        = some out' ∧
      (out.numLocations < Origin.MAX_LOCATIONS →
        ∀ p, p ∈ cellsBelow out'.locations out'.numLocations →
          p ∈ cellsBelow out.locations out.numLocations) := by
  obtain ⟨out, hout, hnum, hread⟩ := Origin.peakPickerCap_spec 1000 (by omega) xcorr t
    xcorrLength 1 windowLength locations
  obtain ⟨out', hout', _, hread'⟩ := Origin.peakPickerCap_spec 1000 (by omega) xcorr t'
    xcorrLength 1 windowLength locations'
  refine ⟨out, out', hout, hout', ?_⟩
  intro hlt p hp
  have hM : Origin.MAX_LOCATIONS = 1000 := rfl
  rw [hM, hnum] at hlt
  have hfull : Origin.expectedLocations 1000 xcorr t xcorrLength 1 windowLength
      = Origin.accepted xcorr t 1 windowLength (xcorrLength + 1 - windowLength) := by
    rw [Origin.expectedLocations_eq] at hlt ⊢
    rw [List.length_take] at hlt
    exact List.take_of_length_le (by omega)
  rw [hread'] at hp
  rw [hread, hfull]
  obtain ⟨i, hi, hq, hpi⟩ := Origin.mem_expectedLocations 1000 xcorr t' xcorrLength 1
    windowLength p hp
  refine (Origin.mem_accepted xcorr t 1 windowLength _ p).mpr ⟨i, hi, ?_, hpi⟩
  have hq' := (Origin.Qualifying_one_iff xcorr t' windowLength i).mp hq
  refine (Origin.Qualifying_one_iff xcorr t windowLength i).mpr ⟨?_, hq'.2⟩
  have hc := hle ((i + windowLength / 2 : Nat) : Int) (by omega) (by omega)
  exact le_trans hc hq'.1

/-- Witness of C25 on the signal `[1,5,1,3,1]` with window length 3, the curve
`t = 0` (locations 2 and 4) and the higher curve `t' = 4` (location 2). -/
theorem C25_origin_threshold_monotone_witness :
    (1 ≤ 3 ∧ 3 ≤ 5 ∧ ((5 : Nat) : Int) ≤ Origin.MAX_XCORR_LENGTH ∧
        ∀ i : Int, 0 ≤ i → i < ((5 : Nat) : Int) → (0 : DataType) ≤ 4) ∧
      ∃ out out',
        Origin.peakPicker (fun i _ => ofList [1, 5, 1, 3, 1] i) (fun _ => 0) ((5 : Nat) : Int) 1
          ((3 : Nat) : Int) (fun _ => 0) = some out ∧
        Origin.peakPicker (fun i _ => ofList [1, 5, 1, 3, 1] i) (fun _ => 4) ((5 : Nat) : Int) 1
          ((3 : Nat) : Int) (fun _ => 0) = some out' ∧
        out.numLocations < Origin.MAX_LOCATIONS ∧
        ∀ p, p ∈ cellsBelow out'.locations out'.numLocations →
          p ∈ cellsBelow out.locations out.numLocations := by
  refine ⟨⟨by decide, by decide, by decide, fun _ _ _ => by decide⟩, ?_⟩
  obtain ⟨out, out', hout, hout', hmono⟩ := C25_origin_threshold_monotone
    (fun i _ => ofList [1, 5, 1, 3, 1] i) (fun _ => 0) (fun _ => 4) 5 3 (fun _ => 0) (fun _ => 0)
    (by decide) (by decide) (by decide) (fun _ _ _ => by show (0 : Int) ≤ 4; decide)
  obtain ⟨o, ho, hnum, _⟩ := Origin.peakPickerCap_spec 1000 (by omega)
    (fun i _ => ofList [1, 5, 1, 3, 1] i) (fun _ => 0) 5 1 3 (fun _ => 0)
  have hexp : Origin.expectedLocations 1000 (fun i _ => ofList [1, 5, 1, 3, 1] i) (fun _ => 0)
      5 1 3 = [2, 4] := by decide
  have ho' : Origin.peakPicker (fun i _ => ofList [1, 5, 1, 3, 1] i) (fun _ => 0)
      ((5 : Nat) : Int) 1 ((3 : Nat) : Int) (fun _ => 0) = some o := ho
  have heq : o = out := Option.some.inj (ho'.symm.trans hout)
  have hlt : out.numLocations < Origin.MAX_LOCATIONS := by
    rw [← heq, hnum, hexp]
    decide
  exact ⟨out, out', hout, hout', hlt, hmono hlt⟩

/-- C26: multi-channel aggregation is not monotone in the threshold.  Batch
kernel, two channels, window length 3, three samples: channel 0 is `[0,5,0]` and
channel 1 is `[9,3,0]`.  Under the curve `t = 2` both channels reach the
threshold at the candidate (index 1) and channel 1 is not the maximum of its
window, so nothing is returned; under the higher curve `t' = 4` channel 1 no
longer reaches the threshold and location 2 is returned.  Neither call reaches
`MAX_LOCATIONS`. -/
theorem C26_origin_multichannel_not_monotone :
    (∀ i : Int, (fun _ => (2 : DataType)) i ≤ (fun _ => (4 : DataType)) i) ∧
    ∃ out out',
      Origin.peakPicker (fun i s => if s = 0 then ofList [0, 5, 0] i else ofList [9, 3, 0] i)
        (fun _ => 2) 3 2 3 (fun _ => 0) = some out ∧
      Origin.peakPicker (fun i s => if s = 0 then ofList [0, 5, 0] i else ofList [9, 3, 0] i)
        (fun _ => 4) 3 2 3 (fun _ => 0) = some out' ∧
      out.numLocations = 0 ∧ out'.numLocations = 1 ∧
      out.numLocations < Origin.MAX_LOCATIONS ∧ out'.numLocations < Origin.MAX_LOCATIONS ∧
      (2 : Int) ∈ cellsBelow out'.locations out'.numLocations ∧
      (2 : Int) ∉ cellsBelow out.locations out.numLocations := by
  refine ⟨fun _ => by show (2 : Int) ≤ 4; decide, ?_⟩
  obtain ⟨out, hout, hnum, hread⟩ := Origin.peakPickerCap_spec 1000 (by omega)
    (fun i s => if s = 0 then ofList [0, 5, 0] i else ofList [9, 3, 0] i) (fun _ => 2) 3 2 3
    (fun _ => 0)
  obtain ⟨out', hout', hnum', hread'⟩ := Origin.peakPickerCap_spec 1000 (by omega)
    (fun i s => if s = 0 then ofList [0, 5, 0] i else ofList [9, 3, 0] i) (fun _ => 4) 3 2 3
    (fun _ => 0)
  have hexp : Origin.expectedLocations 1000
      (fun i s => if s = 0 then ofList [0, 5, 0] i else ofList [9, 3, 0] i) (fun _ => 2) 3 2 3
      = [] := by decide
  have hexp' : Origin.expectedLocations 1000
      (fun i s => if s = 0 then ofList [0, 5, 0] i else ofList [9, 3, 0] i) (fun _ => 4) 3 2 3
      = [2] := by decide
  rw [hexp] at hnum hread
  rw [hexp'] at hnum' hread'
  refine ⟨out, out', hout, hout', hnum, hnum', ?_, ?_, ?_, ?_⟩
  · rw [hnum]; decide
  · rw [hnum']; decide
  · rw [hread']; decide
  · rw [hread]; decide
end PeakPicker
